import Mathlib

/-!
# Youtube-backend: relationship maintenance and authorization of the controllers

A shallow embedding of the Express/Mongoose handlers of the repository
(controllers/VideoController.js, controllers/channelController.js,
controllers/commentController.js, models/Channel.js, models/Video.js).

* A MongoDB collection is the list of its documents in insertion order.
* A handler is a function from the store, the authenticated user id
  (req.user.id, set by the protect middleware) and the request to a response
  and the stores produced by its successive writes.
* JavaScript numbers that are counters are integers (they may go negative).
* An exception thrown inside a handler is caught by its try/catch and turns
  into the 500 response; the writes done before the throw stay.
* A response is its status code and the top-level keys of its JSON body;
  populated references inside the documents sent are not modelled.
-/

namespace YoutubeBackend

/-- A MongoDB ObjectId; req.user.id and x.toString() are the same identifier as a string. -/
abbrev ObjectId := Nat

/-! ## JavaScript strings -/

/-- ECMAScript WhiteSpace and LineTerminator code points, the ones String.prototype.trim removes. -/
def isWhiteSpace (c : Char) : Bool :=
  let n := c.toNat
  n == 0x09 || n == 0x0A || n == 0x0B || n == 0x0C || n == 0x0D || n == 0x20 ||
  n == 0xA0 || n == 0x1680 || (0x2000 ≤ n && n ≤ 0x200A) || n == 0x2028 ||
  n == 0x2029 || n == 0x202F || n == 0x205F || n == 0x3000 || n == 0xFEFF

/-- Characters of a string with leading and trailing white space removed. -/
def trimChars (cs : List Char) : List Char :=
  ((cs.dropWhile isWhiteSpace).reverse.dropWhile isWhiteSpace).reverse

/-- String.prototype.trim. -/
def trim (s : String) : String := String.mk (trimChars s.data)

/-- String.prototype.length: the number of UTF-16 code units. -/
def jsLength (s : String) : Nat :=
  (s.data.map (fun c => if c.toNat < 0x10000 then 1 else 2)).sum

/-- Truthiness of a possibly undefined string: undefined and the empty string are falsy. -/
def truthy : Option String → Bool
  | none => false
  | some s => !s.data.isEmpty

/-- String.prototype.toLowerCase on the letters A to Z; every other character is kept.
It is the instance of the lowercase function used to evaluate the handlers on
ASCII inputs; the handlers themselves take the lowercase function as a parameter. -/
def asciiLower (s : String) : String := String.mk (s.data.map Char.toLower)

/-! ## Mongoose arrays of ObjectIds -/

/-- MongooseArray.includes: membership. -/
def includes (xs : List ObjectId) (x : ObjectId) : Bool := xs.contains x

/-- MongooseArray.push: append at the end. -/
def push (xs : List ObjectId) (x : ObjectId) : List ObjectId := xs ++ [x]

/-- MongooseArray.pull: remove every occurrence of the value. -/
def pull (xs : List ObjectId) (x : ObjectId) : List ObjectId := xs.filter (fun y => y != x)

/-! ## Documents -/

/-- Modelled from the spec: the User model (models/User.js is not among the sources).
The spec lists the identity fields and the four reference lists; the controllers
use exactly channels, likedVideos, dislikedVideos and subscribedChannels. -/
structure User where
  _id : ObjectId
  username : String
  email : String
  channels : List ObjectId
  likedVideos : List ObjectId
  dislikedVideos : List ObjectId
  subscribedChannels : List ObjectId
deriving DecidableEq, Repr

/-- A stored document of models/Channel.js (timestamps left out). -/
structure Channel where
  _id : ObjectId
  channelName : String
  handle : String
  description : Option String
  owner : ObjectId
  avatar : String
  banner : String
  subscribers : List ObjectId
  subscriberCount : Int
  videos : List ObjectId
  videoCount : Int
  totalViews : Int
  category : String
  isVerified : Bool
  isActive : Bool
deriving DecidableEq, Repr

/-- A stored document of models/Video.js (timestamps left out). -/
structure Video where
  _id : ObjectId
  title : String
  description : Option String
  videoUrl : String
  thumbnailUrl : String
  duration : String
  views : Int
  likes : List ObjectId
  dislikes : List ObjectId
  likeCount : Int
  dislikeCount : Int
  channel : ObjectId
  uploader : ObjectId
  category : String
  tags : List String
  comments : List ObjectId
  commentCount : Int
  isPublic : Bool
  isActive : Bool
deriving DecidableEq, Repr

/-- Modelled from the spec: the Comment model (models/Comment.js is not among the
sources). The fields are the ones the spec names and commentController.js reads and
writes; likeCount may be missing, which the controller guards against. -/
structure Comment where
  _id : ObjectId
  text : String
  author : ObjectId
  videoId : String
  likes : List ObjectId
  likeCount : Option Int
  isEdited : Bool
  editedAt : Option Nat
  isActive : Option Bool
deriving DecidableEq, Repr

/-- The database: four collections and the source of fresh ObjectIds. -/
structure Store where
  users : List User
  channels : List Channel
  videos : List Video
  comments : List Comment
  nextId : ObjectId
deriving DecidableEq, Repr

/-! ## Collections -/

/-- Model.findById: the first document with the identifier. -/
def findById {α : Type} (key : α → ObjectId) (docs : List α) (id : ObjectId) : Option α :=
  docs.find? (fun d => key d == id)

/-- doc.save() of a loaded document: the stored document with its identifier is replaced. -/
def saveDoc {α : Type} (key : α → ObjectId) : List α → α → List α
  | [], _ => []
  | d :: ds, x => if key d = key x then x :: ds else d :: saveDoc key ds x

/-- Model.findByIdAndDelete: the first document with the identifier is removed. -/
def deleteById {α : Type} (key : α → ObjectId) : List α → ObjectId → List α
  | [], _ => []
  | d :: ds, id => if key d = id then ds else d :: deleteById key ds id

/-! ## Responses -/

/-- The field pagination of a list response; pages is null when limit is 0. -/
structure Pagination where
  page : Nat
  limit : Nat
  pages : Option Nat
deriving DecidableEq, Repr

/-- The field data of a response: the document or documents sent (a document that
findById did not find is null), without the populated references, or the small
object the toggling handlers send. -/
inductive Payload where
  | video (doc : Option Video)
  | channel (doc : Option Channel)
  | comment (doc : Option Comment)
  | videos (docs : List Video)
  | channels (docs : List Channel)
  | comments (docs : List Comment)
  | liked (isLiked : Bool) (likeCount dislikeCount : Int)
  | disliked (isDisliked : Bool) (likeCount dislikeCount : Int)
  | subscription (isSubscribed : Bool) (subscriberCount : Int)
  | commentLiked (isLiked : Bool) (likeCount : Option Int)
deriving DecidableEq, Repr

/-- The number of elements of data when it is an array. -/
def Payload.length : Payload → Option Nat
  | .videos docs => some docs.length
  | .channels docs => some docs.length
  | .comments docs => some docs.length
  | _ => none

/-- The status code and the JSON body of a response; a field that is none is a key
the body does not have. -/
structure Response where
  status : Nat
  success : Bool
  message : Option String
  count : Option Nat := none
  total : Option Nat := none
  pagination : Option Pagination := none
  data : Option Payload := none
deriving DecidableEq, Repr

/-- The store after the last write of a handler, or the store it started from. -/
def finalStore (s : Store) (writes : List Store) : Store := writes.getLastD s

/-! ## controllers/VideoController.js: likeVideo and dislikeVideo -/

/-- Lines 267 to 287 of likeVideo: the in-memory changes to the loaded video and user. -/
def likeUpdate (video : Video) (user : User) (userId : ObjectId) : Video × User :=
  let isLiked := includes video.likes userId
  let isDisliked := includes video.dislikes userId
  if isLiked then
    ({ video with likes := pull video.likes userId, likeCount := video.likeCount - 1 },
     { user with likedVideos := pull user.likedVideos video._id })
  else
    let video1 := { video with likes := push video.likes userId, likeCount := video.likeCount + 1 }
    let user1 := { user with likedVideos := push user.likedVideos video._id }
    if isDisliked then
      ({ video1 with dislikes := pull video1.dislikes userId,
                     dislikeCount := video1.dislikeCount - 1 },
       { user1 with dislikedVideos := pull user1.dislikedVideos video._id })
    else (video1, user1)

/-- The handler likeVideo with the store after each of its two writes (video.save(), user.save()).
A missing user makes user.likedVideos throw before any write. -/
def likeVideoTrace (s : Store) (userId videoId : ObjectId) : Response × List Store :=
  match findById Video._id s.videos videoId with
  | none => ({ status := 404, success := false, message := some "Video not found" }, [])
  | some video =>
    match findById User._id s.users userId with
    | none => ({ status := 500, success := false,
                 message := some "Server error while liking video" }, [])
    | some user =>
      let isLiked := includes video.likes userId
      let vu := likeUpdate video user userId
      let s1 := { s with videos := saveDoc Video._id s.videos vu.1 }
      let s2 := { s1 with users := saveDoc User._id s1.users vu.2 }
      ({ status := 200, success := true,
         message := some (if isLiked then "Video unliked" else "Video liked"),
         data := some (.liked (!isLiked) vu.1.likeCount vu.1.dislikeCount) }, [s1, s2])

/-- The handler likeVideo: response and resulting store. -/
def likeVideo (s : Store) (userId videoId : ObjectId) : Response × Store :=
  let r := likeVideoTrace s userId videoId
  (r.1, finalStore s r.2)

/-- Lines 325 to 345 of dislikeVideo: the in-memory changes to the loaded video and user. -/
def dislikeUpdate (video : Video) (user : User) (userId : ObjectId) : Video × User :=
  let isLiked := includes video.likes userId
  let isDisliked := includes video.dislikes userId
  if isDisliked then
    ({ video with dislikes := pull video.dislikes userId, dislikeCount := video.dislikeCount - 1 },
     { user with dislikedVideos := pull user.dislikedVideos video._id })
  else
    let video1 := { video with dislikes := push video.dislikes userId,
                               dislikeCount := video.dislikeCount + 1 }
    let user1 := { user with dislikedVideos := push user.dislikedVideos video._id }
    if isLiked then
      ({ video1 with likes := pull video1.likes userId, likeCount := video1.likeCount - 1 },
       { user1 with likedVideos := pull user1.likedVideos video._id })
    else (video1, user1)

/-- The handler dislikeVideo with the store after each of its two writes. -/
def dislikeVideoTrace (s : Store) (userId videoId : ObjectId) : Response × List Store :=
  match findById Video._id s.videos videoId with
  | none => ({ status := 404, success := false, message := some "Video not found" }, [])
  | some video =>
    match findById User._id s.users userId with
    | none => ({ status := 500, success := false,
                 message := some "Server error while disliking video" }, [])
    | some user =>
      let isDisliked := includes video.dislikes userId
      let vu := dislikeUpdate video user userId
      let s1 := { s with videos := saveDoc Video._id s.videos vu.1 }
      let s2 := { s1 with users := saveDoc User._id s1.users vu.2 }
      ({ status := 200, success := true,
         message := some (if isDisliked then "Dislike removed" else "Video disliked"),
         data := some (.disliked (!isDisliked) vu.1.likeCount vu.1.dislikeCount) }, [s1, s2])

/-- The handler dislikeVideo: response and resulting store. -/
def dislikeVideo (s : Store) (userId videoId : ObjectId) : Response × Store :=
  let r := dislikeVideoTrace s userId videoId
  (r.1, finalStore s r.2)

/-- One call of likeVideo or dislikeVideo. -/
structure ReactionCall where
  dislike : Bool
  userId : ObjectId
  videoId : ObjectId
deriving DecidableEq, Repr

/-- The store after one reaction call. -/
def applyReaction (s : Store) (c : ReactionCall) : Store :=
  if c.dislike then (dislikeVideo s c.userId c.videoId).2 else (likeVideo s c.userId c.videoId).2

/-- The store after a sequence of reaction calls, in order. -/
def runReactions (s : Store) (calls : List ReactionCall) : Store := calls.foldl applyReaction s

/-- The reaction invariant of a video: duplicate-free disjoint lists mirrored by the counters. -/
def ReactionsConsistent (v : Video) : Prop :=
  v.likes.Nodup ∧ v.dislikes.Nodup ∧ (∀ u, u ∈ v.likes → u ∉ v.dislikes) ∧
  v.likeCount = v.likes.length ∧ v.dislikeCount = v.dislikes.length

/-! ## models/Channel.js -/

/-- The category enum shared by the Channel and the Video schema. -/
def categories : List String :=
  ["Technology", "Education", "Entertainment", "Gaming", "Music", "Sports", "News", "Comedy",
   "Film & Animation", "Autos & Vehicles", "Pets & Animals", "Travel & Events",
   "Howto & Style", "Science & Technology", "Nonprofits & Activism", "People & Blogs"]

/-- Mongoose maxlength validator: absent values pass. -/
def maxlengthOk (n : Nat) : Option String → Bool
  | none => true
  | some v => decide (jsLength v ≤ n)

/-- Mongoose enum validator: absent values pass. -/
def enumOk (allowed : List String) : Option String → Bool
  | none => true
  | some v => allowed.contains v

/-- The fields of req.body read by createChannel and updateChannel; none is undefined. -/
structure ChannelBody where
  channelName : Option String
  handle : Option String
  description : Option String
  category : Option String
  avatar : Option String
  banner : Option String
deriving DecidableEq, Repr

/-- A Channel document in memory, before it is saved: the required strings may be undefined. -/
structure ChannelDraft where
  channelName : Option String
  handle : Option String
  description : Option String
  owner : ObjectId
  avatar : String
  banner : String
  category : String
deriving DecidableEq, Repr

/-- The setters of the handle path (trim: true, lowercase: true), in declaration order.
Mongoose applies them when a document is built and when a query filter is cast. -/
def castHandle (lc : String → String) (h : String) : String := lc (trim h)

/-- Building new Channel(...) from the object createChannel passes: schema setters
and defaults are applied. -/
def newChannelDraft (lc : String → String) (body : ChannelBody) (owner : ObjectId) :
    ChannelDraft :=
  { channelName := body.channelName.map trim
    handle := body.handle.map (castHandle lc)
    description := body.description
    owner := owner
    avatar := body.avatar.getD "https://via.placeholder.com/150x150?text=Channel"
    banner := body.banner.getD "https://via.placeholder.com/1280x720?text=Channel+Banner"
    category := body.category.getD "Entertainment" }

/-- Schema validation of a Channel document (required, maxlength, enum). A required
string fails when it is undefined or empty. -/
def validateChannel (d : ChannelDraft) : Bool :=
  truthy d.channelName && maxlengthOk 100 d.channelName &&
  truthy d.handle &&
  maxlengthOk 1000 d.description &&
  enumOk categories (some d.category)

/-- Characters kept by replace(/[^a-z0-9]/g, ''). -/
def isLowerAlnum (c : Char) : Bool :=
  let n := c.toNat
  (97 ≤ n && n ≤ 122) || (48 ≤ n && n ≤ 57)

/-- Lines 80 to 83 of models/Channel.js:
channelName.toLowerCase().replace(/[^a-z0-9]/g, '').substring(0, 30). -/
def deriveHandle (lc : String → String) (channelName : String) : String :=
  String.mk (((lc channelName).data.filter isLowerAlnum).take 30)

/-- The hook channelSchema.pre('save'): "Create handle from channel name". The result
is none when this.channelName.toLowerCase() throws on an undefined name. -/
def channelPreSave (lc : String → String) (isModifiedChannelName : Bool) (d : ChannelDraft) :
    Option ChannelDraft :=
  if isModifiedChannelName && !truthy d.handle then
    match d.channelName with
    | none => none
    | some name => some { d with handle := some (deriveHandle lc name) }
  else some d

/-- Channel.create: build the document, then save it. Mongoose registers document
validation as the first pre-save hook, so the schema validators run before the hooks
declared with channelSchema.pre('save'); then the document is inserted, which the
unique index on handle rejects for a handle already stored. The result is none when
the promise rejects (ValidationError, TypeError or duplicate key). -/
def channelCreate (lc : String → String) (s : Store) (body : ChannelBody) (owner : ObjectId) :
    Option (Channel × Store) :=
  let d := newChannelDraft lc body owner
  if !validateChannel d then none
  else
    match channelPreSave lc d.channelName.isSome d with
    | none => none
    | some d1 =>
      match d1.channelName, d1.handle with
      | some name, some handle =>
        if s.channels.any (fun c => c.handle == handle) then none
        else
          let channel : Channel :=
            { _id := s.nextId, channelName := name, handle := handle,
              description := d1.description, owner := d1.owner, avatar := d1.avatar,
              banner := d1.banner, subscribers := [], subscriberCount := 0, videos := [],
              videoCount := 0, totalViews := 0, category := d1.category,
              isVerified := false, isActive := true }
          some (channel, { s with channels := s.channels ++ [channel], nextId := s.nextId + 1 })
      | _, _ => none

/-- Channel.findOne(\x7b handle \x7d): the filter value is cast with the setters of the
path; an undefined value is sent as null and matches no document, every stored
channel having a handle. -/
def findOneByHandle (lc : String → String) (channels : List Channel) (handle : Option String) :
    Option Channel :=
  match handle with
  | none => none
  | some h => channels.find? (fun c => c.handle == castHandle lc h)

/-- Channel.findOne(\x7b owner, channelName \x7d): the name is cast with its trim setter. -/
def findOneByOwnerAndName (channels : List Channel) (owner : ObjectId)
    (channelName : Option String) : Option Channel :=
  match channelName with
  | none => none
  | some n => channels.find? (fun c => c.owner == owner && c.channelName == trim n)

/-- Channel.findByIdAndUpdate(id, \x7b channelName, description, category, avatar, banner \x7d,
\x7b new: true, runValidators: true \x7d) on the loaded channel: undefined keys are dropped
from the update, setters and validators run on the keys that are set. The result is
none when validation fails. -/
def channelUpdate (c : Channel) (body : ChannelBody) : Option Channel :=
  let name := body.channelName.map trim
  if (match name with
      | none => true
      | some n => truthy (some n)) &&
     maxlengthOk 100 name && maxlengthOk 1000 body.description &&
     enumOk categories body.category then
    some { c with
      channelName := name.getD c.channelName
      description := (match body.description with
        | some d => some d
        | none => c.description)
      category := body.category.getD c.category
      avatar := body.avatar.getD c.avatar
      banner := body.banner.getD c.banner }
  else none

/-! ## controllers/channelController.js -/

/-- The handler createChannel with the store after each write (Channel.create, user.save()). -/
def createChannelTrace (lc : String → String) (s : Store) (userId : ObjectId)
    (body : ChannelBody) : Response × List Store :=
  match findOneByHandle lc s.channels body.handle with
  | some _ =>
    ({ status := 400, success := false,
       message := some "Handle already taken. Please choose a different handle." }, [])
  | none =>
    match findOneByOwnerAndName s.channels userId body.channelName with
    | some _ => ({ status := 400, success := false,
                   message := some "You already have a channel with this name" }, [])
    | none =>
      match channelCreate lc s body userId with
      | none => ({ status := 500, success := false,
                   message := some "Server error while creating channel" }, [])
      | some (channel, s1) =>
        match findById User._id s1.users userId with
        | none => ({ status := 500, success := false,
                     message := some "Server error while creating channel" }, [s1])
        | some user =>
          let user1 := { user with channels := push user.channels channel._id }
          let s2 := { s1 with users := saveDoc User._id s1.users user1 }
          ({ status := 201, success := true, message := some "Channel created successfully",
             data := some (.channel (findById Channel._id s2.channels channel._id)) }, [s1, s2])

/-- The handler createChannel: response and resulting store. -/
def createChannel (lc : String → String) (s : Store) (userId : ObjectId) (body : ChannelBody) :
    Response × Store :=
  let r := createChannelTrace lc s userId body
  (r.1, finalStore s r.2)

/-- The handler updateChannel. -/
def updateChannel (s : Store) (userId channelId : ObjectId) (body : ChannelBody) :
    Response × Store :=
  match findById Channel._id s.channels channelId with
  | none => ({ status := 404, success := false, message := some "Channel not found" }, s)
  | some channel =>
    if channel.owner ≠ userId then
      ({ status := 403, success := false,
         message := some "Not authorized to update this channel" }, s)
    else
      match channelUpdate channel body with
      | none => ({ status := 500, success := false,
                   message := some "Server error while updating channel" }, s)
      | some channel1 =>
        ({ status := 200, success := true, message := some "Channel updated successfully",
           data := some (.channel (some channel1)) },
         { s with channels := saveDoc Channel._id s.channels channel1 })

/-- The handler deleteChannel with the store after each write: Video.deleteMany,
user.save(), Channel.findByIdAndDelete. -/
def deleteChannelTrace (s : Store) (userId channelId : ObjectId) : Response × List Store :=
  match findById Channel._id s.channels channelId with
  | none => ({ status := 404, success := false, message := some "Channel not found" }, [])
  | some channel =>
    if channel.owner ≠ userId then
      ({ status := 403, success := false,
         message := some "Not authorized to delete this channel" }, [])
    else
      let s1 := { s with videos := s.videos.filter (fun v => v.channel != channel._id) }
      match findById User._id s1.users userId with
      | none => ({ status := 500, success := false,
                   message := some "Server error while deleting channel" }, [s1])
      | some user =>
        let user1 := { user with channels := pull user.channels channel._id }
        let s2 := { s1 with users := saveDoc User._id s1.users user1 }
        let s3 := { s2 with channels := deleteById Channel._id s2.channels channelId }
        ({ status := 200, success := true,
           message := some "Channel and all associated videos deleted successfully" },
         [s1, s2, s3])

/-- The handler deleteChannel: response and resulting store. -/
def deleteChannel (s : Store) (userId channelId : ObjectId) : Response × Store :=
  let r := deleteChannelTrace s userId channelId
  (r.1, finalStore s r.2)

/-- Lines 270 to 282 of subscribeToChannel: the in-memory changes to channel and user. -/
def subscribeUpdate (channel : Channel) (user : User) (userId : ObjectId) : Channel × User :=
  let isSubscribed := includes channel.subscribers userId
  if isSubscribed then
    ({ channel with subscribers := pull channel.subscribers userId,
                    subscriberCount := channel.subscriberCount - 1 },
     { user with subscribedChannels := pull user.subscribedChannels channel._id })
  else
    ({ channel with subscribers := push channel.subscribers userId,
                    subscriberCount := channel.subscriberCount + 1 },
     { user with subscribedChannels := push user.subscribedChannels channel._id })

/-- The handler subscribeToChannel with the store after each write (channel.save(),
user.save()). -/
def subscribeToChannelTrace (s : Store) (userId channelId : ObjectId) :
    Response × List Store :=
  match findById Channel._id s.channels channelId with
  | none => ({ status := 404, success := false, message := some "Channel not found" }, [])
  | some channel =>
    if channel.owner = userId then
      ({ status := 400, success := false,
         message := some "Cannot subscribe to your own channel" }, [])
    else
      match findById User._id s.users userId with
      | none => ({ status := 500, success := false,
                   message := some "Server error while subscribing to channel" }, [])
      | some user =>
        let isSubscribed := includes channel.subscribers userId
        let cu := subscribeUpdate channel user userId
        let s1 := { s with channels := saveDoc Channel._id s.channels cu.1 }
        let s2 := { s1 with users := saveDoc User._id s1.users cu.2 }
        ({ status := 200, success := true,
           message :=
             some (if isSubscribed then "Unsubscribed successfully" else "Subscribed successfully"),
           data := some (.subscription (!isSubscribed) cu.1.subscriberCount) },
         [s1, s2])

/-- The handler subscribeToChannel: response and resulting store. -/
def subscribeToChannel (s : Store) (userId channelId : ObjectId) : Response × Store :=
  let r := subscribeToChannelTrace s userId channelId
  (r.1, finalStore s r.2)

/-! ## models/Video.js and the rest of controllers/VideoController.js -/

/-- The fields of req.body read by createVideo and updateVideo; none is undefined. -/
structure VideoBody where
  title : Option String
  description : Option String
  videoUrl : Option String
  thumbnailUrl : Option String
  duration : Option String
  category : Option String
  tags : Option String
  channelId : Option ObjectId
deriving DecidableEq, Repr

/-- The pieces of String.prototype.split(',') as character lists. -/
def splitComma : List Char → List (List Char)
  | [] => [[]]
  | c :: cs =>
    if c = ',' then [] :: splitComma cs
    else
      match splitComma cs with
      | [] => [[c]]
      | p :: ps => (c :: p) :: ps

/-- The expression tags.split(',').map(tag => tag.trim()). -/
def splitTags (tags : String) : List String :=
  (splitComma tags.data).map (fun p => trim (String.mk p))

/-- Schema validation of the Video document createVideo builds (required, maxlength,
enum), after the trim setter of title. -/
def validateVideo (body : VideoBody) : Bool :=
  let title := body.title.map trim
  truthy title && maxlengthOk 200 title && maxlengthOk 5000 body.description &&
  truthy body.videoUrl && truthy body.category && enumOk categories body.category

/-- Video.create on the object createVideo passes: setters (trim on title and on each
tag), defaults, then the schema validators (required, maxlength, enum). The result is
none when the promise rejects with a ValidationError. -/
def videoCreate (s : Store) (body : VideoBody) (tags : List String)
    (channelId uploader : ObjectId) : Option (Video × Store) :=
  let title := body.title.map trim
  if validateVideo body then
    match title, body.videoUrl, body.category with
    | some t, some url, some cat =>
      let video : Video :=
        { _id := s.nextId, title := t, description := body.description, videoUrl := url,
          thumbnailUrl :=
            body.thumbnailUrl.getD "https://via.placeholder.com/1280x720?text=Video+Thumbnail",
          duration := body.duration.getD "0:00", views := 0, likes := [], dislikes := [],
          likeCount := 0, dislikeCount := 0, channel := channelId, uploader := uploader,
          category := cat, tags := tags.map trim, comments := [], commentCount := 0,
          isPublic := true, isActive := true }
      some (video, { s with videos := s.videos ++ [video], nextId := s.nextId + 1 })
    | _, _, _ => none
  else none

/-- Video.findByIdAndUpdate(id, \x7b title, description, thumbnailUrl, category, tags \x7d,
\x7b new: true, runValidators: true \x7d) on the loaded video: undefined keys are dropped
from the update, setters and validators run on the keys that are set. -/
def videoUpdate (v : Video) (body : VideoBody) (tags : List String) : Option Video :=
  let title := body.title.map trim
  if (match title with
      | none => true
      | some t => truthy (some t)) &&
     maxlengthOk 200 title && maxlengthOk 5000 body.description &&
     (match body.category with
      | none => true
      | some c => truthy (some c)) &&
     enumOk categories body.category then
    some { v with
      title := title.getD v.title
      description := (match body.description with
        | some d => some d
        | none => v.description)
      thumbnailUrl := body.thumbnailUrl.getD v.thumbnailUrl
      category := body.category.getD v.category
      tags := tags.map trim }
  else none

/-- The handler getVideo: every successful fetch increments views and saves the video. -/
def getVideo (s : Store) (videoId : ObjectId) : Response × Store :=
  match findById Video._id s.videos videoId with
  | none => ({ status := 404, success := false, message := some "Video not found" }, s)
  | some video =>
    let video1 := { video with views := video.views + 1 }
    ({ status := 200, success := true, message := none, data := some (.video (some video1)) },
     { s with videos := saveDoc Video._id s.videos video1 })

/-- The handler createVideo with the store after each write (Video.create, channel.save());
Channel.findById of an undefined channelId resolves to null. -/
def createVideoTrace (s : Store) (userId : ObjectId) (body : VideoBody) :
    Response × List Store :=
  match body.channelId with
  | none => ({ status := 404, success := false, message := some "Channel not found" }, [])
  | some channelId =>
    match findById Channel._id s.channels channelId with
    | none => ({ status := 404, success := false, message := some "Channel not found" }, [])
    | some channel =>
      if channel.owner ≠ userId then
        ({ status := 403, success := false,
           message := some "Not authorized to upload to this channel" }, [])
      else
        let tags := if truthy body.tags then splitTags (body.tags.getD "") else []
        match videoCreate s body tags channelId userId with
        | none => ({ status := 500, success := false,
                     message := some "Server error while creating video" }, [])
        | some (video, s1) =>
          let channel1 := { channel with videos := push channel.videos video._id,
                                         videoCount := channel.videoCount + 1 }
          let s2 := { s1 with channels := saveDoc Channel._id s1.channels channel1 }
          ({ status := 201, success := true, message := some "Video uploaded successfully",
             data := some (.video (findById Video._id s2.videos video._id)) }, [s1, s2])

/-- The handler createVideo: response and resulting store. -/
def createVideo (s : Store) (userId : ObjectId) (body : VideoBody) : Response × Store :=
  let r := createVideoTrace s userId body
  (r.1, finalStore s r.2)

/-- The handler updateVideo. -/
def updateVideo (s : Store) (userId videoId : ObjectId) (body : VideoBody) :
    Response × Store :=
  match findById Video._id s.videos videoId with
  | none => ({ status := 404, success := false, message := some "Video not found" }, s)
  | some video =>
    if video.uploader ≠ userId then
      ({ status := 403, success := false,
         message := some "Not authorized to update this video" }, s)
    else
      let tags := if truthy body.tags then splitTags (body.tags.getD "") else video.tags
      match videoUpdate video body tags with
      | none => ({ status := 500, success := false,
                   message := some "Server error while updating video" }, s)
      | some video1 =>
        ({ status := 200, success := true, message := some "Video updated successfully",
           data := some (.video (some video1)) },
         { s with videos := saveDoc Video._id s.videos video1 })

/-- The handler deleteVideo with the store after each write (channel.save() when the
channel exists, Video.findByIdAndDelete). -/
def deleteVideoTrace (s : Store) (userId videoId : ObjectId) : Response × List Store :=
  match findById Video._id s.videos videoId with
  | none => ({ status := 404, success := false, message := some "Video not found" }, [])
  | some video =>
    if video.uploader ≠ userId then
      ({ status := 403, success := false,
         message := some "Not authorized to delete this video" }, [])
    else
      match findById Channel._id s.channels video.channel with
      | some channel =>
        let channel1 := { channel with videos := pull channel.videos video._id,
                                       videoCount := channel.videoCount - 1 }
        let s1 := { s with channels := saveDoc Channel._id s.channels channel1 }
        let s2 := { s1 with videos := deleteById Video._id s1.videos videoId }
        ({ status := 200, success := true, message := some "Video deleted successfully" }, [s1, s2])
      | none =>
        let s2 := { s with videos := deleteById Video._id s.videos videoId }
        ({ status := 200, success := true, message := some "Video deleted successfully" }, [s2])

/-- The handler deleteVideo: response and resulting store. -/
def deleteVideo (s : Store) (userId videoId : ObjectId) : Response × Store :=
  let r := deleteVideoTrace s userId videoId
  (r.1, finalStore s r.2)

/-! ## controllers/commentController.js -/

/-- Modelled from the spec: Comment.create (models/Comment.js is not among the
sources). The comment is stored as given, with an empty likes set mirrored by a zero
likeCount, not edited and active. -/
def commentCreate (s : Store) (text : String) (author : ObjectId) (videoId : String) :
    Comment × Store :=
  let comment : Comment :=
    { _id := s.nextId, text := text, author := author, videoId := videoId, likes := [],
      likeCount := some 0, isEdited := false, editedAt := none, isActive := some true }
  (comment, { s with comments := s.comments ++ [comment], nextId := s.nextId + 1 })

/-- The handler addComment; req.user is the user set by protect, so the two guards on
req.user pass. -/
def addComment (s : Store) (userId : ObjectId) (text videoId : Option String) :
    Response × Store :=
  if !truthy text || !truthy (text.map trim) then
    ({ status := 400, success := false, message := some "Comment text is required" }, s)
  else if !truthy videoId then
    ({ status := 400, success := false, message := some "Video ID is required" }, s)
  else
    let cs := commentCreate s (trim (text.getD "")) userId (videoId.getD "")
    ({ status := 201, success := true, message := some "Comment added successfully",
       data := some (.comment (findById Comment._id cs.2.comments cs.1._id)) }, cs.2)

/-- The handler updateComment; now is Date.now(). The second comparison of the guard,
of a string with the ObjectId req.user._id, is always unequal, so the guard is
author.toString() !== req.user.id. An undefined text makes text.trim() throw. -/
def updateComment (s : Store) (userId commentId : ObjectId) (text : Option String)
    (now : Nat) : Response × Store :=
  match findById Comment._id s.comments commentId with
  | none => ({ status := 404, success := false, message := some "Comment not found" }, s)
  | some comment =>
    if comment.author ≠ userId then ({ status := 403, success := false,
                                       message := some "Not authorized" }, s)
    else
      match text with
      | none => ({ status := 500, success := false,
                   message := some "Server error while updating comment" }, s)
      | some t =>
        let comment1 := { comment with text := trim t, isEdited := true, editedAt := some now }
        let s1 := { s with comments := saveDoc Comment._id s.comments comment1 }
        ({ status := 200, success := true, message := none,
           data := some (.comment (findById Comment._id s1.comments comment._id)) }, s1)

/-- The handler deleteComment. -/
def deleteComment (s : Store) (userId commentId : ObjectId) : Response × Store :=
  match findById Comment._id s.comments commentId with
  | none => ({ status := 404, success := false, message := some "Comment not found" }, s)
  | some comment =>
    if comment.author ≠ userId then ({ status := 403, success := false,
                                       message := some "Not authorized" }, s)
    else
      ({ status := 200, success := true, message := some "Comment deleted successfully" },
       { s with comments := deleteById Comment._id s.comments commentId })

/-- The expression (n || d) on a possibly missing number: missing and 0 are falsy. -/
def numberOr (n : Option Int) (d : Int) : Int :=
  match n with
  | none => d
  | some k => if k = 0 then d else k

/-- The handler likeComment. -/
def likeComment (s : Store) (userId commentId : ObjectId) : Response × Store :=
  match findById Comment._id s.comments commentId with
  | none => ({ status := 404, success := false, message := some "Comment not found" }, s)
  | some comment =>
    let isLiked := includes comment.likes userId
    let comment1 :=
      if isLiked then
        { comment with likes := pull comment.likes userId,
                       likeCount := some (max (numberOr comment.likeCount 1 - 1) 0) }
      else
        { comment with likes := push comment.likes userId,
                       likeCount := some (numberOr comment.likeCount 0 + 1) }
    ({ status := 200, success := true, message := none,
       data := some (.commentLiked (!isLiked) comment1.likeCount) },
     { s with comments := saveDoc Comment._id s.comments comment1 })

/-! ## middleware/auth.js -/

/-- A claim of the decoded token that protect uses as a user id: absent (undefined or
another falsy value), a truthy value that does not cast to an ObjectId (findById
throws a CastError), or an ObjectId, written as toString() writes it or not. -/
inductive IdClaim where
  | absent
  | malformed (raw : String)
  | id (oid : ObjectId) (canonical : Bool)
deriving DecidableEq, Repr

/-- Truthiness of a claim. -/
def IdClaim.truthy : IdClaim → Bool
  | .absent => false
  | .malformed _ => true
  | .id _ _ => true

/-- The payload jwt.verify returns, as far as protect reads it. -/
structure Decoded where
  id : IdClaim
  userId : IdClaim
deriving DecidableEq, Repr

/-- The pieces of String.prototype.split(sep) for a one-character separator. -/
def splitOn (sep : Char) : List Char → List (List Char)
  | [] => [[]]
  | c :: cs =>
    if c = sep then [] :: splitOn sep cs
    else
      match splitOn sep cs with
      | [] => [[c]]
      | p :: ps => (c :: p) :: ps

/-- Lines 9 to 11 of protect: the token, undefined when the header is missing or does
not start with Bearer, or when it has no second piece. -/
def bearerToken (authorization : Option String) : Option String :=
  match authorization with
  | none => none
  | some h =>
    if truthy (some h) && "Bearer".data.isPrefixOf h.data then
      ((splitOn ' ' h.data).get? 1).map String.mk
    else none

/-- The block try \x7b user = await User.findById(x).select('-password') \x7d catch: a
claim that is absent or does not cast leaves user null. -/
def findUserByClaim (users : List User) : IdClaim → Option User
  | .absent => none
  | .malformed _ => none
  | .id oid _ => findById User._id users oid

/-- Strategy 3 of protect: among the first 10 users, projected to _id, username and
email, the first whose _id.toString() is strictly equal to the target
(decoded.id || decoded.userId). A target that is no ObjectId string, or is not written
as toString() writes it, equals none. -/
def scanUsers (users : List User) (target : IdClaim) : Option User :=
  match target with
  | .id oid true =>
    ((users.take 10).map (fun u =>
      ({ _id := u._id, username := u.username, email := u.email, channels := [],
         likedVideos := [], dislikedVideos := [], subscribedChannels := [] } : User))).find?
      (fun u => u._id == oid)
  | _ => none

/-- What protect does with a request: it answers itself, or it calls next() once with
req.user set. -/
inductive ProtectResult where
  | denied (res : Response)
  | next (user : User)
deriving DecidableEq, Repr

/-- The middleware protect; verify is jwt.verify with the secret, none when it throws
(malformed token, wrong signature, expired). -/
def protect (verify : String → Option Decoded) (s : Store) (authorization : Option String) :
    ProtectResult :=
  let token := bearerToken authorization
  if !truthy token then
    .denied { status := 401, success := false,
              message := some "No token, authorization denied" }
  else
    match verify (token.getD "") with
    | none => .denied { status := 401, success := false, message := some "Token is not valid" }
    | some decoded =>
      let user1 := findUserByClaim s.users decoded.id
      let user2 :=
        if user1.isNone && decoded.userId.truthy then findUserByClaim s.users decoded.userId
        else user1
      let user3 :=
        if user2.isNone then
          scanUsers s.users (if decoded.id.truthy then decoded.id else decoded.userId)
        else user2
      match user3 with
      | none => .denied { status := 401, success := false, message := some "User not found" }
      | some user => .next user

/-- The middleware of the comparison, written from the spec's words: protect with only
the two direct lookups, by decoded.id and then by decoded.userId, and without the scan
of the first 10 users. -/
def protectDirect (verify : String → Option Decoded) (s : Store)
    (authorization : Option String) : ProtectResult :=
  let token := bearerToken authorization
  if !truthy token then
    .denied { status := 401, success := false,
              message := some "No token, authorization denied" }
  else
    match verify (token.getD "") with
    | none => .denied { status := 401, success := false, message := some "Token is not valid" }
    | some decoded =>
      let user1 := findUserByClaim s.users decoded.id
      let user2 :=
        if user1.isNone && decoded.userId.truthy then findUserByClaim s.users decoded.userId
        else user1
      match user2 with
      | none => .denied { status := 401, success := false, message := some "User not found" }
      | some user => .next user

/-! ## Sequences of requests -/

/-- A request to one of the handlers that write to the store, with the id of the
authenticated user where the route is protected. -/
inductive Op where
  | createChannel (userId : ObjectId) (body : ChannelBody)
  | updateChannel (userId channelId : ObjectId) (body : ChannelBody)
  | deleteChannel (userId channelId : ObjectId)
  | subscribeToChannel (userId channelId : ObjectId)
  | getVideo (videoId : ObjectId)
  | createVideo (userId : ObjectId) (body : VideoBody)
  | updateVideo (userId videoId : ObjectId) (body : VideoBody)
  | deleteVideo (userId videoId : ObjectId)
  | likeVideo (userId videoId : ObjectId)
  | dislikeVideo (userId videoId : ObjectId)
  | addComment (userId : ObjectId) (text videoId : Option String)
  | updateComment (userId commentId : ObjectId) (text : Option String) (now : Nat)
  | deleteComment (userId commentId : ObjectId)
  | likeComment (userId commentId : ObjectId)
deriving DecidableEq, Repr

/-- The response to a request and the store it leaves. -/
def step (lc : String → String) (s : Store) : Op → Response × Store
  | .createChannel u b => createChannel lc s u b
  | .updateChannel u c b => updateChannel s u c b
  | .deleteChannel u c => deleteChannel s u c
  | .subscribeToChannel u c => subscribeToChannel s u c
  | .getVideo v => getVideo s v
  | .createVideo u b => createVideo s u b
  | .updateVideo u v b => updateVideo s u v b
  | .deleteVideo u v => deleteVideo s u v
  | .likeVideo u v => likeVideo s u v
  | .dislikeVideo u v => dislikeVideo s u v
  | .addComment u t v => addComment s u t v
  | .updateComment u c t n => updateComment s u c t n
  | .deleteComment u c => deleteComment s u c
  | .likeComment u c => likeComment s u c

/-- The store after a sequence of requests, handled one after the other. -/
def run (lc : String → String) (s : Store) (ops : List Op) : Store :=
  ops.foldl (fun t op => (step lc t op).2) s

/-- The store after a sequence of subscribeToChannel calls, given as (user, channel) pairs. -/
def runSubscribes (s : Store) (calls : List (ObjectId × ObjectId)) : Store :=
  calls.foldl (fun t c => (subscribeToChannel t c.1 c.2).2) s

/-! ## The handlers that only read -/

/-- The order of sort(\x7b views: -1, likeCount: -1 \x7d): a does not come after b. -/
def rankedBefore (a b : Video) : Bool :=
  decide (b.views < a.views) ||
  (decide (b.views = a.views) && decide (b.likeCount ≤ a.likeCount))

/-- The query of getTrendingVideos: public active videos, sorted by views then
likeCount, both descending, limited to 20. The order of videos equal on both keys,
which MongoDB leaves open, is the one of an insertion sort. -/
def trendingVideos (s : Store) : List Video :=
  ((s.videos.filter (fun v => v.isPublic && v.isActive)).insertionSort
    (fun a b => rankedBefore a b = true)).take 20

/-- The handler getTrendingVideos. -/
def getTrendingVideos (s : Store) : Response :=
  let videos := trendingVideos s
  { status := 200, success := true, message := none, count := some videos.length,
    data := some (.videos videos) }

/-- The fields of req.query read by getVideos, getChannels and getChannelVideos; page
and limit are natural numbers when present. -/
structure ListQuery where
  page : Option Nat
  limit : Option Nat
  category : Option String
  search : Option String
  sort : Option String
deriving DecidableEq, Repr

/-- The part skip((page - 1) * limit) and limit(limit) of a query; a limit of 0 is no
limit. -/
def paginate {α : Type} (page limit : Nat) (docs : List α) : List α :=
  if limit = 0 then docs.drop ((page - 1) * limit)
  else (docs.drop ((page - 1) * limit)).take limit

/-- The value Math.ceil(total / limit); with limit 0 it is Infinity or NaN, which JSON
writes as null. -/
def pagesOf (total limit : Nat) : Option Nat :=
  if limit = 0 then none else some ((total + limit - 1) / limit)

/-- The body of a successful paginated list response. -/
def listResponse (data : Payload) (count total page limit : Nat) : Response :=
  { status := 200, success := true, message := none, count := some count,
    total := some total,
    pagination := some { page := page, limit := limit, pages := pagesOf total limit },
    data := some data }

/-- The $or of getVideos for a compiled search pattern: title, description or one of
the tags matches. -/
def videoMatches (m : String → Bool) (v : Video) : Bool :=
  m v.title ||
  (match v.description with
   | some d => m d
   | none => false) ||
  v.tags.any m

/-- The handler getVideos. The parameter regex compiles a case-insensitive pattern
(none when the pattern is invalid, which makes the handler throw) and sortVideos is
the sort of Mongoose for a sort string; page 0 with a positive limit is a negative
skip, which MongoDB rejects. -/
def getVideos (regex : String → Option (String → Bool))
    (sortVideos : String → List Video → List Video) (s : Store) (q : ListQuery) : Response :=
  let page := q.page.getD 1
  let limit := q.limit.getD 12
  let byCategory : Video → Bool :=
    match q.category with
    | some c => if truthy (some c) && c != "All" then fun v => v.category == c else fun _ => true
    | none => fun _ => true
  let bySearch : Option (Video → Bool) :=
    if truthy q.search then (regex (q.search.getD "")).map videoMatches
    else some (fun _ => true)
  match bySearch with
  | none => { status := 500, success := false,
              message := some "Server error while fetching videos" }
  | some accepts =>
    if page = 0 ∧ limit ≠ 0 then
      { status := 500, success := false, message := some "Server error while fetching videos" }
    else
      let found := s.videos.filter
        (fun v => v.isPublic && v.isActive && byCategory v && accepts v)
      let videos := paginate page limit (sortVideos (q.sort.getD "-createdAt") found)
      listResponse (.videos videos) videos.length found.length page limit

/-- The $or of getChannels for a compiled search pattern. -/
def channelMatches (m : String → Bool) (c : Channel) : Bool :=
  m c.channelName ||
  (match c.description with
   | some d => m d
   | none => false) ||
  m c.handle

/-- The handler getChannels; sort('-subscriberCount') is an insertion sort. -/
def getChannels (regex : String → Option (String → Bool)) (s : Store) (q : ListQuery) :
    Response :=
  let page := q.page.getD 1
  let limit := q.limit.getD 12
  let bySearch : Option (Channel → Bool) :=
    if truthy q.search then (regex (q.search.getD "")).map channelMatches
    else some (fun _ => true)
  match bySearch with
  | none => { status := 500, success := false,
              message := some "Server error while fetching channels" }
  | some accepts =>
    if page = 0 ∧ limit ≠ 0 then
      { status := 500, success := false,
        message := some "Server error while fetching channels" }
    else
      let found := s.channels.filter (fun c => c.isActive && accepts c)
      let channels := paginate page limit
        (found.insertionSort (fun a b => b.subscriberCount ≤ a.subscriberCount))
      listResponse (.channels channels) channels.length found.length page limit

/-- The handler getChannel. -/
def getChannel (s : Store) (channelId : ObjectId) : Response :=
  match findById Channel._id s.channels channelId with
  | none => { status := 404, success := false, message := some "Channel not found" }
  | some channel =>
    { status := 200, success := true, message := none, data := some (.channel (some channel)) }

/-- The handler getChannelVideos; sort('-createdAt') is the reverse of the insertion
order, timestamps being left out of the documents. -/
def getChannelVideos (s : Store) (channelId : ObjectId) (q : ListQuery) : Response :=
  let page := q.page.getD 1
  let limit := q.limit.getD 12
  match findById Channel._id s.channels channelId with
  | none => { status := 404, success := false, message := some "Channel not found" }
  | some _ =>
    if page = 0 ∧ limit ≠ 0 then
      { status := 500, success := false,
        message := some "Server error while fetching channel videos" }
    else
      let found := s.videos.filter
        (fun v => v.channel == channelId && v.isPublic && v.isActive)
      let videos := paginate page limit found.reverse
      listResponse (.videos videos) videos.length found.length page limit

/-- The handler getMyChannels. -/
def getMyChannels (s : Store) (userId : ObjectId) : Response :=
  let channels := (s.channels.filter (fun c => c.owner == userId)).reverse
  { status := 200, success := true, message := none, count := some channels.length,
    data := some (.channels channels) }

/-- The handler getVideoComments: the comments with the videoId string whose isActive
is not false, newest first. -/
def getVideoComments (s : Store) (videoId : String) : Response :=
  let comments :=
    (s.comments.filter (fun c => c.videoId == videoId && c.isActive != some false)).reverse
  { status := 200, success := true, message := none, count := some comments.length,
    data := some (.comments comments) }

/-- A request to one of the handlers that only read. -/
inductive ReadOp where
  | getVideos (q : ListQuery)
  | getTrendingVideos
  | getChannels (q : ListQuery)
  | getChannel (channelId : ObjectId)
  | getChannelVideos (channelId : ObjectId) (q : ListQuery)
  | getMyChannels (userId : ObjectId)
  | getVideoComments (videoId : String)
deriving DecidableEq, Repr

/-- The response to a reading request. -/
def answer (regex : String → Option (String → Bool))
    (sortVideos : String → List Video → List Video) (s : Store) : ReadOp → Response
  | .getVideos q => getVideos regex sortVideos s q
  | .getTrendingVideos => getTrendingVideos s
  | .getChannels q => getChannels regex s q
  | .getChannel c => getChannel s c
  | .getChannelVideos c q => getChannelVideos s c q
  | .getMyChannels u => getMyChannels s u
  | .getVideoComments v => getVideoComments s v

/-- The three handlers whose success response carries a message and no data. -/
def Op.isDelete : Op → Bool
  | .deleteChannel _ _ => true
  | .deleteVideo _ _ => true
  | .deleteComment _ _ => true
  | _ => false

/-- The body has count and an array data, and count is the length of data. -/
def Response.countsData (r : Response) : Prop :=
  ∃ d n, r.data = some d ∧ d.length = some n ∧ r.count = some n

/-- The shape of the response of a writing or single-entity handler: a success (200
or 201) has success true and carries data, or for a delete handler a message and no
data; an error (400 and above) has success false and a message. -/
def Response.wellShaped (isDelete : Bool) (r : Response) : Prop :=
  ((r.status = 200 ∨ r.status = 201) ∧ r.success = true ∧
    (if isDelete then r.message.isSome = true ∧ r.data = none else r.data.isSome = true)) ∨
  (400 ≤ r.status ∧ r.success = false ∧ r.message.isSome = true ∧ r.data = none)

/-! ## Requests as routed -/

/-- The id of the authenticated user of a request; getVideo is the one writing
handler on a public route. -/
def Op.userId : Op → Option ObjectId
  | .createChannel u _ => some u
  | .updateChannel u _ _ => some u
  | .deleteChannel u _ => some u
  | .subscribeToChannel u _ => some u
  | .getVideo _ => none
  | .createVideo u _ => some u
  | .updateVideo u _ _ => some u
  | .deleteVideo u _ => some u
  | .likeVideo u _ => some u
  | .dislikeVideo u _ => some u
  | .addComment u _ _ => some u
  | .updateComment u _ _ _ => some u
  | .deleteComment u _ => some u
  | .likeComment u _ => some u

/-- A request as the routers serve it: on a protected route protect comes first, and
it calls the handler only with req.user a stored user; a user id that is not stored
stands for a request protect answers with 401. -/
def serveStep (lc : String → String) (s : Store) (op : Op) : Response × Store :=
  match op.userId with
  | none => step lc s op
  | some u =>
    if (findById User._id s.users u).isSome then step lc s op
    else ({ status := 401, success := false, message := some "User not found" }, s)

/-- The store after a sequence of routed requests. -/
def serve (lc : String → String) (s : Store) (ops : List Op) : Store :=
  ops.foldl (fun t op => (serveStep lc t op).2) s

/-- The (id, channel) pairs of the stored videos, in order. -/
def videoRefs (s : Store) : List (ObjectId × ObjectId) :=
  s.videos.map (fun v => (v._id, v.channel))

/-- The (id, videos, videoCount) triples of the stored channels, in order. -/
def channelRefs (s : Store) : List (ObjectId × List ObjectId × Int) :=
  s.channels.map (fun c => (c._id, c.videos, c.videoCount))

/-- Consistency of the video lists: ids are below the next fresh id and unique, every
video references an id below the next fresh id, and every channel lists, in order,
the ids of the videos that reference it, with videoCount the length of the list. -/
def RefsConsistent (cr : List (ObjectId × List ObjectId × Int))
    (vr : List (ObjectId × ObjectId)) (n : ObjectId) : Prop :=
  (∀ c ∈ cr, c.1 < n) ∧ (cr.map (fun c => c.1)).Nodup ∧
  (∀ r ∈ vr, r.1 < n ∧ r.2 < n) ∧ (vr.map (fun r => r.1)).Nodup ∧
  ∀ c ∈ cr, c.2.1 = (vr.filter (fun r => r.2 == c.1)).map (fun r => r.1) ∧
    c.2.2 = (c.2.1.length : Int)

/-- The invariant of the video lists on a store. -/
def VideoListsConsistent (s : Store) : Prop :=
  RefsConsistent (channelRefs s) (videoRefs s) s.nextId

/-- No stored channel has its owner among its subscribers. -/
def NoSelfSubscription (s : Store) : Prop := ∀ c ∈ s.channels, c.owner ∉ c.subscribers

/-- The store after k successive getVideo calls for the same id. -/
def fetchTimes (s : Store) (videoId : ObjectId) : Nat → Store
  | 0 => s
  | k + 1 => (getVideo (fetchTimes s videoId k) videoId).2

/-- No video stored in s has, under the same id, fewer views in t. -/
def ViewsNotDecreased (s t : Store) : Prop :=
  ∀ (id : ObjectId) (w w1 : Video), findById Video._id s.videos id = some w →
    findById Video._id t.videos id = some w1 → w.views ≤ w1.views

/-! ## A small concrete store -/

/-- A user document with empty reference lists. -/
def mkUser (id : ObjectId) (name : String) : User :=
  { _id := id, username := name, email := name ++ "@example.com", channels := [],
    likedVideos := [], dislikedVideos := [], subscribedChannels := [] }

/-- The channel "Tech" of user 1, with video 20. -/
def techChannel : Channel :=
  { _id := 10, channelName := "Tech", handle := "tech", description := none, owner := 1,
    avatar := "a.png", banner := "b.png", subscribers := [], subscriberCount := 0,
    videos := [20], videoCount := 1, totalViews := 0, category := "Technology",
    isVerified := false, isActive := true }

/-- The video 20 of channel 10, uploaded by user 1, disliked by user 2. -/
def introVideo : Video :=
  { _id := 20, title := "Intro", description := none, videoUrl := "v.mp4",
    thumbnailUrl := "t.png", duration := "0:10", views := 0, likes := [], dislikes := [2],
    likeCount := 0, dislikeCount := 1, channel := 10, uploader := 1,
    category := "Technology", tags := [], comments := [], commentCount := 0,
    isPublic := true, isActive := true }

/-- The comment 30 of user 1 on video 20. -/
def firstComment : Comment :=
  { _id := 30, text := "hello", author := 1, videoId := "20", likes := [],
    likeCount := some 0, isEdited := false, editedAt := none, isActive := some true }

/-- User 1, the owner of channel 10. -/
def alice : User := { mkUser 1 "alice" with channels := [10] }

/-- User 2, who dislikes video 20. -/
def bob : User := { mkUser 2 "bob" with dislikedVideos := [20] }

/-- Users 1 and 2, one channel, one video, one comment. -/
def demoStore : Store :=
  { users := [alice, bob],
    channels := [techChannel], videos := [introVideo], comments := [firstComment],
    nextId := 100 }

/-- Users 1 and 2 and nothing else. -/
def usersOnlyStore : Store :=
  { users := [mkUser 1 "alice", mkUser 2 "bob"], channels := [], videos := [],
    comments := [], nextId := 100 }

/-- A comment whose likeCount is below zero although nobody likes it. -/
def negativeCountStore : Store :=
  { usersOnlyStore with
    comments := [{ firstComment with likeCount := some (-5) }] }

/-- Twenty-one public active videos with views 0 to 20, and a private one with 99. -/
def rankingStore : Store :=
  { usersOnlyStore with
    videos := (List.range 21).map (fun i =>
        { introVideo with _id := 200 + i, views := (i : Int), dislikes := [],
                          dislikeCount := 0 }) ++
      [{ introVideo with _id := 300, views := 99, isPublic := false }],
    nextId := 400 }

/-- A createChannel body with a name and, possibly, a handle. -/
def mkChannelBody (name : String) (handle : Option String) : ChannelBody :=
  { channelName := some name, handle := handle, description := none, category := none,
    avatar := none, banner := none }

/-- A createVideo body with a title, a video URL, a category and a channel id. -/
def mkVideoBody (title : String) (channelId : ObjectId) : VideoBody :=
  { title := some title, description := none, videoUrl := some "v.mp4", thumbnailUrl := none,
    duration := none, category := some "Technology", tags := none,
    channelId := some channelId }

/-- Two users upload to their channels, one video and one channel are deleted again,
and a request by an unknown user is turned away. -/
def uploadScenario : List Op :=
  [Op.createChannel 1 (mkChannelBody "Tech" (some "tech")),
   Op.createVideo 1 (mkVideoBody "First" 100),
   Op.createVideo 1 (mkVideoBody "Second" 100),
   Op.deleteVideo 1 101,
   Op.createChannel 2 (mkChannelBody "Cooking" (some "cook")),
   Op.createVideo 2 (mkVideoBody "Third" 103),
   Op.subscribeToChannel 2 100,
   Op.deleteChannel 2 103,
   Op.deleteChannel 7 100]

/-- Every tag of every stored video is as trim leaves it. -/
def TagsTrimmed (s : Store) : Prop := ∀ v ∈ s.videos, ∀ t ∈ v.tags, trim t = t

/-- Every stored video references a stored channel, and that channel's owner is the
video's uploader. -/
def UploadersOwnChannels (s : Store) : Prop :=
  ∀ v ∈ s.videos, ∃ c, findById Channel._id s.channels v.channel = some c ∧
    v.uploader = c.owner

/-- Where a video stored after a request comes from: a video stored before, with the
same id, channel and uploader, its tags kept or written anew through the trim setter;
or a new video of a stored channel that its uploader owns. -/
def VideoOrigin (s : Store) (v1 : Video) : Prop :=
  (∃ v ∈ s.videos, v1._id = v._id ∧ v1.channel = v.channel ∧ v1.uploader = v.uploader ∧
    (v1.tags = v.tags ∨ ∃ l : List String, v1.tags = l.map trim)) ∨
  (∃ c, findById Channel._id s.channels v1.channel = some c ∧ v1.uploader = c.owner ∧
    ∃ l : List String, v1.tags = l.map trim)

/-- A createVideo body for channel 10 with the given tags string. -/
def taggedBody (tags : Option String) : VideoBody :=
  { title := some "Tagged", description := none, videoUrl := some "v.mp4",
    thumbnailUrl := none, duration := none, category := some "Technology", tags := tags,
    channelId := some 10 }

/-- An updateVideo body that sets nothing but, possibly, the tags. -/
def tagsOnlyBody (tags : Option String) : VideoBody :=
  { title := none, description := none, videoUrl := none, thumbnailUrl := none,
    duration := none, category := none, tags := tags, channelId := none }

/-! ## Lemmas on collections and arrays -/

theorem findById_key {α : Type} (key : α → ObjectId) (docs : List α) (id : ObjectId) (d : α)
    (h : findById key docs id = some d) : key d = id := by
  unfold findById at h
  have := List.find?_some h
  simpa using this

theorem findById_mem {α : Type} (key : α → ObjectId) (docs : List α) (id : ObjectId) (d : α)
    (h : findById key docs id = some d) : d ∈ docs := by
  unfold findById at h
  exact List.mem_of_find?_eq_some h

theorem findById_nil {α : Type} (key : α → ObjectId) (id : ObjectId) :
    findById key ([] : List α) id = none := rfl

theorem findById_cons {α : Type} (key : α → ObjectId) (d : α) (ds : List α) (id : ObjectId) :
    findById key (d :: ds) id = if key d = id then some d else findById key ds id := by
  unfold findById
  by_cases h : key d = id <;> simp [List.find?_cons, h]

theorem findById_saveDoc {α : Type} (key : α → ObjectId) (docs : List α) (x : α) (id : ObjectId) :
    findById key (saveDoc key docs x) id =
      if key x = id then (if (findById key docs id).isSome then some x else none)
      else findById key docs id := by
  induction docs with
  | nil => simp [saveDoc, findById_nil]
  | cons d ds ih =>
    by_cases hd : key d = key x
    · by_cases hx : key x = id
      · simp [saveDoc, hd, hx, findById_cons]
      · have hne : ¬ key d = id := by rw [hd]; exact hx
        simp [saveDoc, hd, hx, findById_cons]
    · by_cases hx : key x = id
      · have hne : ¬ key d = id := by rw [← hx]; exact hd
        simp only [saveDoc, hd, if_false, findById_cons, hne, ih, hx, if_true]
      · by_cases hdi : key d = id
        · subst hdi
          simp [saveDoc, hd, hx, findById_cons]
        · simp [saveDoc, hd, hx, findById_cons, hdi, ih]

theorem findById_saveDoc_same {α : Type} (key : α → ObjectId) (docs : List α) (x d : α)
    (h : findById key docs (key x) = some d) :
    findById key (saveDoc key docs x) (key x) = some x := by
  rw [findById_saveDoc]; simp [h]

theorem findById_saveDoc_other {α : Type} (key : α → ObjectId) (docs : List α) (x : α)
    (id : ObjectId) (h : key x ≠ id) :
    findById key (saveDoc key docs x) id = findById key docs id := by
  rw [findById_saveDoc]; simp [h]

theorem mem_pull (xs : List ObjectId) (x y : ObjectId) : y ∈ pull xs x ↔ y ∈ xs ∧ y ≠ x := by
  simp [pull]

theorem mem_push (xs : List ObjectId) (x y : ObjectId) : y ∈ push xs x ↔ y ∈ xs ∨ y = x := by
  simp [push]

theorem includes_iff (xs : List ObjectId) (x : ObjectId) : includes xs x = true ↔ x ∈ xs := by
  simp [includes]

theorem nodup_pull (xs : List ObjectId) (x : ObjectId) (h : xs.Nodup) : (pull xs x).Nodup :=
  h.filter _

theorem nodup_push (xs : List ObjectId) (x : ObjectId) (h : xs.Nodup) (hx : x ∉ xs) :
    (push xs x).Nodup := by
  unfold push
  rw [List.nodup_append]
  refine ⟨h, List.nodup_singleton x, ?_⟩
  intro a ha hb
  simp at hb
  subst hb
  exact hx ha

theorem length_push (xs : List ObjectId) (x : ObjectId) :
    ((push xs x).length : Int) = xs.length + 1 := by
  simp [push]

theorem length_pull_of_mem (xs : List ObjectId) (x : ObjectId) (h : xs.Nodup) (hx : x ∈ xs) :
    ((pull xs x).length : Int) = xs.length - 1 := by
  have h1 : pull xs x = xs.erase x := by
    unfold pull
    rw [h.erase_eq_filter]
  rw [h1, List.length_erase_of_mem hx]
  have : 0 < xs.length := List.length_pos_of_mem hx
  omega

/-! ## Reactions keep the video invariant -/

theorem likeUpdate_id (video : Video) (user : User) (userId : ObjectId) :
    (likeUpdate video user userId).1._id = video._id := by
  unfold likeUpdate
  by_cases h1 : includes video.likes userId = true <;>
    by_cases h2 : includes video.dislikes userId = true <;> simp [h1, h2]

theorem dislikeUpdate_id (video : Video) (user : User) (userId : ObjectId) :
    (dislikeUpdate video user userId).1._id = video._id := by
  unfold dislikeUpdate
  by_cases h1 : includes video.likes userId = true <;>
    by_cases h2 : includes video.dislikes userId = true <;> simp [h1, h2]

theorem likeUpdate_user_id (video : Video) (user : User) (userId : ObjectId) :
    (likeUpdate video user userId).2._id = user._id := by
  unfold likeUpdate
  by_cases h1 : includes video.likes userId = true <;>
    by_cases h2 : includes video.dislikes userId = true <;> simp [h1, h2]

theorem dislikeUpdate_user_id (video : Video) (user : User) (userId : ObjectId) :
    (dislikeUpdate video user userId).2._id = user._id := by
  unfold dislikeUpdate
  by_cases h1 : includes video.likes userId = true <;>
    by_cases h2 : includes video.dislikes userId = true <;> simp [h1, h2]

theorem likeUpdate_consistent (video : Video) (user : User) (userId : ObjectId)
    (h : ReactionsConsistent video) : ReactionsConsistent (likeUpdate video user userId).1 := by
  obtain ⟨hl, hd, hdisj, hlc, hdc⟩ := h
  unfold likeUpdate
  by_cases h1 : includes video.likes userId = true
  · have hm : userId ∈ video.likes := (includes_iff _ _).1 h1
    simp only [h1, if_true]
    refine ⟨nodup_pull _ _ hl, hd, ?_, ?_, hdc⟩
    · intro u hu
      exact hdisj u ((mem_pull _ _ _).1 hu).1
    · show video.likeCount - 1 = ((pull video.likes userId).length : Int)
      rw [length_pull_of_mem _ _ hl hm, hlc]
  · have hm : userId ∉ video.likes := fun hc => h1 ((includes_iff _ _).2 hc)
    by_cases h2 : includes video.dislikes userId = true
    · have hm2 : userId ∈ video.dislikes := (includes_iff _ _).1 h2
      simp only [h1, h2, if_true]
      refine ⟨nodup_push _ _ hl hm, nodup_pull _ _ hd, ?_, ?_, ?_⟩
      · intro u hu hu2
        rcases (mem_push _ _ _).1 hu with hu1 | hu1
        · exact hdisj u hu1 ((mem_pull _ _ _).1 hu2).1
        · exact ((mem_pull _ _ _).1 hu2).2 hu1
      · show video.likeCount + 1 = ((push video.likes userId).length : Int)
        rw [length_push, hlc]
      · show video.dislikeCount - 1 = ((pull video.dislikes userId).length : Int)
        rw [length_pull_of_mem _ _ hd hm2, hdc]
    · have hm2 : userId ∉ video.dislikes := fun hc => h2 ((includes_iff _ _).2 hc)
      simp only [h1, h2]
      refine ⟨nodup_push _ _ hl hm, hd, ?_, ?_, hdc⟩
      · intro u hu hu2
        rcases (mem_push _ _ _).1 hu with hu1 | hu1
        · exact hdisj u hu1 hu2
        · exact hm2 (hu1 ▸ hu2)
      · show video.likeCount + 1 = ((push video.likes userId).length : Int)
        rw [length_push, hlc]

theorem dislikeUpdate_consistent (video : Video) (user : User) (userId : ObjectId)
    (h : ReactionsConsistent video) : ReactionsConsistent (dislikeUpdate video user userId).1 := by
  obtain ⟨hl, hd, hdisj, hlc, hdc⟩ := h
  unfold dislikeUpdate
  by_cases h2 : includes video.dislikes userId = true
  · have hm2 : userId ∈ video.dislikes := (includes_iff _ _).1 h2
    simp only [h2, if_true]
    refine ⟨hl, nodup_pull _ _ hd, ?_, hlc, ?_⟩
    · intro u hu hu2
      exact hdisj u hu ((mem_pull _ _ _).1 hu2).1
    · show video.dislikeCount - 1 = ((pull video.dislikes userId).length : Int)
      rw [length_pull_of_mem _ _ hd hm2, hdc]
  · have hm2 : userId ∉ video.dislikes := fun hc => h2 ((includes_iff _ _).2 hc)
    by_cases h1 : includes video.likes userId = true
    · have hm : userId ∈ video.likes := (includes_iff _ _).1 h1
      simp only [h1, h2, if_true]
      refine ⟨nodup_pull _ _ hl, nodup_push _ _ hd hm2, ?_, ?_, ?_⟩
      · intro u hu hu2
        rcases (mem_push _ _ _).1 hu2 with hu1 | hu1
        · exact hdisj u ((mem_pull _ _ _).1 hu).1 hu1
        · exact ((mem_pull _ _ _).1 hu).2 hu1
      · show video.likeCount - 1 = ((pull video.likes userId).length : Int)
        rw [length_pull_of_mem _ _ hl hm, hlc]
      · show video.dislikeCount + 1 = ((push video.dislikes userId).length : Int)
        rw [length_push, hdc]
    · have hm : userId ∉ video.likes := fun hc => h1 ((includes_iff _ _).2 hc)
      simp only [h1, h2]
      refine ⟨hl, nodup_push _ _ hd hm2, ?_, hlc, ?_⟩
      · intro u hu hu2
        rcases (mem_push _ _ _).1 hu2 with hu1 | hu1
        · exact hdisj u hu hu1
        · exact hm (hu1 ▸ hu)
      · show video.dislikeCount + 1 = ((push video.dislikes userId).length : Int)
        rw [length_push, hdc]

/-- The videos collection after likeVideo, in each of its outcomes. -/
theorem likeVideo_videos (s : Store) (userId videoId : ObjectId) :
    (likeVideo s userId videoId).2.videos = s.videos ∨
    ∃ video user, findById Video._id s.videos videoId = some video ∧
      findById User._id s.users userId = some user ∧
      (likeVideo s userId videoId).2.videos =
        saveDoc Video._id s.videos (likeUpdate video user userId).1 := by
  unfold likeVideo likeVideoTrace
  cases hv : findById Video._id s.videos videoId with
  | none => left; simp [finalStore]
  | some video =>
    cases hu : findById User._id s.users userId with
    | none => left; simp [finalStore]
    | some user => right; exact ⟨video, user, rfl, rfl, by simp [finalStore]⟩

/-- The videos collection after dislikeVideo, in each of its outcomes. -/
theorem dislikeVideo_videos (s : Store) (userId videoId : ObjectId) :
    (dislikeVideo s userId videoId).2.videos = s.videos ∨
    ∃ video user, findById Video._id s.videos videoId = some video ∧
      findById User._id s.users userId = some user ∧
      (dislikeVideo s userId videoId).2.videos =
        saveDoc Video._id s.videos (dislikeUpdate video user userId).1 := by
  unfold dislikeVideo dislikeVideoTrace
  cases hv : findById Video._id s.videos videoId with
  | none => left; simp [finalStore]
  | some video =>
    cases hu : findById User._id s.users userId with
    | none => left; simp [finalStore]
    | some user => right; exact ⟨video, user, rfl, rfl, by simp [finalStore]⟩

theorem applyReaction_consistent (s : Store) (c : ReactionCall) (vid : ObjectId)
    (h : ∃ v, findById Video._id s.videos vid = some v ∧ ReactionsConsistent v) :
    ∃ v, findById Video._id (applyReaction s c).videos vid = some v ∧ ReactionsConsistent v := by
  obtain ⟨v, hv, hc⟩ := h
  unfold applyReaction
  by_cases hk : c.dislike = true
  · rw [if_pos hk]
    rcases dislikeVideo_videos s c.userId c.videoId with h0 | ⟨video, user, hfv, -, h1⟩
    · rw [h0]; exact ⟨v, hv, hc⟩
    · rw [h1]
      have hid : (dislikeUpdate video user c.userId).1._id = c.videoId := by
        rw [dislikeUpdate_id]; exact findById_key _ _ _ _ hfv
      by_cases he : c.videoId = vid
      · subst he
        have hvv : video = v := Option.some.inj (hfv.symm.trans hv)
        subst hvv
        refine ⟨(dislikeUpdate video user c.userId).1, ?_, dislikeUpdate_consistent _ _ _ hc⟩
        rw [findById_saveDoc]
        simp [hid, hfv]
      · refine ⟨v, ?_, hc⟩
        rw [findById_saveDoc_other _ _ _ _ (by rw [hid]; exact he)]
        exact hv
  · rw [if_neg hk]
    rcases likeVideo_videos s c.userId c.videoId with h0 | ⟨video, user, hfv, -, h1⟩
    · rw [h0]; exact ⟨v, hv, hc⟩
    · rw [h1]
      have hid : (likeUpdate video user c.userId).1._id = c.videoId := by
        rw [likeUpdate_id]; exact findById_key _ _ _ _ hfv
      by_cases he : c.videoId = vid
      · subst he
        have hvv : video = v := Option.some.inj (hfv.symm.trans hv)
        subst hvv
        refine ⟨(likeUpdate video user c.userId).1, ?_, likeUpdate_consistent _ _ _ hc⟩
        rw [findById_saveDoc]
        simp [hid, hfv]
      · refine ⟨v, ?_, hc⟩
        rw [findById_saveDoc_other _ _ _ _ (by rw [hid]; exact he)]
        exact hv

theorem runReactions_consistent (calls : List ReactionCall) (s : Store) (vid : ObjectId)
    (h : ∃ v, findById Video._id s.videos vid = some v ∧ ReactionsConsistent v) :
    ∃ v, findById Video._id (runReactions s calls).videos vid = some v ∧
      ReactionsConsistent v := by
  induction calls generalizing s with
  | nil => exact h
  | cons c cs ih => exact ih (applyReaction s c) (applyReaction_consistent s c vid h)

/-- C1: from a video whose likes and dislikes are duplicate-free and disjoint and whose
counters equal the list lengths, every finite sequence of likeVideo and dislikeVideo calls,
by any users on any videos, leaves that video stored with likes and dislikes disjoint,
likeCount equal to the number of likes and dislikeCount to the number of dislikes. -/
theorem reactions_preserve_video_invariant (s : Store) (vid : ObjectId) (v : Video)
    (hfind : findById Video._id s.videos vid = some v)
    (hl : v.likes.Nodup) (hd : v.dislikes.Nodup)
    (hdisj : ∀ u, u ∈ v.likes → u ∉ v.dislikes)
    (hlc : v.likeCount = v.likes.length) (hdc : v.dislikeCount = v.dislikes.length)
    (calls : List ReactionCall) :
    ∃ w, findById Video._id (runReactions s calls).videos vid = some w ∧
      (∀ u, u ∈ w.likes → u ∉ w.dislikes) ∧
      w.likeCount = w.likes.length ∧ w.dislikeCount = w.dislikes.length := by
  obtain ⟨w, hw, -, -, h3, h4, h5⟩ :=
    runReactions_consistent calls s vid ⟨v, hfind, hl, hd, hdisj, hlc, hdc⟩
  exact ⟨w, hw, h3, h4, h5⟩

theorem reactions_preserve_video_invariant_witness :
    findById Video._id demoStore.videos 20 = some introVideo ∧
    ∃ w, findById Video._id
        (runReactions demoStore [⟨false, 2, 20⟩, ⟨true, 1, 20⟩, ⟨true, 2, 20⟩]).videos 20 =
          some w ∧
      (∀ u, u ∈ w.likes → u ∉ w.dislikes) ∧
      w.likeCount = w.likes.length ∧ w.dislikeCount = w.dislikes.length :=
  ⟨by decide,
   reactions_preserve_video_invariant demoStore 20 introVideo (by decide) (by decide)
     (by decide) (by decide) (by decide) (by decide) _⟩

/-! ## Channel creation -/

theorem findById_append_single {α : Type} (key : α → ObjectId) (docs : List α) (x : α)
    (id : ObjectId) :
    findById key (docs ++ [x]) id =
      (findById key docs id).or (if key x = id then some x else none) := by
  unfold findById
  rw [List.find?_append]
  by_cases h : key x = id <;> simp [List.find?_cons, h]

theorem findById_eq_none {α : Type} (key : α → ObjectId) (docs : List α) (id : ObjectId)
    (h : ∀ d ∈ docs, key d ≠ id) : findById key docs id = none := by
  unfold findById
  rw [List.find?_eq_none]
  intro d hd
  simpa using h d hd

theorem channelCreate_some (lc : String → String) (s : Store) (body : ChannelBody)
    (owner : ObjectId) (c : Channel) (s1 : Store)
    (h : channelCreate lc s body owner = some (c, s1)) :
    ∃ hd, body.handle = some hd ∧ c.handle = castHandle lc hd ∧
      truthy (some c.handle) = true ∧ c._id = s.nextId ∧ c.owner = owner ∧
      c.subscribers = [] ∧ c.subscriberCount = 0 ∧ c.videos = [] ∧ c.videoCount = 0 ∧
      s1 = { s with channels := s.channels ++ [c], nextId := s.nextId + 1 } := by
  unfold channelCreate at h
  cases hb : body.handle with
  | none => simp [newChannelDraft, validateChannel, hb, truthy] at h
  | some hd =>
    refine ⟨hd, rfl, ?_⟩
    cases hn : body.channelName with
    | none => simp [newChannelDraft, validateChannel, hn, truthy] at h
    | some name =>
      by_cases hv : validateChannel (newChannelDraft lc body owner) = true
      · have ht : truthy (some (castHandle lc hd)) = true := by
          simp only [validateChannel, newChannelDraft, hb, hn, Option.map_some',
            Bool.and_eq_true] at hv
          exact hv.1.1.2
        simp only [hv, Bool.not_true] at h
        simp only [channelPreSave, newChannelDraft, hb, hn, Option.map_some', ht,
          Option.isSome_some, Bool.not_true, Bool.and_false] at h
        simp at h
        obtain ⟨-, hc, hs⟩ := h
        subst hc
        subst hs
        simp [ht]
      · simp [hv] at h

theorem createChannel_created (lc : String → String) (s : Store) (userId : ObjectId)
    (body : ChannelBody) (h : (createChannel lc s userId body).1.status = 201) :
    ∃ c user, channelCreate lc s body userId =
        some (c, { s with channels := s.channels ++ [c], nextId := s.nextId + 1 }) ∧
      findOneByHandle lc s.channels body.handle = none ∧
      findOneByOwnerAndName s.channels userId body.channelName = none ∧
      findById User._id s.users userId = some user ∧
      (createChannel lc s userId body).2 =
        { users := saveDoc User._id s.users { user with channels := push user.channels c._id },
          channels := s.channels ++ [c], videos := s.videos, comments := s.comments,
          nextId := s.nextId + 1 } := by
  unfold createChannel createChannelTrace at h ⊢
  cases h1 : findOneByHandle lc s.channels body.handle with
  | some x => simp [h1] at h
  | none =>
    cases h2 : findOneByOwnerAndName s.channels userId body.channelName with
    | some x => simp [h1, h2] at h
    | none =>
      cases h3 : channelCreate lc s body userId with
      | none => simp [h1, h2, h3] at h
      | some cs =>
        obtain ⟨c, s1⟩ := cs
        obtain ⟨hd, -, -, -, -, -, -, -, -, -, hs1⟩ := channelCreate_some lc s body userId c s1 h3
        subst hs1
        cases h4 : findById User._id s.users userId with
        | none => simp [h1, h2, h3, h4] at h
        | some user =>
          refine ⟨c, user, rfl, rfl, rfl, rfl, ?_⟩
          simp [h4, finalStore]

/-! ## Subscriptions -/

theorem subscribeUpdate_id (channel : Channel) (user : User) (userId : ObjectId) :
    (subscribeUpdate channel user userId).1._id = channel._id := by
  unfold subscribeUpdate
  by_cases h1 : includes channel.subscribers userId = true <;> simp [h1]

theorem subscribeUpdate_owner (channel : Channel) (user : User) (userId : ObjectId) :
    (subscribeUpdate channel user userId).1.owner = channel.owner := by
  unfold subscribeUpdate
  by_cases h1 : includes channel.subscribers userId = true <;> simp [h1]

theorem subscribeUpdate_consistent (channel : Channel) (user : User) (userId : ObjectId)
    (hn : channel.subscribers.Nodup)
    (hc : channel.subscriberCount = channel.subscribers.length) :
    (subscribeUpdate channel user userId).1.subscribers.Nodup ∧
    (subscribeUpdate channel user userId).1.subscriberCount =
      (subscribeUpdate channel user userId).1.subscribers.length := by
  unfold subscribeUpdate
  by_cases h1 : includes channel.subscribers userId = true
  · have hm : userId ∈ channel.subscribers := (includes_iff _ _).1 h1
    simp only [h1, if_true]
    refine ⟨nodup_pull _ _ hn, ?_⟩
    show channel.subscriberCount - 1 = ((pull channel.subscribers userId).length : Int)
    rw [length_pull_of_mem _ _ hn hm, hc]
  · have hm : userId ∉ channel.subscribers := fun hx => h1 ((includes_iff _ _).2 hx)
    simp only [h1]
    refine ⟨nodup_push _ _ hn hm, ?_⟩
    show channel.subscriberCount + 1 = ((push channel.subscribers userId).length : Int)
    rw [length_push, hc]

/-- The store after subscribeToChannel, in each of its outcomes. -/
theorem subscribeToChannel_store (s : Store) (userId channelId : ObjectId) :
    (subscribeToChannel s userId channelId).2 = s ∨
    ∃ channel user, findById Channel._id s.channels channelId = some channel ∧
      channel.owner ≠ userId ∧ findById User._id s.users userId = some user ∧
      (subscribeToChannel s userId channelId).1.status = 200 ∧
      (subscribeToChannel s userId channelId).2 =
        { s with channels := saveDoc Channel._id s.channels
                   (subscribeUpdate channel user userId).1,
                 users := saveDoc User._id s.users (subscribeUpdate channel user userId).2 } := by
  unfold subscribeToChannel subscribeToChannelTrace
  cases hc : findById Channel._id s.channels channelId with
  | none => left; simp [finalStore]
  | some channel =>
    by_cases ho : channel.owner = userId
    · left; simp [ho, finalStore]
    · cases hu : findById User._id s.users userId with
      | none => left; simp [ho, finalStore]
      | some user => right; exact ⟨channel, user, rfl, ho, rfl, by simp [ho], by simp [ho, finalStore]⟩

theorem subscribeToChannel_consistent (s : Store) (userId channelId cid : ObjectId)
    (h : ∃ c, findById Channel._id s.channels cid = some c ∧ c.subscribers.Nodup ∧
      c.subscriberCount = c.subscribers.length) :
    ∃ c, findById Channel._id (subscribeToChannel s userId channelId).2.channels cid = some c ∧
      c.subscribers.Nodup ∧ c.subscriberCount = c.subscribers.length := by
  obtain ⟨c, hc, hn, hl⟩ := h
  rcases subscribeToChannel_store s userId channelId with h0 | ⟨channel, user, hfc, -, -, -, h1⟩
  · rw [h0]; exact ⟨c, hc, hn, hl⟩
  · rw [h1]
    have hid : (subscribeUpdate channel user userId).1._id = channelId := by
      rw [subscribeUpdate_id]; exact findById_key _ _ _ _ hfc
    by_cases he : channelId = cid
    · subst he
      have hcc : channel = c := Option.some.inj (hfc.symm.trans hc)
      subst hcc
      refine ⟨(subscribeUpdate channel user userId).1, ?_,
        subscribeUpdate_consistent _ _ _ hn hl⟩
      show findById Channel._id (saveDoc Channel._id s.channels _) channelId = _
      rw [findById_saveDoc]
      simp [hid, hfc]
    · refine ⟨c, ?_, hn, hl⟩
      show findById Channel._id (saveDoc Channel._id s.channels _) cid = _
      rw [findById_saveDoc_other _ _ _ _ (by rw [hid]; exact he)]
      exact hc

theorem runSubscribes_consistent (calls : List (ObjectId × ObjectId)) (s : Store)
    (cid : ObjectId)
    (h : ∃ c, findById Channel._id s.channels cid = some c ∧ c.subscribers.Nodup ∧
      c.subscriberCount = c.subscribers.length) :
    ∃ c, findById Channel._id (runSubscribes s calls).channels cid = some c ∧
      c.subscribers.Nodup ∧ c.subscriberCount = c.subscribers.length := by
  induction calls generalizing s with
  | nil => exact h
  | cons c cs ih => exact ih _ (subscribeToChannel_consistent s c.1 c.2 cid h)

/-- C2: a channel created by createChannel (stored under the fresh id, with no
subscribers and subscriberCount 0) has, after every finite sequence of
subscribeToChannel calls by any users on any channels, subscriberCount equal to the
number of entries of subscribers and no user twice in subscribers. -/
theorem subscribe_keeps_subscriberCount (lc : String → String) (s : Store) (userId : ObjectId)
    (body : ChannelBody) (hfresh : ∀ c ∈ s.channels, c._id ≠ s.nextId)
    (hcreated : (createChannel lc s userId body).1.status = 201)
    (calls : List (ObjectId × ObjectId)) :
    (∃ c, findById Channel._id (createChannel lc s userId body).2.channels s.nextId = some c ∧
      c.subscribers = [] ∧ c.subscriberCount = 0) ∧
    ∃ c, findById Channel._id
        (runSubscribes (createChannel lc s userId body).2 calls).channels s.nextId = some c ∧
      c.subscriberCount = c.subscribers.length ∧ c.subscribers.Nodup := by
  obtain ⟨c, user, hcc, -, -, -, hs⟩ := createChannel_created lc s userId body hcreated
  obtain ⟨hd, -, -, -, hid, -, hsub, hcnt, -, -, -⟩ := channelCreate_some lc s body userId c _ hcc
  have hfind : findById Channel._id (createChannel lc s userId body).2.channels s.nextId =
      some c := by
    rw [hs]
    show findById Channel._id (s.channels ++ [c]) s.nextId = some c
    rw [findById_append_single, findById_eq_none _ _ _ hfresh]
    simp [hid]
  refine ⟨⟨c, hfind, hsub, hcnt⟩, ?_⟩
  obtain ⟨w, hw, hn, hl⟩ := runSubscribes_consistent calls _ s.nextId
    ⟨c, hfind, by rw [hsub]; exact List.nodup_nil, by rw [hsub, hcnt]; rfl⟩
  exact ⟨w, hw, hl, hn⟩

theorem subscribe_keeps_subscriberCount_witness :
    (∀ c ∈ usersOnlyStore.channels, c._id ≠ usersOnlyStore.nextId) ∧
    (createChannel asciiLower usersOnlyStore 1 (mkChannelBody "Tech" (some "tech"))).1.status
      = 201 ∧
    ∃ c, findById Channel._id
        (runSubscribes (createChannel asciiLower usersOnlyStore 1
          (mkChannelBody "Tech" (some "tech"))).2 [(2, 100), (1, 100), (2, 100), (2, 100)]).channels
        usersOnlyStore.nextId = some c ∧
      c.subscriberCount = c.subscribers.length ∧ c.subscribers.Nodup :=
  ⟨by decide, by decide,
   (subscribe_keeps_subscriberCount asciiLower usersOnlyStore 1
     (mkChannelBody "Tech" (some "tech")) (by decide) (by decide) _).2⟩

/-! ## Reactions: one call, user lists in lockstep -/

theorem likeVideoTrace_found (s : Store) (userId videoId : ObjectId) (video : Video)
    (user : User) (hv : findById Video._id s.videos videoId = some video)
    (hu : findById User._id s.users userId = some user) :
    (likeVideoTrace s userId videoId).1.status = 200 ∧
    (likeVideoTrace s userId videoId).2 =
      [{ s with videos := saveDoc Video._id s.videos (likeUpdate video user userId).1 },
       { s with videos := saveDoc Video._id s.videos (likeUpdate video user userId).1,
                users := saveDoc User._id s.users (likeUpdate video user userId).2 }] := by
  simp [likeVideoTrace, hv, hu]

theorem dislikeVideoTrace_found (s : Store) (userId videoId : ObjectId) (video : Video)
    (user : User) (hv : findById Video._id s.videos videoId = some video)
    (hu : findById User._id s.users userId = some user) :
    (dislikeVideoTrace s userId videoId).1.status = 200 ∧
    (dislikeVideoTrace s userId videoId).2 =
      [{ s with videos := saveDoc Video._id s.videos (dislikeUpdate video user userId).1 },
       { s with videos := saveDoc Video._id s.videos (dislikeUpdate video user userId).1,
                users := saveDoc User._id s.users (dislikeUpdate video user userId).2 }] := by
  simp [dislikeVideoTrace, hv, hu]

theorem likeUpdate_switch (video : Video) (user : User) (userId : ObjectId)
    (hd : userId ∈ video.dislikes) (hl : userId ∉ video.likes) :
    userId ∈ (likeUpdate video user userId).1.likes ∧
    userId ∉ (likeUpdate video user userId).1.dislikes ∧
    (likeUpdate video user userId).1.likeCount = video.likeCount + 1 ∧
    (likeUpdate video user userId).1.dislikeCount = video.dislikeCount - 1 := by
  have h1 : includes video.likes userId = false := by
    cases h : includes video.likes userId with
    | false => rfl
    | true => exact absurd ((includes_iff _ _).1 h) hl
  have h2 : includes video.dislikes userId = true := (includes_iff _ _).2 hd
  simp [likeUpdate, h1, h2, mem_pull, mem_push]

theorem dislikeUpdate_switch (video : Video) (user : User) (userId : ObjectId)
    (hl : userId ∈ video.likes) (hd : userId ∉ video.dislikes) :
    userId ∈ (dislikeUpdate video user userId).1.dislikes ∧
    userId ∉ (dislikeUpdate video user userId).1.likes ∧
    (dislikeUpdate video user userId).1.likeCount = video.likeCount - 1 ∧
    (dislikeUpdate video user userId).1.dislikeCount = video.dislikeCount + 1 := by
  have h2 : includes video.dislikes userId = false := by
    cases h : includes video.dislikes userId with
    | false => rfl
    | true => exact absurd ((includes_iff _ _).1 h) hd
  have h1 : includes video.likes userId = true := (includes_iff _ _).2 hl
  simp [dislikeUpdate, h1, h2, mem_pull, mem_push]

/-- C3: for a stored video and a stored user who is in its dislikes and not in its
likes, one likeVideo call answers 200 and stores the video with the user in likes and
not in dislikes, likeCount one higher and dislikeCount one lower, and every store the
call writes already holds the video in that state; symmetrically for dislikeVideo by a
user who is in likes and not in dislikes. -/
theorem one_call_switches_reaction (s : Store) (userId videoId : ObjectId) (video : Video)
    (user : User) (hv : findById Video._id s.videos videoId = some video)
    (hu : findById User._id s.users userId = some user) :
    (userId ∈ video.dislikes → userId ∉ video.likes →
      (likeVideo s userId videoId).1.status = 200 ∧
      (∃ w, findById Video._id (likeVideo s userId videoId).2.videos videoId = some w ∧
        userId ∈ w.likes ∧ userId ∉ w.dislikes ∧
        w.likeCount = video.likeCount + 1 ∧ w.dislikeCount = video.dislikeCount - 1) ∧
      (likeVideoTrace s userId videoId).2 ≠ [] ∧
      ∀ t ∈ (likeVideoTrace s userId videoId).2,
        ∃ w, findById Video._id t.videos videoId = some w ∧
          userId ∈ w.likes ∧ userId ∉ w.dislikes) ∧
    (userId ∈ video.likes → userId ∉ video.dislikes →
      (dislikeVideo s userId videoId).1.status = 200 ∧
      (∃ w, findById Video._id (dislikeVideo s userId videoId).2.videos videoId = some w ∧
        userId ∈ w.dislikes ∧ userId ∉ w.likes ∧
        w.likeCount = video.likeCount - 1 ∧ w.dislikeCount = video.dislikeCount + 1) ∧
      (dislikeVideoTrace s userId videoId).2 ≠ [] ∧
      ∀ t ∈ (dislikeVideoTrace s userId videoId).2,
        ∃ w, findById Video._id t.videos videoId = some w ∧
          userId ∈ w.dislikes ∧ userId ∉ w.likes) := by
  have hkey : video._id = videoId := findById_key _ _ _ _ hv
  constructor
  · intro hd hl
    obtain ⟨hst, htr⟩ := likeVideoTrace_found s userId videoId video user hv hu
    obtain ⟨a1, a2, a3, a4⟩ := likeUpdate_switch video user userId hd hl
    have hfind : findById Video._id
        (saveDoc Video._id s.videos (likeUpdate video user userId).1) videoId =
        some (likeUpdate video user userId).1 := by
      rw [findById_saveDoc]
      simp [likeUpdate_id, hkey, hv]
    refine ⟨hst, ⟨_, ?_, a1, a2, a3, a4⟩, ?_, ?_⟩
    · simp only [likeVideo, finalStore, htr]
      exact hfind
    · rw [htr]; simp
    · intro t ht
      rw [htr] at ht
      simp only [List.mem_cons, List.mem_singleton, List.not_mem_nil, or_false] at ht
      rcases ht with rfl | rfl <;> exact ⟨_, hfind, a1, a2⟩
  · intro hl hd
    obtain ⟨hst, htr⟩ := dislikeVideoTrace_found s userId videoId video user hv hu
    obtain ⟨a1, a2, a3, a4⟩ := dislikeUpdate_switch video user userId hl hd
    have hfind : findById Video._id
        (saveDoc Video._id s.videos (dislikeUpdate video user userId).1) videoId =
        some (dislikeUpdate video user userId).1 := by
      rw [findById_saveDoc]
      simp [dislikeUpdate_id, hkey, hv]
    refine ⟨hst, ⟨_, ?_, a1, a2, a3, a4⟩, ?_, ?_⟩
    · simp only [dislikeVideo, finalStore, htr]
      exact hfind
    · rw [htr]; simp
    · intro t ht
      rw [htr] at ht
      simp only [List.mem_cons, List.mem_singleton, List.not_mem_nil, or_false] at ht
      rcases ht with rfl | rfl <;> exact ⟨_, hfind, a1, a2⟩

theorem one_call_switches_reaction_witness :
    (findById Video._id demoStore.videos 20 = some introVideo ∧
      findById User._id demoStore.users 2 = some bob ∧
      2 ∈ introVideo.dislikes ∧ 2 ∉ introVideo.likes) ∧
    (likeVideo demoStore 2 20).1.status = 200 ∧
    ∃ w, findById Video._id (likeVideo demoStore 2 20).2.videos 20 = some w ∧
      2 ∈ w.likes ∧ 2 ∉ w.dislikes ∧
      w.likeCount = introVideo.likeCount + 1 ∧ w.dislikeCount = introVideo.dislikeCount - 1 :=
  ⟨⟨by decide, by decide, by decide, by decide⟩,
   ((one_call_switches_reaction demoStore 2 20 introVideo bob (by decide) (by decide)).1
      (by decide) (by decide)).1,
   ((one_call_switches_reaction demoStore 2 20 introVideo bob (by decide) (by decide)).1
      (by decide) (by decide)).2.1⟩

theorem likeUpdate_lockstep (video : Video) (user : User) (userId : ObjectId)
    (hl : video._id ∈ user.likedVideos ↔ userId ∈ video.likes)
    (hd : video._id ∈ user.dislikedVideos ↔ userId ∈ video.dislikes) :
    (video._id ∈ (likeUpdate video user userId).2.likedVideos ↔
      userId ∈ (likeUpdate video user userId).1.likes) ∧
    (video._id ∈ (likeUpdate video user userId).2.dislikedVideos ↔
      userId ∈ (likeUpdate video user userId).1.dislikes) := by
  unfold likeUpdate
  by_cases h1 : includes video.likes userId = true <;>
    by_cases h2 : includes video.dislikes userId = true <;>
    simp [h1, h2, mem_pull, mem_push, hl, hd]

theorem dislikeUpdate_lockstep (video : Video) (user : User) (userId : ObjectId)
    (hl : video._id ∈ user.likedVideos ↔ userId ∈ video.likes)
    (hd : video._id ∈ user.dislikedVideos ↔ userId ∈ video.dislikes) :
    (video._id ∈ (dislikeUpdate video user userId).2.likedVideos ↔
      userId ∈ (dislikeUpdate video user userId).1.likes) ∧
    (video._id ∈ (dislikeUpdate video user userId).2.dislikedVideos ↔
      userId ∈ (dislikeUpdate video user userId).1.dislikes) := by
  unfold dislikeUpdate
  by_cases h1 : includes video.likes userId = true <;>
    by_cases h2 : includes video.dislikes userId = true <;>
    simp [h1, h2, mem_pull, mem_push, hl, hd]

/-- C4: when, for a stored user u and a stored video V, V is in u.likedVideos exactly
when u is in V.likes and V is in u.dislikedVideos exactly when u is in V.dislikes, a
likeVideo or dislikeVideo call by u on V answers 200 and both equivalences hold for
the stored user and video afterwards; the documents of every other user and every
other video, and all channels and comments, are as before. -/
theorem reactions_keep_user_lists_in_lockstep (s : Store) (userId videoId : ObjectId)
    (video : Video) (user : User) (dislike : Bool)
    (hv : findById Video._id s.videos videoId = some video)
    (hu : findById User._id s.users userId = some user)
    (hliked : videoId ∈ user.likedVideos ↔ userId ∈ video.likes)
    (hdisliked : videoId ∈ user.dislikedVideos ↔ userId ∈ video.dislikes) :
    (if dislike then dislikeVideo s userId videoId else likeVideo s userId videoId).1.status
      = 200 ∧
    (∃ w x,
      findById Video._id
        (if dislike then dislikeVideo s userId videoId
          else likeVideo s userId videoId).2.videos videoId = some w ∧
      findById User._id
        (if dislike then dislikeVideo s userId videoId
          else likeVideo s userId videoId).2.users userId = some x ∧
      (videoId ∈ x.likedVideos ↔ userId ∈ w.likes) ∧
      (videoId ∈ x.dislikedVideos ↔ userId ∈ w.dislikes)) ∧
    (∀ id, id ≠ userId →
      findById User._id
        (if dislike then dislikeVideo s userId videoId
          else likeVideo s userId videoId).2.users id = findById User._id s.users id) ∧
    (∀ id, id ≠ videoId →
      findById Video._id
        (if dislike then dislikeVideo s userId videoId
          else likeVideo s userId videoId).2.videos id = findById Video._id s.videos id) ∧
    (if dislike then dislikeVideo s userId videoId
      else likeVideo s userId videoId).2.channels = s.channels ∧
    (if dislike then dislikeVideo s userId videoId
      else likeVideo s userId videoId).2.comments = s.comments := by
  have hkey : video._id = videoId := findById_key _ _ _ _ hv
  have hukey : user._id = userId := findById_key _ _ _ _ hu
  rw [← hkey] at hliked hdisliked
  cases dislike with
  | false =>
    obtain ⟨hst, htr⟩ := likeVideoTrace_found s userId videoId video user hv hu
    obtain ⟨e1, e2⟩ := likeUpdate_lockstep video user userId hliked hdisliked
    have hs : (likeVideo s userId videoId).2 =
        { s with videos := saveDoc Video._id s.videos (likeUpdate video user userId).1,
                 users := saveDoc User._id s.users (likeUpdate video user userId).2 } := by
      simp only [likeVideo, finalStore, htr]; rfl
    simp only [Bool.false_eq_true, if_false]
    rw [hs]
    refine ⟨hst, ⟨(likeUpdate video user userId).1, (likeUpdate video user userId).2,
      ?_, ?_, ?_, ?_⟩, ?_, ?_, rfl, rfl⟩
    · show findById Video._id (saveDoc Video._id s.videos _) videoId = some _
      rw [findById_saveDoc]; simp [likeUpdate_id, hkey, hv]
    · show findById User._id (saveDoc User._id s.users _) userId = some _
      rw [findById_saveDoc]; simp [likeUpdate_user_id, hukey, hu]
    · rw [← hkey]; exact e1
    · rw [← hkey]; exact e2
    · intro id hid
      show findById User._id (saveDoc User._id s.users _) id = _
      rw [findById_saveDoc_other]
      rw [likeUpdate_user_id, hukey]; exact fun h => hid h.symm
    · intro id hid
      show findById Video._id (saveDoc Video._id s.videos _) id = _
      rw [findById_saveDoc_other]
      rw [likeUpdate_id, hkey]; exact fun h => hid h.symm
  | true =>
    obtain ⟨hst, htr⟩ := dislikeVideoTrace_found s userId videoId video user hv hu
    obtain ⟨e1, e2⟩ := dislikeUpdate_lockstep video user userId hliked hdisliked
    have hs : (dislikeVideo s userId videoId).2 =
        { s with videos := saveDoc Video._id s.videos (dislikeUpdate video user userId).1,
                 users := saveDoc User._id s.users (dislikeUpdate video user userId).2 } := by
      simp only [dislikeVideo, finalStore, htr]; rfl
    simp only [if_true]
    rw [hs]
    refine ⟨hst, ⟨(dislikeUpdate video user userId).1, (dislikeUpdate video user userId).2,
      ?_, ?_, ?_, ?_⟩, ?_, ?_, rfl, rfl⟩
    · show findById Video._id (saveDoc Video._id s.videos _) videoId = some _
      rw [findById_saveDoc]; simp [dislikeUpdate_id, hkey, hv]
    · show findById User._id (saveDoc User._id s.users _) userId = some _
      rw [findById_saveDoc]; simp [dislikeUpdate_user_id, hukey, hu]
    · rw [← hkey]; exact e1
    · rw [← hkey]; exact e2
    · intro id hid
      show findById User._id (saveDoc User._id s.users _) id = _
      rw [findById_saveDoc_other]
      rw [dislikeUpdate_user_id, hukey]; exact fun h => hid h.symm
    · intro id hid
      show findById Video._id (saveDoc Video._id s.videos _) id = _
      rw [findById_saveDoc_other]
      rw [dislikeUpdate_id, hkey]; exact fun h => hid h.symm

theorem reactions_keep_user_lists_in_lockstep_witness :
    (findById Video._id demoStore.videos 20 = some introVideo ∧
      findById User._id demoStore.users 2 = some bob ∧
      ((20 : ObjectId) ∈ bob.likedVideos ↔ (2 : ObjectId) ∈ introVideo.likes) ∧
      ((20 : ObjectId) ∈ bob.dislikedVideos ↔ (2 : ObjectId) ∈ introVideo.dislikes)) ∧
    (likeVideo demoStore 2 20).1.status = 200 ∧
    (dislikeVideo demoStore 2 20).1.status = 200 :=
  ⟨⟨by decide, by decide, by decide, by decide⟩,
   (reactions_keep_user_lists_in_lockstep demoStore 2 20 introVideo bob false
     (by decide) (by decide) (by decide) (by decide)).1,
   (reactions_keep_user_lists_in_lockstep demoStore 2 20 introVideo bob true
     (by decide) (by decide) (by decide) (by decide)).1⟩

/-! ## Deleting a channel -/

theorem mem_deleteById {α : Type} (key : α → ObjectId) (docs : List α) (id : ObjectId) (d : α)
    (h : d ∈ deleteById key docs id) : d ∈ docs := by
  induction docs with
  | nil => simp [deleteById] at h
  | cons x xs ih =>
    by_cases hx : key x = id
    · simp only [deleteById, hx, if_true] at h
      exact List.mem_cons_of_mem _ h
    · simp only [deleteById, hx, if_false, List.mem_cons] at h
      rcases h with h | h
      · rw [h]; exact List.mem_cons_self _ _
      · exact List.mem_cons_of_mem _ (ih h)

theorem deleteById_removes {α : Type} (key : α → ObjectId) (docs : List α) (id : ObjectId)
    (hn : (docs.map key).Nodup) : ∀ d ∈ deleteById key docs id, key d ≠ id := by
  induction docs with
  | nil => intro d h; simp [deleteById] at h
  | cons x xs ih =>
    rw [List.map_cons, List.nodup_cons] at hn
    intro d h
    by_cases hx : key x = id
    · simp only [deleteById, hx, if_true] at h
      intro hd
      exact hn.1 (by rw [hx, ← hd]; exact List.mem_map_of_mem key h)
    · simp only [deleteById, hx, if_false, List.mem_cons] at h
      rcases h with h | h
      · rw [h]; exact hx
      · exact ih hn.2 d h

theorem not_mem_pull_self (xs : List ObjectId) (x : ObjectId) : x ∉ pull xs x := by
  simp [mem_pull]

theorem deleteChannelTrace_found (s : Store) (userId channelId : ObjectId) (channel : Channel)
    (owner : User) (hc : findById Channel._id s.channels channelId = some channel)
    (ho : channel.owner = userId) (hu : findById User._id s.users userId = some owner) :
    (deleteChannelTrace s userId channelId).1.status = 200 ∧
    (deleteChannelTrace s userId channelId).2 =
      [{ s with videos := s.videos.filter (fun v => v.channel != channelId) },
       { s with videos := s.videos.filter (fun v => v.channel != channelId),
                users := saveDoc User._id s.users
                  { owner with channels := pull owner.channels channelId } },
       { s with videos := s.videos.filter (fun v => v.channel != channelId),
                users := saveDoc User._id s.users
                  { owner with channels := pull owner.channels channelId },
                channels := deleteById Channel._id s.channels channelId }] := by
  have hkey : channel._id = channelId := findById_key _ _ _ _ hc
  simp [deleteChannelTrace, hc, ho, hu, hkey]

/-- C5: when the owner of a stored channel C calls deleteChannel (ids being unique in
the channels and the videos collection), the call answers 200 and afterwards no stored
video references C, getVideo answers 404 for the id of every video that referenced C,
C is not in the owner's channels list and no stored channel has C's id. The writes
happen in this order: after the first one no video references C while C is still
stored, and C is removed only by the last one. -/
theorem deleteChannel_cascades (s : Store) (userId channelId : ObjectId) (channel : Channel)
    (owner : User) (hc : findById Channel._id s.channels channelId = some channel)
    (ho : channel.owner = userId) (hu : findById User._id s.users userId = some owner)
    (hcids : (s.channels.map Channel._id).Nodup) (hvids : (s.videos.map Video._id).Nodup) :
    (deleteChannel s userId channelId).1.status = 200 ∧
    (∀ v ∈ (deleteChannel s userId channelId).2.videos, v.channel ≠ channelId) ∧
    (∀ v ∈ s.videos, v.channel = channelId →
      (getVideo (deleteChannel s userId channelId).2 v._id).1.status = 404) ∧
    (∃ u, findById User._id (deleteChannel s userId channelId).2.users userId = some u ∧
      channelId ∉ u.channels) ∧
    (∀ c ∈ (deleteChannel s userId channelId).2.channels, c._id ≠ channelId) ∧
    ∃ s1 s2 s3, (deleteChannelTrace s userId channelId).2 = [s1, s2, s3] ∧
      (deleteChannel s userId channelId).2 = s3 ∧
      (∀ v ∈ s1.videos, v.channel ≠ channelId) ∧
      findById Channel._id s1.channels channelId = some channel ∧
      (∀ v ∈ s2.videos, v.channel ≠ channelId) ∧
      findById Channel._id s2.channels channelId = some channel ∧
      findById Channel._id s3.channels channelId = none := by
  obtain ⟨hst, htr⟩ := deleteChannelTrace_found s userId channelId channel owner hc ho hu
  have hukey : owner._id = userId := findById_key _ _ _ _ hu
  have hfin : (deleteChannel s userId channelId).2 =
      { s with videos := s.videos.filter (fun v => v.channel != channelId),
               users := saveDoc User._id s.users
                 { owner with channels := pull owner.channels channelId },
               channels := deleteById Channel._id s.channels channelId } := by
    simp only [deleteChannel, finalStore, htr]; rfl
  have hvid : ∀ v ∈ s.videos.filter (fun v => v.channel != channelId),
      v.channel ≠ channelId := by
    intro v hv
    simpa using (List.mem_filter.1 hv).2
  have hgone : ∀ c ∈ deleteById Channel._id s.channels channelId, c._id ≠ channelId :=
    deleteById_removes _ _ _ hcids
  refine ⟨hst, ?_, ?_, ?_, ?_, ?_⟩
  · rw [hfin]; exact hvid
  · intro v hv hvc
    rw [hfin]
    have hnone : findById Video._id (s.videos.filter (fun v => v.channel != channelId)) v._id
        = none := by
      apply findById_eq_none
      intro w hw hwid
      have hws : w ∈ s.videos := (List.mem_filter.1 hw).1
      have hwv : w = v := List.inj_on_of_nodup_map hvids hws hv hwid
      exact hvid w hw (hwv ▸ hvc)
    simp [getVideo, hnone]
  · rw [hfin]
    refine ⟨{ owner with channels := pull owner.channels channelId }, ?_,
      not_mem_pull_self _ _⟩
    show findById User._id (saveDoc User._id s.users _) userId = _
    rw [findById_saveDoc]
    simp [hukey, hu]
  · rw [hfin]; exact hgone
  · refine ⟨_, _, _, htr, hfin, hvid, hc, hvid, hc, ?_⟩
    exact findById_eq_none _ _ _ hgone

theorem deleteChannel_cascades_witness :
    (findById Channel._id demoStore.channels 10 = some techChannel ∧
      techChannel.owner = 1 ∧ findById User._id demoStore.users 1 = some alice ∧
      (demoStore.channels.map Channel._id).Nodup ∧ (demoStore.videos.map Video._id).Nodup) ∧
    (deleteChannel demoStore 1 10).1.status = 200 ∧
    (∀ v ∈ (deleteChannel demoStore 1 10).2.videos, v.channel ≠ 10) ∧
    (∀ v ∈ demoStore.videos, v.channel = 10 →
      (getVideo (deleteChannel demoStore 1 10).2 v._id).1.status = 404) :=
  ⟨⟨by decide, by decide, by decide, by decide, by decide⟩,
   (deleteChannel_cascades demoStore 1 10 techChannel alice (by decide) (by decide)
     (by decide) (by decide) (by decide)).1,
   (deleteChannel_cascades demoStore 1 10 techChannel alice (by decide) (by decide)
     (by decide) (by decide) (by decide)).2.1,
   (deleteChannel_cascades demoStore 1 10 techChannel alice (by decide) (by decide)
     (by decide) (by decide) (by decide)).2.2.1⟩

/-! ## Ownership checks -/

/-- C6: for a stored channel, video or comment and a user who is not its owner,
uploader or author, updateChannel and deleteChannel, updateVideo and deleteVideo,
updateComment and deleteComment answer 403 and leave the whole store as it was. -/
theorem non_owner_is_forbidden (s : Store) (userId : ObjectId) :
    (∀ (channelId : ObjectId) (channel : Channel) (body : ChannelBody),
      findById Channel._id s.channels channelId = some channel → channel.owner ≠ userId →
      (updateChannel s userId channelId body).1.status = 403 ∧
      (updateChannel s userId channelId body).2 = s ∧
      (deleteChannel s userId channelId).1.status = 403 ∧
      (deleteChannel s userId channelId).2 = s) ∧
    (∀ (videoId : ObjectId) (video : Video) (body : VideoBody),
      findById Video._id s.videos videoId = some video → video.uploader ≠ userId →
      (updateVideo s userId videoId body).1.status = 403 ∧
      (updateVideo s userId videoId body).2 = s ∧
      (deleteVideo s userId videoId).1.status = 403 ∧
      (deleteVideo s userId videoId).2 = s) ∧
    (∀ (commentId : ObjectId) (comment : Comment) (text : Option String) (now : Nat),
      findById Comment._id s.comments commentId = some comment → comment.author ≠ userId →
      (updateComment s userId commentId text now).1.status = 403 ∧
      (updateComment s userId commentId text now).2 = s ∧
      (deleteComment s userId commentId).1.status = 403 ∧
      (deleteComment s userId commentId).2 = s) := by
  refine ⟨?_, ?_, ?_⟩
  · intro channelId channel body hc ho
    simp [updateChannel, deleteChannel, deleteChannelTrace, finalStore, hc, ho]
  · intro videoId video body hv ho
    simp [updateVideo, deleteVideo, deleteVideoTrace, finalStore, hv, ho]
  · intro commentId comment text now hc ho
    simp [updateComment, deleteComment, hc, ho]

theorem non_owner_is_forbidden_witness :
    (findById Channel._id demoStore.channels 10 = some techChannel ∧ techChannel.owner ≠ 2 ∧
      findById Video._id demoStore.videos 20 = some introVideo ∧ introVideo.uploader ≠ 2 ∧
      findById Comment._id demoStore.comments 30 = some firstComment ∧
      firstComment.author ≠ 2) ∧
    ((updateChannel demoStore 2 10 (mkChannelBody "Mine" (some "mine"))).1.status = 403 ∧
      (updateChannel demoStore 2 10 (mkChannelBody "Mine" (some "mine"))).2 = demoStore ∧
      (deleteChannel demoStore 2 10).1.status = 403 ∧
      (deleteChannel demoStore 2 10).2 = demoStore) ∧
    ((updateVideo demoStore 2 20 ⟨some "Mine", none, none, none, none, none, none, none⟩).1.status
        = 403 ∧
      (updateVideo demoStore 2 20 ⟨some "Mine", none, none, none, none, none, none, none⟩).2
        = demoStore ∧
      (deleteVideo demoStore 2 20).1.status = 403 ∧
      (deleteVideo demoStore 2 20).2 = demoStore) ∧
    ((updateComment demoStore 2 30 (some "edited") 7).1.status = 403 ∧
      (updateComment demoStore 2 30 (some "edited") 7).2 = demoStore ∧
      (deleteComment demoStore 2 30).1.status = 403 ∧
      (deleteComment demoStore 2 30).2 = demoStore) :=
  ⟨⟨by decide, by decide, by decide, by decide, by decide, by decide⟩,
   (non_owner_is_forbidden demoStore 2).1 10 techChannel _ (by decide) (by decide),
   (non_owner_is_forbidden demoStore 2).2.1 20 introVideo _ (by decide) (by decide),
   (non_owner_is_forbidden demoStore 2).2.2 30 firstComment _ 7 (by decide) (by decide)⟩

/-! ## No subscription to one's own channel -/

theorem mem_saveDoc {α : Type} (key : α → ObjectId) (docs : List α) (x d : α)
    (h : d ∈ saveDoc key docs x) : d ∈ docs ∨ d = x := by
  induction docs with
  | nil => simp [saveDoc] at h
  | cons y ys ih =>
    by_cases hy : key y = key x
    · simp only [saveDoc, hy, if_true, List.mem_cons] at h
      rcases h with h | h
      · exact Or.inr h
      · exact Or.inl (List.mem_cons_of_mem _ h)
    · simp only [saveDoc, hy, if_false, List.mem_cons] at h
      rcases h with h | h
      · exact Or.inl (h ▸ List.mem_cons_self _ _)
      · rcases ih h with h1 | h1
        · exact Or.inl (List.mem_cons_of_mem _ h1)
        · exact Or.inr h1

theorem channelUpdate_frame (c : Channel) (body : ChannelBody) (c1 : Channel)
    (h : channelUpdate c body = some c1) :
    c1._id = c._id ∧ c1.owner = c.owner ∧ c1.handle = c.handle ∧
    c1.subscribers = c.subscribers ∧ c1.subscriberCount = c.subscriberCount ∧
    c1.videos = c.videos ∧ c1.videoCount = c.videoCount := by
  unfold channelUpdate at h
  simp only [Option.ite_none_right_eq_some, Option.some.injEq] at h
  obtain ⟨-, h⟩ := h
  subst h
  simp

/-- The channels collection after createChannel, in each of its outcomes. -/
theorem createChannel_channels (lc : String → String) (s : Store) (userId : ObjectId)
    (body : ChannelBody) :
    (createChannel lc s userId body).2.channels = s.channels ∨
    ∃ c, c.subscribers = [] ∧ c.owner = userId ∧ c._id = s.nextId ∧
      (createChannel lc s userId body).2.channels = s.channels ++ [c] := by
  unfold createChannel createChannelTrace
  cases h1 : findOneByHandle lc s.channels body.handle with
  | some x => left; simp [finalStore]
  | none =>
    cases h2 : findOneByOwnerAndName s.channels userId body.channelName with
    | some x => left; simp [finalStore]
    | none =>
      cases h3 : channelCreate lc s body userId with
      | none => left; simp [finalStore]
      | some cs =>
        obtain ⟨c, s1⟩ := cs
        obtain ⟨hd, -, -, -, hid, hown, hsub, -, -, -, hs1⟩ :=
          channelCreate_some lc s body userId c s1 h3
        subst hs1
        right
        refine ⟨c, hsub, hown, hid, ?_⟩
        cases h4 : findById User._id s.users userId <;> simp [finalStore, h4]

/-- The channels collection after updateChannel, in each of its outcomes. -/
theorem updateChannel_channels (s : Store) (userId channelId : ObjectId) (body : ChannelBody) :
    (updateChannel s userId channelId body).2 = s ∨
    ∃ channel channel1, findById Channel._id s.channels channelId = some channel ∧
      channel.owner = userId ∧ channelUpdate channel body = some channel1 ∧
      (updateChannel s userId channelId body).2 =
        { s with channels := saveDoc Channel._id s.channels channel1 } := by
  cases hc : findById Channel._id s.channels channelId with
  | none => left; simp [updateChannel, hc]
  | some channel =>
    by_cases ho : channel.owner = userId
    · cases hu : channelUpdate channel body with
      | none => left; simp [updateChannel, hc, ho, hu]
      | some channel1 =>
        right
        exact ⟨channel, channel1, rfl, ho, hu, by simp [updateChannel, hc, ho, hu]⟩
    · left; simp [updateChannel, hc, ho]

/-- The store after deleteChannel, in each of its outcomes. -/
theorem deleteChannel_store (s : Store) (userId channelId : ObjectId) :
    (deleteChannel s userId channelId).2 = s ∨
    (∃ channel, findById Channel._id s.channels channelId = some channel ∧
      channel.owner = userId ∧
      (deleteChannel s userId channelId).2 =
        { s with videos := s.videos.filter (fun v => v.channel != channelId) }) ∨
    ∃ channel owner, findById Channel._id s.channels channelId = some channel ∧
      channel.owner = userId ∧ findById User._id s.users userId = some owner ∧
      (deleteChannel s userId channelId).2 =
        { s with videos := s.videos.filter (fun v => v.channel != channelId),
                 users := saveDoc User._id s.users
                   { owner with channels := pull owner.channels channelId },
                 channels := deleteById Channel._id s.channels channelId } := by
  cases hc : findById Channel._id s.channels channelId with
  | none => left; simp [deleteChannel, deleteChannelTrace, hc, finalStore]
  | some channel =>
    have hkey : channel._id = channelId := findById_key _ _ _ _ hc
    by_cases ho : channel.owner = userId
    · cases hu : findById User._id s.users userId with
      | none =>
        right; left
        exact ⟨channel, rfl, ho, by simp [deleteChannel, deleteChannelTrace, hc, ho, hu,
          hkey, finalStore]⟩
      | some owner =>
        right; right
        obtain ⟨-, htr⟩ := deleteChannelTrace_found s userId channelId channel owner hc ho hu
        exact ⟨channel, owner, rfl, ho, rfl, by simp only [deleteChannel, finalStore, htr]; rfl⟩
    · left; simp [deleteChannel, deleteChannelTrace, hc, ho, finalStore]

theorem videoCreate_some (s : Store) (body : VideoBody) (tags : List String)
    (channelId uploader : ObjectId) (video : Video) (s1 : Store)
    (h : videoCreate s body tags channelId uploader = some (video, s1)) :
    video._id = s.nextId ∧ video.channel = channelId ∧ video.uploader = uploader ∧
    video.likes = [] ∧ video.dislikes = [] ∧ video.likeCount = 0 ∧ video.dislikeCount = 0 ∧
    video.views = 0 ∧
    s1 = { s with videos := s.videos ++ [video], nextId := s.nextId + 1 } := by
  unfold videoCreate at h
  cases ht : body.title <;> cases hu : body.videoUrl <;> cases hcat : body.category <;>
    simp [ht, hu, hcat, truthy, validateVideo] at h
  obtain ⟨-, hv, hs⟩ := h
  subst hv
  subst hs
  simp

/-- The channels collection after createVideo, in each of its outcomes. -/
theorem createVideo_channels (s : Store) (userId : ObjectId) (body : VideoBody) :
    (createVideo s userId body).2.channels = s.channels ∨
    ∃ channelId channel vid, body.channelId = some channelId ∧
      findById Channel._id s.channels channelId = some channel ∧ channel.owner = userId ∧
      (createVideo s userId body).2.channels =
        saveDoc Channel._id s.channels
          { channel with videos := push channel.videos vid,
                         videoCount := channel.videoCount + 1 } := by
  cases hb : body.channelId with
  | none => left; simp [createVideo, createVideoTrace, hb, finalStore]
  | some channelId =>
    cases hc : findById Channel._id s.channels channelId with
    | none => left; simp [createVideo, createVideoTrace, hb, hc, finalStore]
    | some channel =>
      by_cases ho : channel.owner = userId
      · cases hv : videoCreate s body
            (if truthy body.tags = true then splitTags (body.tags.getD "") else [])
            channelId userId with
        | none => left; simp [createVideo, createVideoTrace, hb, hc, ho, hv, finalStore]
        | some vs =>
          obtain ⟨video, s1⟩ := vs
          have hs1 : s1.channels = s.channels := by
            rw [(videoCreate_some _ _ _ _ _ _ _ hv).2.2.2.2.2.2.2.2]
          right
          exact ⟨channelId, channel, video._id, rfl, hc, ho,
            by simp [createVideo, createVideoTrace, hb, hc, ho, hv, finalStore, hs1]⟩
      · left; simp [createVideo, createVideoTrace, hb, hc, ho, finalStore]

/-- The channels collection after deleteVideo, in each of its outcomes. -/
theorem deleteVideo_channels (s : Store) (userId videoId : ObjectId) :
    (deleteVideo s userId videoId).2.channels = s.channels ∨
    ∃ video channel, findById Video._id s.videos videoId = some video ∧
      video.uploader = userId ∧
      findById Channel._id s.channels video.channel = some channel ∧
      (deleteVideo s userId videoId).2.channels =
        saveDoc Channel._id s.channels
          { channel with videos := pull channel.videos video._id,
                         videoCount := channel.videoCount - 1 } := by
  cases hv : findById Video._id s.videos videoId with
  | none => left; simp [deleteVideo, deleteVideoTrace, hv, finalStore]
  | some video =>
    by_cases ho : video.uploader = userId
    · cases hc : findById Channel._id s.channels video.channel with
      | none => left; simp [deleteVideo, deleteVideoTrace, hv, ho, hc, finalStore]
      | some channel =>
        right
        exact ⟨video, channel, rfl, ho, hc,
          by simp [deleteVideo, deleteVideoTrace, hv, ho, hc, finalStore]⟩
    · left; simp [deleteVideo, deleteVideoTrace, hv, ho, finalStore]

theorem getVideo_channels (s : Store) (videoId : ObjectId) :
    (getVideo s videoId).2.channels = s.channels := by
  unfold getVideo
  cases findById Video._id s.videos videoId <;> rfl

/-- The store after updateVideo, in each of its outcomes. -/
theorem updateVideo_store (s : Store) (userId videoId : ObjectId) (body : VideoBody) :
    (updateVideo s userId videoId body).2 = s ∨
    ∃ video video1, findById Video._id s.videos videoId = some video ∧
      video.uploader = userId ∧
      videoUpdate video body
        (if truthy body.tags = true then splitTags (body.tags.getD "") else video.tags)
        = some video1 ∧
      (updateVideo s userId videoId body).2 =
        { s with videos := saveDoc Video._id s.videos video1 } := by
  cases hv : findById Video._id s.videos videoId with
  | none => left; simp [updateVideo, hv]
  | some video =>
    by_cases ho : video.uploader = userId
    · cases hu : videoUpdate video body
          (if truthy body.tags = true then splitTags (body.tags.getD "") else video.tags) with
      | none => left; simp [updateVideo, hv, ho, hu]
      | some video1 =>
        right
        exact ⟨video, video1, rfl, ho, hu, by simp [updateVideo, hv, ho, hu]⟩
    · left; simp [updateVideo, hv, ho]

theorem updateVideo_channels (s : Store) (userId videoId : ObjectId) (body : VideoBody) :
    (updateVideo s userId videoId body).2.channels = s.channels := by
  rcases updateVideo_store s userId videoId body with h | ⟨_, _, -, -, -, h⟩ <;> rw [h]

theorem likeVideo_channels (s : Store) (userId videoId : ObjectId) :
    (likeVideo s userId videoId).2.channels = s.channels := by
  unfold likeVideo likeVideoTrace
  cases findById Video._id s.videos videoId with
  | none => rfl
  | some video => cases findById User._id s.users userId <;> rfl

theorem dislikeVideo_channels (s : Store) (userId videoId : ObjectId) :
    (dislikeVideo s userId videoId).2.channels = s.channels := by
  unfold dislikeVideo dislikeVideoTrace
  cases findById Video._id s.videos videoId with
  | none => rfl
  | some video => cases findById User._id s.users userId <;> rfl

theorem addComment_channels (s : Store) (userId : ObjectId) (text videoId : Option String) :
    (addComment s userId text videoId).2.channels = s.channels := by
  unfold addComment
  split
  · rfl
  · split <;> rfl

theorem updateComment_channels (s : Store) (userId commentId : ObjectId)
    (text : Option String) (now : Nat) :
    (updateComment s userId commentId text now).2.channels = s.channels := by
  unfold updateComment
  split
  · rfl
  · split
    · rfl
    · split <;> rfl

theorem deleteComment_channels (s : Store) (userId commentId : ObjectId) :
    (deleteComment s userId commentId).2.channels = s.channels := by
  unfold deleteComment
  split
  · rfl
  · split <;> rfl

theorem likeComment_channels (s : Store) (userId commentId : ObjectId) :
    (likeComment s userId commentId).2.channels = s.channels := by
  unfold likeComment
  split <;> rfl

theorem noSelfSubscription_of_channels_eq (s t : Store) (h : t.channels = s.channels)
    (hs : NoSelfSubscription s) : NoSelfSubscription t := by
  intro c hc
  rw [h] at hc
  exact hs c hc

theorem noSelfSubscription_saveDoc (s t : Store) (channel channel1 : Channel)
    (hm : channel ∈ s.channels) (ho : channel1.owner = channel.owner)
    (hsub : channel1.subscribers = channel.subscribers)
    (ht : t.channels = saveDoc Channel._id s.channels channel1)
    (hs : NoSelfSubscription s) : NoSelfSubscription t := by
  intro c hc
  rw [ht] at hc
  rcases mem_saveDoc _ _ _ _ hc with h | h
  · exact hs c h
  · rw [h, ho, hsub]; exact hs channel hm

theorem step_noSelfSubscription (lc : String → String) (s : Store) (op : Op)
    (hs : NoSelfSubscription s) : NoSelfSubscription (step lc s op).2 := by
  cases op with
  | createChannel u b =>
    show NoSelfSubscription (createChannel lc s u b).2
    rcases createChannel_channels lc s u b with h0 | ⟨c, hsub, -, -, h1⟩
    · exact noSelfSubscription_of_channels_eq _ _ h0 hs
    · intro x hx
      rw [h1, List.mem_append, List.mem_singleton] at hx
      rcases hx with hx | hx
      · exact hs x hx
      · rw [hx, hsub]; exact List.not_mem_nil _
  | updateChannel u c b =>
    show NoSelfSubscription (updateChannel s u c b).2
    rcases updateChannel_channels s u c b with h0 | ⟨channel, channel1, hf, -, hu, h1⟩
    · rw [h0]; exact hs
    · obtain ⟨-, ho, -, hsub, -⟩ := channelUpdate_frame _ _ _ hu
      exact noSelfSubscription_saveDoc s _ channel channel1 (findById_mem _ _ _ _ hf) ho hsub
        (by rw [h1]) hs
  | deleteChannel u c =>
    show NoSelfSubscription (deleteChannel s u c).2
    rcases deleteChannel_store s u c with h0 | ⟨channel, -, -, h1⟩ | ⟨channel, owner, -, -, -, h1⟩
    · rw [h0]; exact hs
    · exact noSelfSubscription_of_channels_eq _ _ (by rw [h1]) hs
    · intro x hx
      rw [h1] at hx
      exact hs x (mem_deleteById _ _ _ _ hx)
  | subscribeToChannel u c =>
    show NoSelfSubscription (subscribeToChannel s u c).2
    rcases subscribeToChannel_store s u c with h0 | ⟨channel, user, hf, hne, -, -, h1⟩
    · rw [h0]; exact hs
    · intro x hx
      rw [h1] at hx
      rcases mem_saveDoc _ _ _ _ hx with h | h
      · exact hs x h
      · have hch := hs channel (findById_mem _ _ _ _ hf)
        rw [h, subscribeUpdate_owner]
        unfold subscribeUpdate
        by_cases hi : includes channel.subscribers u = true
        · simp only [hi, if_true]
          intro hm
          exact hch ((mem_pull _ _ _).1 hm).1
        · simp only [hi]
          intro hm
          rcases (mem_push _ _ _).1 hm with hm | hm
          · exact hch hm
          · exact hne hm
  | getVideo v => exact noSelfSubscription_of_channels_eq _ _ (getVideo_channels s v) hs
  | createVideo u b =>
    show NoSelfSubscription (createVideo s u b).2
    rcases createVideo_channels s u b with h0 | ⟨cid, channel, vid, -, hf, -, h1⟩
    · exact noSelfSubscription_of_channels_eq _ _ h0 hs
    · refine noSelfSubscription_saveDoc s _ channel _ (findById_mem _ _ _ _ hf) ?_ ?_ h1 hs <;>
        rfl
  | updateVideo u v b =>
    exact noSelfSubscription_of_channels_eq _ _ (updateVideo_channels s u v b) hs
  | deleteVideo u v =>
    show NoSelfSubscription (deleteVideo s u v).2
    rcases deleteVideo_channels s u v with h0 | ⟨video, channel, -, -, hf, h1⟩
    · exact noSelfSubscription_of_channels_eq _ _ h0 hs
    · refine noSelfSubscription_saveDoc s _ channel _ (findById_mem _ _ _ _ hf) ?_ ?_ h1 hs <;>
        rfl
  | likeVideo u v => exact noSelfSubscription_of_channels_eq _ _ (likeVideo_channels s u v) hs
  | dislikeVideo u v =>
    exact noSelfSubscription_of_channels_eq _ _ (dislikeVideo_channels s u v) hs
  | addComment u t v =>
    exact noSelfSubscription_of_channels_eq _ _ (addComment_channels s u t v) hs
  | updateComment u c t n =>
    exact noSelfSubscription_of_channels_eq _ _ (updateComment_channels s u c t n) hs
  | deleteComment u c =>
    exact noSelfSubscription_of_channels_eq _ _ (deleteComment_channels s u c) hs
  | likeComment u c =>
    exact noSelfSubscription_of_channels_eq _ _ (likeComment_channels s u c) hs

theorem run_noSelfSubscription (lc : String → String) (ops : List Op) (s : Store)
    (hs : NoSelfSubscription s) : NoSelfSubscription (run lc s ops) := by
  induction ops generalizing s with
  | nil => exact hs
  | cons op ops ih => exact ih _ (step_noSelfSubscription lc s op hs)

/-- C7: subscribeToChannel by the owner of a stored channel answers 400 and leaves the
whole store as it was (the channel's subscribers and subscriberCount, the user's
subscribedChannels). Consequently, from a store in which no channel has its owner
among its subscribers (such as a store without channels), no sequence of requests to
the handlers reaches a store with a channel whose owner is among its subscribers. -/
theorem no_subscription_to_own_channel (lc : String → String) (s : Store) :
    (∀ (userId channelId : ObjectId) (channel : Channel),
      findById Channel._id s.channels channelId = some channel → channel.owner = userId →
      (subscribeToChannel s userId channelId).1.status = 400 ∧
      (subscribeToChannel s userId channelId).2 = s) ∧
    ((∀ c ∈ s.channels, c.owner ∉ c.subscribers) →
      ∀ (ops : List Op), ∀ c ∈ (run lc s ops).channels, c.owner ∉ c.subscribers) := by
  refine ⟨?_, ?_⟩
  · intro userId channelId channel hc ho
    simp [subscribeToChannel, subscribeToChannelTrace, hc, ho, finalStore]
  · intro hs ops
    exact run_noSelfSubscription lc ops s hs

theorem no_subscription_to_own_channel_witness :
    (findById Channel._id demoStore.channels 10 = some techChannel ∧ techChannel.owner = 1 ∧
      ∀ c ∈ demoStore.channels, c.owner ∉ c.subscribers) ∧
    ((subscribeToChannel demoStore 1 10).1.status = 400 ∧
      (subscribeToChannel demoStore 1 10).2 = demoStore) ∧
    ∀ c ∈ (run asciiLower demoStore
        [Op.subscribeToChannel 2 10, Op.subscribeToChannel 1 10,
         Op.createChannel 2 (mkChannelBody "Cooking" (some "cook")),
         Op.subscribeToChannel 2 100, Op.subscribeToChannel 1 100]).channels,
      c.owner ∉ c.subscribers :=
  ⟨⟨by decide, by decide, by decide⟩,
   (no_subscription_to_own_channel asciiLower demoStore).1 1 10 techChannel (by decide)
     (by decide),
   (no_subscription_to_own_channel asciiLower demoStore).2 (by decide) _⟩

/-! ## Handles -/

theorem isWhiteSpace_toLower (c : Char) : isWhiteSpace c.toLower = isWhiteSpace c := by
  unfold Char.toLower
  by_cases h : c.toNat ≥ 65 ∧ c.toNat ≤ 90
  · simp only [h, and_self, if_true]
    obtain ⟨h1, h2⟩ := h
    unfold isWhiteSpace
    generalize hn : c.toNat = n at h1 h2
    interval_cases n <;> rfl
  · simp [h]

theorem trimChars_map_toLower (cs : List Char) :
    trimChars (cs.map Char.toLower) = (trimChars cs).map Char.toLower := by
  have hp : isWhiteSpace ∘ Char.toLower = isWhiteSpace := by
    funext c
    exact isWhiteSpace_toLower c
  unfold trimChars
  rw [List.dropWhile_map, hp, ← List.map_reverse, List.dropWhile_map, hp, List.map_reverse]

/-- Lowercasing the letters A to Z commutes with trimming. -/
theorem asciiLower_trim (x : String) : asciiLower (trim x) = trim (asciiLower x) := by
  unfold asciiLower trim
  rw [trimChars_map_toLower]

/-- C8: when the handle of a createChannel request equals, once both are lowercased,
the handle of a stored channel (stored handles being trimmed and lowercased, as the
schema setters leave them), the call answers 400 and the store is as before: no channel
is created and the channels list of the requesting user is unchanged. The lowercase
function is any function that commutes with trimming. -/
theorem createChannel_rejects_taken_handle (lc : String → String) (s : Store)
    (userId : ObjectId) (body : ChannelBody) (h : String) (c : Channel)
    (hcomm : ∀ x, lc (trim x) = trim (lc x))
    (hmem : c ∈ s.channels) (hnorm : castHandle lc c.handle = c.handle)
    (hbody : body.handle = some h) (heq : lc h = lc c.handle) :
    (createChannel lc s userId body).1.status = 400 ∧
    (createChannel lc s userId body).2 = s := by
  have hcast : castHandle lc h = c.handle := by
    unfold castHandle at hnorm ⊢
    rw [hcomm, heq, ← hcomm, hnorm]
  have hsome : (s.channels.find? (fun x => x.handle == castHandle lc h)).isSome = true := by
    rw [List.find?_isSome]
    exact ⟨c, hmem, by simp [hcast]⟩
  obtain ⟨x, hx⟩ := Option.isSome_iff_exists.1 hsome
  simp [createChannel, createChannelTrace, findOneByHandle, hbody, hx, finalStore]

theorem createChannel_rejects_taken_handle_witness :
    ((∀ x, asciiLower (trim x) = trim (asciiLower x)) ∧ techChannel ∈ demoStore.channels ∧
      castHandle asciiLower techChannel.handle = techChannel.handle ∧
      (mkChannelBody "Other" (some "TeCH")).handle = some "TeCH" ∧
      asciiLower "TeCH" = asciiLower techChannel.handle) ∧
    (createChannel asciiLower demoStore 2 (mkChannelBody "Other" (some "TeCH"))).1.status = 400 ∧
    (createChannel asciiLower demoStore 2 (mkChannelBody "Other" (some "TeCH"))).2 = demoStore :=
  ⟨⟨asciiLower_trim, by decide, by decide, by decide, by decide⟩,
   createChannel_rejects_taken_handle asciiLower demoStore 2 (mkChannelBody "Other" (some "TeCH"))
     "TeCH" techChannel asciiLower_trim (by decide) (by decide) (by decide) (by decide)⟩

/-- Without a handle in the request, createChannel never answers 201 and writes
nothing: the required validator of the handle path rejects the document before the
pre-save hook that derives the handle runs. -/
theorem createChannel_without_handle (lc : String → String) (s : Store) (userId : ObjectId)
    (body : ChannelBody) (hbody : body.handle = none) :
    ((createChannel lc s userId body).1.status = 400 ∨
      (createChannel lc s userId body).1.status = 500) ∧
    (findOneByOwnerAndName s.channels userId body.channelName = none →
      (createChannel lc s userId body).1.status = 500) ∧
    (createChannel lc s userId body).2 = s := by
  have hcreate : channelCreate lc s body userId = none := by
    cases hc : channelCreate lc s body userId with
    | none => rfl
    | some cs =>
      obtain ⟨hd, hh, -⟩ := channelCreate_some lc s body userId cs.1 cs.2 hc
      rw [hbody] at hh
      cases hh
  cases h2 : findOneByOwnerAndName s.channels userId body.channelName with
  | some x =>
    simp [createChannel, createChannelTrace, findOneByHandle, hbody, h2, finalStore]
  | none =>
    simp [createChannel, createChannelTrace, findOneByHandle, hbody, h2, hcreate, finalStore]

/-- C9 (code bug): a createChannel request with channelName "Tech" and no handle, by
a stored user on a store without channels, answers 500 and creates nothing, although
the pre-save hook would derive the handle "tech" from the name. -/
theorem createChannel_without_handle_fails :
    (createChannel asciiLower usersOnlyStore 1 (mkChannelBody "Tech" none)).1.status = 500 ∧
    (createChannel asciiLower usersOnlyStore 1 (mkChannelBody "Tech" none)).2 = usersOnlyStore ∧
    findOneByHandle asciiLower usersOnlyStore.channels none = none ∧
    findOneByOwnerAndName usersOnlyStore.channels 1 (some "Tech") = none ∧
    validateChannel (newChannelDraft asciiLower (mkChannelBody "Tech" none) 1) = false ∧
    channelPreSave asciiLower true (newChannelDraft asciiLower (mkChannelBody "Tech" none) 1) =
      some { newChannelDraft asciiLower (mkChannelBody "Tech" none) 1 with
             handle := some "tech" } := by
  decide

/-- C10 (counterexample): a createChannel request with a supplied handle of 39
characters containing hyphens answers 201 and persists the handle as supplied, neither
alphanumeric-only nor at most 30 characters long. -/
theorem supplied_handle_is_not_sanitized :
    (createChannel asciiLower usersOnlyStore 1
      (mkChannelBody "Tech" (some "the-quick-brown-fox-jumps-over-lazy-dog"))).1.status = 201 ∧
    ∃ c ∈ (createChannel asciiLower usersOnlyStore 1
        (mkChannelBody "Tech" (some "the-quick-brown-fox-jumps-over-lazy-dog"))).2.channels,
      c.handle = "the-quick-brown-fox-jumps-over-lazy-dog" ∧
      c.handle.data.all isLowerAlnum = false ∧ 30 < jsLength c.handle := by
  decide

/-- C10 (amended): every channel persisted by a createChannel request that supplies a
handle has as its handle the supplied handle trimmed and lowercased, which is not
empty; the new channel is the only change to the channels collection. -/
theorem createChannel_persists_cast_handle (lc : String → String) (s : Store)
    (userId : ObjectId) (body : ChannelBody) (h : String) (hbody : body.handle = some h)
    (hcreated : (createChannel lc s userId body).1.status = 201) :
    ∃ c, (createChannel lc s userId body).2.channels = s.channels ++ [c] ∧
      c.handle = lc (trim h) ∧ c.handle ≠ "" := by
  obtain ⟨c, user, hcc, -, -, -, hs⟩ := createChannel_created lc s userId body hcreated
  obtain ⟨hd, hh, hcast, ht, -⟩ := channelCreate_some lc s body userId c _ hcc
  rw [hbody] at hh
  cases hh
  refine ⟨c, by rw [hs], hcast, ?_⟩
  intro he
  rw [he] at ht
  simp [truthy] at ht

theorem createChannel_persists_cast_handle_witness :
    ((mkChannelBody "Tech" (some "  Tech-TV ")).handle = some "  Tech-TV " ∧
      (createChannel asciiLower usersOnlyStore 1
        (mkChannelBody "Tech" (some "  Tech-TV "))).1.status = 201) ∧
    ∃ c, (createChannel asciiLower usersOnlyStore 1
        (mkChannelBody "Tech" (some "  Tech-TV "))).2.channels = usersOnlyStore.channels ++ [c] ∧
      c.handle = asciiLower (trim "  Tech-TV ") ∧ c.handle ≠ "" :=
  ⟨⟨by decide, by decide⟩,
   createChannel_persists_cast_handle asciiLower usersOnlyStore 1
     (mkChannelBody "Tech" (some "  Tech-TV ")) "  Tech-TV " (by decide) (by decide)⟩

/-! ## Channel names per owner -/

theorem channelCreate_of_valid (lc : String → String) (s : Store) (body : ChannelBody)
    (owner : ObjectId) (h : String) (hbody : body.handle = some h)
    (hvalid : validateChannel (newChannelDraft lc body owner) = true)
    (hfree : ∀ c ∈ s.channels, c.handle ≠ castHandle lc h) :
    ∃ c, channelCreate lc s body owner =
      some (c, { s with channels := s.channels ++ [c], nextId := s.nextId + 1 }) := by
  have hv := hvalid
  simp only [validateChannel, newChannelDraft, hbody, Option.map_some',
    Bool.and_eq_true] at hv
  obtain ⟨⟨⟨⟨hn, -⟩, ht⟩, -⟩, -⟩ := hv
  cases hname : body.channelName with
  | none => rw [hname] at hn; simp [truthy] at hn
  | some n =>
    have hany : (s.channels.any fun c => c.handle == castHandle lc h) = false := by
      rw [Bool.eq_false_iff]
      intro hc
      rw [List.any_eq_true] at hc
      obtain ⟨c, hc1, hc2⟩ := hc
      exact hfree c hc1 (by simpa using hc2)
    unfold channelCreate
    simp only [hvalid, Bool.not_true]
    simp only [channelPreSave, newChannelDraft, hbody, hname, Option.map_some', ht,
      Option.isSome_some, Bool.not_true, Bool.and_false, hany]
    simpa using hfree

/-- The document Channel.create stores for a valid body with a free handle: the name
trimmed, the handle trimmed and lowercased, the schema defaults, the caller as owner. -/
theorem channelCreate_of_valid_eq (lc : String → String) (s : Store) (body : ChannelBody)
    (owner : ObjectId) (n h : String) (hname : body.channelName = some n)
    (hbody : body.handle = some h)
    (hvalid : validateChannel (newChannelDraft lc body owner) = true)
    (hfree : ∀ c ∈ s.channels, c.handle ≠ castHandle lc h) :
    channelCreate lc s body owner =
      some ({ _id := s.nextId, channelName := trim n, handle := castHandle lc h,
              description := body.description, owner := owner,
              avatar := body.avatar.getD "https://via.placeholder.com/150x150?text=Channel",
              banner := body.banner.getD
                "https://via.placeholder.com/1280x720?text=Channel+Banner",
              subscribers := [], subscriberCount := 0, videos := [], videoCount := 0,
              totalViews := 0, category := body.category.getD "Entertainment",
              isVerified := false, isActive := true },
            { s with
              channels := s.channels ++
                [{ _id := s.nextId, channelName := trim n, handle := castHandle lc h,
                   description := body.description, owner := owner,
                   avatar := body.avatar.getD
                     "https://via.placeholder.com/150x150?text=Channel",
                   banner := body.banner.getD
                     "https://via.placeholder.com/1280x720?text=Channel+Banner",
                   subscribers := [], subscriberCount := 0, videos := [], videoCount := 0,
                   totalViews := 0, category := body.category.getD "Entertainment",
                   isVerified := false, isActive := true }],
              nextId := s.nextId + 1 }) := by
  have hv := hvalid
  simp only [validateChannel, newChannelDraft, hbody, Option.map_some',
    Bool.and_eq_true] at hv
  obtain ⟨⟨⟨⟨-, -⟩, ht⟩, -⟩, -⟩ := hv
  have hany : (s.channels.any fun c => c.handle == castHandle lc h) = false := by
    rw [Bool.eq_false_iff]
    intro hc
    rw [List.any_eq_true] at hc
    obtain ⟨c, hc1, hc2⟩ := hc
    exact hfree c hc1 (by simpa using hc2)
  unfold channelCreate
  simp only [hvalid, Bool.not_true]
  simp only [channelPreSave, newChannelDraft, hbody, hname, Option.map_some', ht,
    Option.isSome_some, Bool.not_true, Bool.and_false, hany]
  simpa using hfree

/-- C11: a createChannel request by a user who already owns a stored channel with the
requested channelName (stored names being trimmed, as the schema setter leaves them)
answers 400 and leaves the store as it was; for a stored user who owns no channel with
that name, the same request with a free handle and a body that passes schema
validation answers 201 and stores exactly one new channel, with that channelName, the
handle trimmed and lowercased, that user as owner and a fresh id, which is also pushed
to that user's channels list; nothing else in the store changes. -/
theorem createChannel_name_is_unique_per_owner (lc : String → String) (s : Store)
    (userId : ObjectId) (body : ChannelBody) (c : Channel) (hmem : c ∈ s.channels)
    (hown : c.owner = userId) (hnorm : trim c.channelName = c.channelName)
    (hname : body.channelName = some c.channelName) :
    ((createChannel lc s userId body).1.status = 400 ∧
      (createChannel lc s userId body).2 = s) ∧
    ∀ (other : ObjectId) (user : User) (h : String),
      findById User._id s.users other = some user → body.handle = some h →
      (∀ x ∈ s.channels, x.handle ≠ castHandle lc h) →
      (∀ x ∈ s.channels, x.channelName = c.channelName → x.owner ≠ other) →
      validateChannel (newChannelDraft lc body other) = true →
      (createChannel lc s other body).1.status = 201 ∧
      (createChannel lc s other body).2 =
        { users := saveDoc User._id s.users
            { user with channels := push user.channels s.nextId },
          channels := s.channels ++
            [{ _id := s.nextId, channelName := c.channelName, handle := castHandle lc h,
               description := body.description, owner := other,
               avatar := body.avatar.getD "https://via.placeholder.com/150x150?text=Channel",
               banner := body.banner.getD
                 "https://via.placeholder.com/1280x720?text=Channel+Banner",
               subscribers := [], subscriberCount := 0, videos := [], videoCount := 0,
               totalViews := 0, category := body.category.getD "Entertainment",
               isVerified := false, isActive := true }],
          videos := s.videos, comments := s.comments, nextId := s.nextId + 1 } := by
  constructor
  · have hsome : (s.channels.find?
        (fun x => x.owner == userId && x.channelName == trim c.channelName)).isSome = true := by
      rw [List.find?_isSome]
      exact ⟨c, hmem, by simp [hown, hnorm]⟩
    obtain ⟨x, hx⟩ := Option.isSome_iff_exists.1 hsome
    cases h1 : findOneByHandle lc s.channels body.handle with
    | some y => simp [createChannel, createChannelTrace, h1, finalStore]
    | none =>
      simp [createChannel, createChannelTrace, h1, findOneByOwnerAndName, hname, hx,
        finalStore]
  · intro other user h hu hbody hfree hnone hvalid
    have h1 : findOneByHandle lc s.channels body.handle = none := by
      simp only [findOneByHandle, hbody]
      rw [List.find?_eq_none]
      intro x hx
      simpa using hfree x hx
    have h2 : findOneByOwnerAndName s.channels other body.channelName = none := by
      simp only [findOneByOwnerAndName, hname]
      rw [List.find?_eq_none]
      intro x hx
      rw [hnorm]
      simp only [Bool.and_eq_true, beq_iff_eq, not_and]
      intro ho hn
      exact hnone x hx hn ho
    have h3 := channelCreate_of_valid_eq lc s body other c.channelName h hname hbody
      hvalid hfree
    rw [hnorm] at h3
    constructor
    · simp [createChannel, createChannelTrace, h1, h2, h3, hu]
    · simp [createChannel, createChannelTrace, h1, h2, h3, hu, finalStore]

theorem createChannel_name_is_unique_per_owner_witness :
    (techChannel ∈ demoStore.channels ∧ techChannel.owner = 1 ∧
      trim techChannel.channelName = techChannel.channelName ∧
      (mkChannelBody "Tech" (some "tech2")).channelName = some techChannel.channelName) ∧
    ((createChannel asciiLower demoStore 1 (mkChannelBody "Tech" (some "tech2"))).1.status = 400 ∧
      (createChannel asciiLower demoStore 1 (mkChannelBody "Tech" (some "tech2"))).2
        = demoStore) ∧
    ((createChannel asciiLower demoStore 2 (mkChannelBody "Tech" (some "tech2"))).2.channels.map
        (fun x => (x._id, x.channelName, x.handle, x.owner)) =
        [(10, "Tech", "tech", 1), (100, "Tech", "tech2", 2)] ∧
      (createChannel asciiLower demoStore 2 (mkChannelBody "Tech" (some "tech2"))).2.users.map
        (fun u => (u._id, u.channels)) = [(1, [10]), (2, [100])]) ∧
    ((createChannel asciiLower demoStore 2 (mkChannelBody "Tech" (some "tech2"))).1.status = 201 ∧
      (createChannel asciiLower demoStore 2 (mkChannelBody "Tech" (some "tech2"))).2 =
        { users := saveDoc User._id demoStore.users
            { bob with channels := push bob.channels demoStore.nextId },
          channels := demoStore.channels ++
            [{ _id := demoStore.nextId, channelName := techChannel.channelName,
               handle := castHandle asciiLower "tech2",
               description := (mkChannelBody "Tech" (some "tech2")).description, owner := 2,
               avatar := (mkChannelBody "Tech" (some "tech2")).avatar.getD
                 "https://via.placeholder.com/150x150?text=Channel",
               banner := (mkChannelBody "Tech" (some "tech2")).banner.getD
                 "https://via.placeholder.com/1280x720?text=Channel+Banner",
               subscribers := [], subscriberCount := 0, videos := [], videoCount := 0,
               totalViews := 0,
               category := (mkChannelBody "Tech" (some "tech2")).category.getD "Entertainment",
               isVerified := false, isActive := true }],
          videos := demoStore.videos, comments := demoStore.comments,
          nextId := demoStore.nextId + 1 }) :=
  ⟨⟨by decide, by decide, by decide, by decide⟩,
   (createChannel_name_is_unique_per_owner asciiLower demoStore 1
     (mkChannelBody "Tech" (some "tech2")) techChannel (by decide) (by decide) (by decide)
     (by decide)).1,
   ⟨by decide, by decide⟩,
   (createChannel_name_is_unique_per_owner asciiLower demoStore 1
     (mkChannelBody "Tech" (some "tech2")) techChannel (by decide) (by decide) (by decide)
     (by decide)).2 2 bob "tech2" (by decide) (by decide) (by decide) (by decide) (by decide)⟩

/-! ## Updates keep identity and ownership -/

theorem channelUpdate_only_descriptive (c : Channel) (body : ChannelBody) (c1 : Channel)
    (h : channelUpdate c body = some c1) :
    c1 = { c with channelName := c1.channelName, description := c1.description,
                  category := c1.category, avatar := c1.avatar, banner := c1.banner } := by
  unfold channelUpdate at h
  simp only [Option.ite_none_right_eq_some, Option.some.injEq] at h
  obtain ⟨-, h⟩ := h
  subst h
  rfl

theorem videoUpdate_only_descriptive (v : Video) (body : VideoBody) (tags : List String)
    (v1 : Video) (h : videoUpdate v body tags = some v1) :
    v1 = { v with title := v1.title, description := v1.description,
                  thumbnailUrl := v1.thumbnailUrl, category := v1.category,
                  tags := v1.tags } := by
  unfold videoUpdate at h
  simp only [Option.ite_none_right_eq_some, Option.some.injEq] at h
  obtain ⟨-, h⟩ := h
  subst h
  rfl

theorem updateChannel_ok (s : Store) (userId channelId : ObjectId) (body : ChannelBody)
    (h : (updateChannel s userId channelId body).1.status = 200) :
    ∃ channel channel1, findById Channel._id s.channels channelId = some channel ∧
      channel.owner = userId ∧ channelUpdate channel body = some channel1 ∧
      (updateChannel s userId channelId body).2 =
        { s with channels := saveDoc Channel._id s.channels channel1 } := by
  cases hc : findById Channel._id s.channels channelId with
  | none => simp [updateChannel, hc] at h
  | some channel =>
    by_cases ho : channel.owner = userId
    · cases hu : channelUpdate channel body with
      | none => simp [updateChannel, hc, ho, hu] at h
      | some channel1 =>
        exact ⟨channel, channel1, rfl, ho, hu, by simp [updateChannel, hc, ho, hu]⟩
    · simp [updateChannel, hc, ho] at h

theorem updateVideo_ok (s : Store) (userId videoId : ObjectId) (body : VideoBody)
    (h : (updateVideo s userId videoId body).1.status = 200) :
    ∃ video video1, findById Video._id s.videos videoId = some video ∧
      video.uploader = userId ∧
      videoUpdate video body
        (if truthy body.tags = true then splitTags (body.tags.getD "") else video.tags)
        = some video1 ∧
      (updateVideo s userId videoId body).2 =
        { s with videos := saveDoc Video._id s.videos video1 } := by
  cases hv : findById Video._id s.videos videoId with
  | none => simp [updateVideo, hv] at h
  | some video =>
    by_cases ho : video.uploader = userId
    · cases hu : videoUpdate video body
          (if truthy body.tags = true then splitTags (body.tags.getD "") else video.tags) with
      | none => simp [updateVideo, hv, ho, hu] at h
      | some video1 =>
        exact ⟨video, video1, rfl, ho, hu, by simp [updateVideo, hv, ho, hu]⟩
    · simp [updateVideo, hv, ho] at h

/-- C12: whatever the request body contains, a successful updateChannel stores the
channel with only channelName, description, category, avatar and banner possibly
changed, so that handle, owner, subscribers, subscriberCount, videos and videoCount
are as before, also when the body supplies a handle; a successful updateVideo stores
the video with only title, description, thumbnailUrl, category and tags possibly
changed, so that videoUrl, channel, uploader, views, likes, dislikes and their counts
are as before. -/
theorem updates_keep_identity_fields (s : Store) (userId : ObjectId) :
    (∀ (channelId : ObjectId) (body : ChannelBody),
      (updateChannel s userId channelId body).1.status = 200 →
      ∃ c c1, findById Channel._id s.channels channelId = some c ∧
        findById Channel._id (updateChannel s userId channelId body).2.channels channelId
          = some c1 ∧
        c1 = { c with channelName := c1.channelName, description := c1.description,
                      category := c1.category, avatar := c1.avatar, banner := c1.banner } ∧
        c1.handle = c.handle ∧ c1.owner = c.owner ∧ c1.subscribers = c.subscribers ∧
        c1.subscriberCount = c.subscriberCount ∧ c1.videos = c.videos ∧
        c1.videoCount = c.videoCount) ∧
    (∀ (videoId : ObjectId) (body : VideoBody),
      (updateVideo s userId videoId body).1.status = 200 →
      ∃ v v1, findById Video._id s.videos videoId = some v ∧
        findById Video._id (updateVideo s userId videoId body).2.videos videoId = some v1 ∧
        v1 = { v with title := v1.title, description := v1.description,
                      thumbnailUrl := v1.thumbnailUrl, category := v1.category,
                      tags := v1.tags } ∧
        v1.videoUrl = v.videoUrl ∧ v1.channel = v.channel ∧ v1.uploader = v.uploader ∧
        v1.views = v.views ∧ v1.likes = v.likes ∧ v1.dislikes = v.dislikes ∧
        v1.likeCount = v.likeCount ∧ v1.dislikeCount = v.dislikeCount) := by
  constructor
  · intro channelId body h
    obtain ⟨c, c1, hc, -, hu, hs⟩ := updateChannel_ok s userId channelId body h
    have hd := channelUpdate_only_descriptive c body c1 hu
    have hkey : c._id = channelId := findById_key _ _ _ _ hc
    have hid : c1._id = channelId := (congrArg Channel._id hd).trans hkey
    refine ⟨c, c1, hc, ?_, hd, ?_, ?_, ?_, ?_, ?_, ?_⟩
    · rw [hs]
      show findById Channel._id (saveDoc Channel._id s.channels c1) channelId = some c1
      rw [findById_saveDoc]; simp [hid, hc]
    all_goals rw [hd]
  · intro videoId body h
    obtain ⟨v, v1, hv, -, hu, hs⟩ := updateVideo_ok s userId videoId body h
    have hd := videoUpdate_only_descriptive v body _ v1 hu
    have hkey : v._id = videoId := findById_key _ _ _ _ hv
    have hid : v1._id = videoId := (congrArg Video._id hd).trans hkey
    refine ⟨v, v1, hv, ?_, hd, ?_, ?_, ?_, ?_, ?_, ?_, ?_, ?_⟩
    · rw [hs]
      show findById Video._id (saveDoc Video._id s.videos v1) videoId = some v1
      rw [findById_saveDoc]; simp [hid, hv]
    all_goals rw [hd]

theorem updates_keep_identity_fields_witness :
    ((updateChannel demoStore 1 10 (mkChannelBody "Tech TV" (some "stolen"))).1.status = 200 ∧
      (updateVideo demoStore 1 20
        ⟨some "New", none, some "other.mp4", none, none, none, some "a, b", some 99⟩).1.status
        = 200) ∧
    (∃ c c1, findById Channel._id demoStore.channels 10 = some c ∧
      findById Channel._id
        (updateChannel demoStore 1 10 (mkChannelBody "Tech TV" (some "stolen"))).2.channels 10
        = some c1 ∧
      c1 = { c with channelName := c1.channelName, description := c1.description,
                    category := c1.category, avatar := c1.avatar, banner := c1.banner } ∧
      c1.handle = c.handle ∧ c1.owner = c.owner ∧ c1.subscribers = c.subscribers ∧
      c1.subscriberCount = c.subscriberCount ∧ c1.videos = c.videos ∧
      c1.videoCount = c.videoCount) ∧
    ∃ v v1, findById Video._id demoStore.videos 20 = some v ∧
      findById Video._id (updateVideo demoStore 1 20
        ⟨some "New", none, some "other.mp4", none, none, none, some "a, b", some 99⟩).2.videos 20
        = some v1 ∧
      v1 = { v with title := v1.title, description := v1.description,
                    thumbnailUrl := v1.thumbnailUrl, category := v1.category,
                    tags := v1.tags } ∧
      v1.videoUrl = v.videoUrl ∧ v1.channel = v.channel ∧ v1.uploader = v.uploader ∧
      v1.views = v.views ∧ v1.likes = v.likes ∧ v1.dislikes = v.dislikes ∧
      v1.likeCount = v.likeCount ∧ v1.dislikeCount = v.dislikeCount :=
  ⟨⟨by decide, by decide⟩,
   (updates_keep_identity_fields demoStore 1).1 10 _ (by decide),
   (updates_keep_identity_fields demoStore 1).2 20 _ (by decide)⟩

/-! ## Creating a video -/

theorem videoCreate_of_valid (s : Store) (body : VideoBody) (tags : List String)
    (channelId uploader : ObjectId) (hvalid : validateVideo body = true) :
    ∃ video, videoCreate s body tags channelId uploader =
      some (video, { s with videos := s.videos ++ [video], nextId := s.nextId + 1 }) := by
  have hv := hvalid
  simp only [validateVideo, Bool.and_eq_true] at hv
  obtain ⟨⟨⟨⟨⟨ht, -⟩, -⟩, hu⟩, hc⟩, -⟩ := hv
  unfold videoCreate
  cases h1 : body.title with
  | none => rw [h1] at ht; simp [truthy] at ht
  | some t =>
    cases h2 : body.videoUrl with
    | none => rw [h2] at hu; simp [truthy] at hu
    | some url =>
      cases h3 : body.category with
      | none => rw [h3] at hc; simp [truthy] at hc
      | some cat => simp [hvalid]

theorem videoCreate_of_invalid (s : Store) (body : VideoBody) (tags : List String)
    (channelId uploader : ObjectId) (hinvalid : validateVideo body = false) :
    videoCreate s body tags channelId uploader = none := by
  simp [videoCreate, hinvalid]

/-- C13 (counterexample): a createVideo request by the owner of the stored channel 10
without a title answers 500 and creates no video, although the channel exists and the
requester owns it. -/
theorem createVideo_invalid_body_creates_nothing :
    findById Channel._id demoStore.channels 10 = some techChannel ∧ techChannel.owner = 1 ∧
    (createVideo demoStore 1
      ⟨none, none, some "v2.mp4", none, none, some "Technology", none, some 10⟩).1.status
      = 500 ∧
    (createVideo demoStore 1
      ⟨none, none, some "v2.mp4", none, none, some "Technology", none, some 10⟩).2
      = demoStore := by
  decide

/-- C13 (amended): for every createVideo request, if channelId resolves to no channel
the result is 404, and if the channel exists but its owner is not the requester the
result is 403, in both cases with the store as before; if the owner requests and the
document fails the Video schema validation the result is 500 with the store as
before; otherwise the result is 201, exactly one video is added, with the fresh id,
channel = channelId and uploader = requester, its id is appended at the end of the
channel's videos list and the channel's videoCount is increased by exactly 1. -/
theorem createVideo_outcomes (s : Store) (userId : ObjectId) (body : VideoBody) :
    ((∀ cid, body.channelId = some cid → findById Channel._id s.channels cid = none) →
      (createVideo s userId body).1.status = 404 ∧ (createVideo s userId body).2 = s) ∧
    (∀ (cid : ObjectId) (channel : Channel), body.channelId = some cid →
      findById Channel._id s.channels cid = some channel →
      (channel.owner ≠ userId →
        (createVideo s userId body).1.status = 403 ∧ (createVideo s userId body).2 = s) ∧
      (channel.owner = userId → validateVideo body = false →
        (createVideo s userId body).1.status = 500 ∧ (createVideo s userId body).2 = s) ∧
      (channel.owner = userId → validateVideo body = true →
        (createVideo s userId body).1.status = 201 ∧
        ∃ video, (createVideo s userId body).2.videos = s.videos ++ [video] ∧
          video._id = s.nextId ∧ video.channel = cid ∧ video.uploader = userId ∧
          (createVideo s userId body).2.channels =
            saveDoc Channel._id s.channels
              { channel with videos := channel.videos ++ [video._id],
                             videoCount := channel.videoCount + 1 } ∧
          findById Channel._id (createVideo s userId body).2.channels cid =
            some { channel with videos := channel.videos ++ [video._id],
                                videoCount := channel.videoCount + 1 })) := by
  refine ⟨?_, ?_⟩
  · intro hnone
    cases hb : body.channelId with
    | none => simp [createVideo, createVideoTrace, hb, finalStore]
    | some cid => simp [createVideo, createVideoTrace, hb, hnone cid hb, finalStore]
  · intro cid channel hb hc
    refine ⟨?_, ?_, ?_⟩
    · intro ho
      simp [createVideo, createVideoTrace, hb, hc, ho, finalStore]
    · intro ho hinvalid
      simp [createVideo, createVideoTrace, hb, hc, ho, finalStore,
        videoCreate_of_invalid _ _ _ _ _ hinvalid]
    · intro ho hvalid
      obtain ⟨video, hv⟩ := videoCreate_of_valid s body
        (if truthy body.tags = true then splitTags (body.tags.getD "") else []) cid userId
        hvalid
      obtain ⟨hid, hch, hup, -⟩ := videoCreate_some _ _ _ _ _ _ _ hv
      have hkey : channel._id = cid := findById_key _ _ _ _ hc
      have hst : (createVideo s userId body).1.status = 201 := by
        simp [createVideo, createVideoTrace, hb, hc, ho, hv]
      have hs2 : (createVideo s userId body).2 =
          { s with videos := s.videos ++ [video], nextId := s.nextId + 1,
                   channels := saveDoc Channel._id s.channels
                     { channel with videos := channel.videos ++ [video._id],
                                    videoCount := channel.videoCount + 1 } } := by
        simp [createVideo, createVideoTrace, hb, hc, ho, hv, finalStore, push]
      refine ⟨hst, video, by rw [hs2], hid, hch, hup, by rw [hs2], ?_⟩
      rw [hs2]
      show findById Channel._id (saveDoc Channel._id s.channels _) cid = _
      rw [findById_saveDoc]
      simp [hkey, hc]

theorem createVideo_outcomes_witness :
    ((⟨some "Second", none, some "v2.mp4", none, none, some "Technology", some "a, b",
        some 10⟩ : VideoBody).channelId = some 10 ∧
      findById Channel._id demoStore.channels 10 = some techChannel ∧
      techChannel.owner = 1 ∧
      validateVideo ⟨some "Second", none, some "v2.mp4", none, none, some "Technology",
        some "a, b", some 10⟩ = true) ∧
    (createVideo demoStore 1
      ⟨some "Second", none, some "v2.mp4", none, none, some "Technology", some "a, b",
        some 10⟩).1.status = 201 :=
  ⟨⟨by decide, by decide, by decide, by decide⟩,
   ((createVideo_outcomes demoStore 1
      ⟨some "Second", none, some "v2.mp4", none, none, some "Technology", some "a, b",
        some 10⟩).2 10 techChannel (by decide) (by decide)).2.2 (by decide) (by decide) |>.1⟩

/-! ## The store after each handler, in each of its outcomes -/

theorem getVideo_store (s : Store) (videoId : ObjectId) :
    ((getVideo s videoId).1.status = 404 ∧ findById Video._id s.videos videoId = none ∧
      (getVideo s videoId).2 = s) ∨
    ∃ video, findById Video._id s.videos videoId = some video ∧
      (getVideo s videoId).1.status = 200 ∧
      (getVideo s videoId).2 =
        { s with videos := saveDoc Video._id s.videos
                   { video with views := video.views + 1 } } := by
  cases hv : findById Video._id s.videos videoId with
  | none => left; simp [getVideo, hv]
  | some video => right; exact ⟨video, rfl, by simp [getVideo, hv], by simp [getVideo, hv]⟩

theorem likeVideo_store (s : Store) (userId videoId : ObjectId) :
    (likeVideo s userId videoId).2 = s ∨
    ∃ video user, findById Video._id s.videos videoId = some video ∧
      findById User._id s.users userId = some user ∧
      (likeVideo s userId videoId).2 =
        { s with videos := saveDoc Video._id s.videos (likeUpdate video user userId).1,
                 users := saveDoc User._id s.users (likeUpdate video user userId).2 } := by
  cases hv : findById Video._id s.videos videoId with
  | none => left; simp [likeVideo, likeVideoTrace, hv, finalStore]
  | some video =>
    cases hu : findById User._id s.users userId with
    | none => left; simp [likeVideo, likeVideoTrace, hv, hu, finalStore]
    | some user =>
      right
      obtain ⟨-, htr⟩ := likeVideoTrace_found s userId videoId video user hv hu
      exact ⟨video, user, rfl, rfl, by simp only [likeVideo, finalStore, htr]; rfl⟩

theorem dislikeVideo_store (s : Store) (userId videoId : ObjectId) :
    (dislikeVideo s userId videoId).2 = s ∨
    ∃ video user, findById Video._id s.videos videoId = some video ∧
      findById User._id s.users userId = some user ∧
      (dislikeVideo s userId videoId).2 =
        { s with videos := saveDoc Video._id s.videos (dislikeUpdate video user userId).1,
                 users := saveDoc User._id s.users (dislikeUpdate video user userId).2 } := by
  cases hv : findById Video._id s.videos videoId with
  | none => left; simp [dislikeVideo, dislikeVideoTrace, hv, finalStore]
  | some video =>
    cases hu : findById User._id s.users userId with
    | none => left; simp [dislikeVideo, dislikeVideoTrace, hv, hu, finalStore]
    | some user =>
      right
      obtain ⟨-, htr⟩ := dislikeVideoTrace_found s userId videoId video user hv hu
      exact ⟨video, user, rfl, rfl, by simp only [dislikeVideo, finalStore, htr]; rfl⟩

theorem createVideo_store (s : Store) (userId : ObjectId) (body : VideoBody) :
    (createVideo s userId body).2 = s ∨
    ∃ cid channel video, body.channelId = some cid ∧
      findById Channel._id s.channels cid = some channel ∧ channel.owner = userId ∧
      video._id = s.nextId ∧ video.channel = cid ∧ video.uploader = userId ∧
      video.views = 0 ∧
      (createVideo s userId body).2 =
        { s with videos := s.videos ++ [video], nextId := s.nextId + 1,
                 channels := saveDoc Channel._id s.channels
                   { channel with videos := channel.videos ++ [video._id],
                                  videoCount := channel.videoCount + 1 } } := by
  cases hb : body.channelId with
  | none => left; simp [createVideo, createVideoTrace, hb, finalStore]
  | some cid =>
    cases hc : findById Channel._id s.channels cid with
    | none => left; simp [createVideo, createVideoTrace, hb, hc, finalStore]
    | some channel =>
      by_cases ho : channel.owner = userId
      · cases hv : videoCreate s body
            (if truthy body.tags = true then splitTags (body.tags.getD "") else [])
            cid userId with
        | none => left; simp [createVideo, createVideoTrace, hb, hc, ho, hv, finalStore]
        | some vs =>
          obtain ⟨video, s1⟩ := vs
          obtain ⟨hid, hch, hup, -, -, -, -, hviews, hs1⟩ := videoCreate_some _ _ _ _ _ _ _ hv
          subst hs1
          right
          exact ⟨cid, channel, video, rfl, hc, ho, hid, hch, hup, hviews,
            by simp [createVideo, createVideoTrace, hb, hc, ho, hv, finalStore, push]⟩
      · left; simp [createVideo, createVideoTrace, hb, hc, ho, finalStore]

theorem deleteVideo_store (s : Store) (userId videoId : ObjectId) :
    (deleteVideo s userId videoId).2 = s ∨
    ∃ video, findById Video._id s.videos videoId = some video ∧ video.uploader = userId ∧
      ((∃ channel, findById Channel._id s.channels video.channel = some channel ∧
        (deleteVideo s userId videoId).2 =
          { s with channels := saveDoc Channel._id s.channels
                     { channel with videos := pull channel.videos video._id,
                                    videoCount := channel.videoCount - 1 },
                   videos := deleteById Video._id s.videos videoId }) ∨
       (findById Channel._id s.channels video.channel = none ∧
        (deleteVideo s userId videoId).2 =
          { s with videos := deleteById Video._id s.videos videoId })) := by
  cases hv : findById Video._id s.videos videoId with
  | none => left; simp [deleteVideo, deleteVideoTrace, hv, finalStore]
  | some video =>
    by_cases ho : video.uploader = userId
    · right
      refine ⟨video, rfl, ho, ?_⟩
      cases hc : findById Channel._id s.channels video.channel with
      | none => right; simp [deleteVideo, deleteVideoTrace, hv, ho, hc, finalStore]
      | some channel =>
        left
        exact ⟨channel, rfl, by simp [deleteVideo, deleteVideoTrace, hv, ho, hc, finalStore]⟩
    · left; simp [deleteVideo, deleteVideoTrace, hv, ho, finalStore]

theorem createChannel_store (lc : String → String) (s : Store) (userId : ObjectId)
    (body : ChannelBody) :
    (createChannel lc s userId body).2 = s ∨
    ∃ c, c._id = s.nextId ∧ c.owner = userId ∧ c.subscribers = [] ∧ c.videos = [] ∧
      c.videoCount = 0 ∧
      ((findById User._id s.users userId = none ∧
        (createChannel lc s userId body).2 =
          { s with channels := s.channels ++ [c], nextId := s.nextId + 1 }) ∨
       ∃ user, findById User._id s.users userId = some user ∧
        (createChannel lc s userId body).2 =
          { s with channels := s.channels ++ [c], nextId := s.nextId + 1,
                   users := saveDoc User._id s.users
                     { user with channels := push user.channels c._id } }) := by
  cases h1 : findOneByHandle lc s.channels body.handle with
  | some x => left; simp [createChannel, createChannelTrace, h1, finalStore]
  | none =>
    cases h2 : findOneByOwnerAndName s.channels userId body.channelName with
    | some x => left; simp [createChannel, createChannelTrace, h1, h2, finalStore]
    | none =>
      cases h3 : channelCreate lc s body userId with
      | none => left; simp [createChannel, createChannelTrace, h1, h2, h3, finalStore]
      | some cs =>
        obtain ⟨c, s1⟩ := cs
        obtain ⟨hd, -, -, -, hid, hown, hsub, -, hvid, hcnt, hs1⟩ :=
          channelCreate_some lc s body userId c s1 h3
        subst hs1
        right
        refine ⟨c, hid, hown, hsub, hvid, hcnt, ?_⟩
        cases h4 : findById User._id s.users userId with
        | none =>
          left
          exact ⟨rfl, by simp [createChannel, createChannelTrace, h1, h2, h3, h4, finalStore]⟩
        | some user =>
          right
          exact ⟨user, rfl,
            by simp [createChannel, createChannelTrace, h1, h2, h3, h4, finalStore]⟩

theorem addComment_store (s : Store) (userId : ObjectId) (text videoId : Option String) :
    (addComment s userId text videoId).2 = s ∨
    ∃ c, (addComment s userId text videoId).2 =
      { s with comments := s.comments ++ [c], nextId := s.nextId + 1 } := by
  unfold addComment
  split
  · left; rfl
  · split
    · left; rfl
    · right; exact ⟨_, rfl⟩

theorem updateComment_store (s : Store) (userId commentId : ObjectId)
    (text : Option String) (now : Nat) :
    ∃ cs, (updateComment s userId commentId text now).2 = { s with comments := cs } := by
  unfold updateComment
  split
  · exact ⟨s.comments, rfl⟩
  · split
    · exact ⟨s.comments, rfl⟩
    · split
      · exact ⟨s.comments, rfl⟩
      · exact ⟨_, rfl⟩

theorem deleteComment_store (s : Store) (userId commentId : ObjectId) :
    ∃ cs, (deleteComment s userId commentId).2 = { s with comments := cs } := by
  unfold deleteComment
  split
  · exact ⟨s.comments, rfl⟩
  · split
    · exact ⟨s.comments, rfl⟩
    · exact ⟨_, rfl⟩

theorem likeComment_store (s : Store) (userId commentId : ObjectId) :
    ∃ cs, (likeComment s userId commentId).2 = { s with comments := cs } := by
  unfold likeComment
  split
  · exact ⟨s.comments, rfl⟩
  · exact ⟨_, rfl⟩

/-! ## Views -/

theorem findById_of_mem_nodup {α : Type} (key : α → ObjectId) (docs : List α) (d : α)
    (hn : (docs.map key).Nodup) (hd : d ∈ docs) : findById key docs (key d) = some d := by
  cases h : findById key docs (key d) with
  | none =>
    unfold findById at h
    rw [List.find?_eq_none] at h
    exact absurd (by simp) (h d hd)
  | some x =>
    have hx : x ∈ docs := findById_mem _ _ _ _ h
    have hk : key x = key d := findById_key _ _ _ _ h
    rw [List.inj_on_of_nodup_map hn hx hd hk]

theorem findById_sublist_of_nodup {α : Type} (key : α → ObjectId) (docs sub : List α)
    (hn : (docs.map key).Nodup) (hsub : ∀ d ∈ sub, d ∈ docs) (id : ObjectId) (d : α)
    (h : findById key sub id = some d) : findById key docs id = some d := by
  have hk : key d = id := findById_key _ _ _ _ h
  rw [← hk]
  exact findById_of_mem_nodup key docs d hn (hsub d (findById_mem _ _ _ _ h))

theorem viewsNotDecreased_refl (s : Store) : ViewsNotDecreased s s := by
  intro id w w1 h h1
  rw [h] at h1
  cases h1
  exact le_refl _

theorem viewsNotDecreased_of_videos_eq (s t : Store) (h : t.videos = s.videos) :
    ViewsNotDecreased s t := by
  intro id w w1 hw hw1
  rw [h, hw] at hw1
  cases hw1
  exact le_refl _

theorem viewsNotDecreased_saveDoc (s t : Store) (v v1 : Video)
    (hv : findById Video._id s.videos v1._id = some v) (hle : v.views ≤ v1.views)
    (ht : t.videos = saveDoc Video._id s.videos v1) : ViewsNotDecreased s t := by
  intro id w w1 hw hw1
  rw [ht, findById_saveDoc] at hw1
  by_cases he : v1._id = id
  · subst he
    rw [hv] at hw
    cases hw
    simp [hv] at hw1
    rw [← hw1]; exact hle
  · simp only [he, if_false] at hw1
    rw [hw] at hw1
    cases hw1
    exact le_refl _

theorem viewsNotDecreased_sublist (s t : Store) (hn : (s.videos.map Video._id).Nodup)
    (hsub : ∀ d ∈ t.videos, d ∈ s.videos) : ViewsNotDecreased s t := by
  intro id w w1 hw hw1
  have := findById_sublist_of_nodup Video._id s.videos t.videos hn hsub id w1 hw1
  rw [hw] at this
  cases this
  exact le_refl _

theorem likeUpdate_views (video : Video) (user : User) (userId : ObjectId) :
    (likeUpdate video user userId).1.views = video.views := by
  unfold likeUpdate
  by_cases h1 : includes video.likes userId = true <;>
    by_cases h2 : includes video.dislikes userId = true <;> simp [h1, h2]

theorem dislikeUpdate_views (video : Video) (user : User) (userId : ObjectId) :
    (dislikeUpdate video user userId).1.views = video.views := by
  unfold dislikeUpdate
  by_cases h1 : includes video.likes userId = true <;>
    by_cases h2 : includes video.dislikes userId = true <;> simp [h1, h2]

theorem step_viewsNotDecreased (lc : String → String) (s : Store) (op : Op)
    (hn : (s.videos.map Video._id).Nodup) : ViewsNotDecreased s (step lc s op).2 := by
  cases op with
  | createChannel u b =>
    show ViewsNotDecreased s (createChannel lc s u b).2
    rcases createChannel_store lc s u b with h | ⟨c, -, -, -, -, -, ⟨-, h⟩ | ⟨user, -, h⟩⟩ <;>
      exact viewsNotDecreased_of_videos_eq _ _ (by rw [h])
  | updateChannel u c b =>
    show ViewsNotDecreased s (updateChannel s u c b).2
    rcases updateChannel_channels s u c b with h | ⟨_, _, -, -, -, h⟩ <;>
      exact viewsNotDecreased_of_videos_eq _ _ (by rw [h])
  | deleteChannel u c =>
    show ViewsNotDecreased s (deleteChannel s u c).2
    rcases deleteChannel_store s u c with h | ⟨_, -, -, h⟩ | ⟨_, _, -, -, -, h⟩
    · rw [h]; exact viewsNotDecreased_refl s
    · exact viewsNotDecreased_sublist _ _ hn (by
        rw [h]; intro d hd; exact (List.mem_filter.1 hd).1)
    · exact viewsNotDecreased_sublist _ _ hn (by
        rw [h]; intro d hd; exact (List.mem_filter.1 hd).1)
  | subscribeToChannel u c =>
    show ViewsNotDecreased s (subscribeToChannel s u c).2
    rcases subscribeToChannel_store s u c with h | ⟨_, _, -, -, -, -, h⟩ <;>
      exact viewsNotDecreased_of_videos_eq _ _ (by rw [h])
  | getVideo v =>
    show ViewsNotDecreased s (getVideo s v).2
    rcases getVideo_store s v with ⟨-, -, h⟩ | ⟨video, hv, -, h⟩
    · rw [h]; exact viewsNotDecreased_refl s
    · have hkey : video._id = v := findById_key _ _ _ _ hv
      refine viewsNotDecreased_saveDoc s _ video { video with views := video.views + 1 }
        (by rw [← hkey] at hv; exact hv) ?_ (by rw [h])
      show video.views ≤ video.views + 1
      omega
  | createVideo u b =>
    show ViewsNotDecreased s (createVideo s u b).2
    rcases createVideo_store s u b with h | ⟨cid, channel, video, -, -, -, -, -, -, -, h⟩
    · rw [h]; exact viewsNotDecreased_refl s
    · intro id w w1 hw hw1
      rw [h] at hw1
      have hw2 : findById Video._id (s.videos ++ [video]) id = some w1 := hw1
      rw [findById_append_single, hw] at hw2
      simp at hw2
      rw [hw2]
  | updateVideo u v b =>
    show ViewsNotDecreased s (updateVideo s u v b).2
    rcases updateVideo_store s u v b with h | ⟨video, video1, hv, -, hu, h⟩
    · rw [h]; exact viewsNotDecreased_refl s
    · have hd := videoUpdate_only_descriptive video b _ video1 hu
      have hkey : video._id = v := findById_key _ _ _ _ hv
      have hid : video1._id = v := (congrArg Video._id hd).trans hkey
      refine viewsNotDecreased_saveDoc s _ video video1 (by rw [hid]; exact hv) ?_ (by rw [h])
      exact le_of_eq (congrArg Video.views hd).symm
  | deleteVideo u v =>
    show ViewsNotDecreased s (deleteVideo s u v).2
    rcases deleteVideo_store s u v with h | ⟨video, -, -, ⟨channel, -, h⟩ | ⟨-, h⟩⟩
    · rw [h]; exact viewsNotDecreased_refl s
    · exact viewsNotDecreased_sublist _ _ hn (by
        rw [h]; intro d hd; exact mem_deleteById _ _ _ _ hd)
    · exact viewsNotDecreased_sublist _ _ hn (by
        rw [h]; intro d hd; exact mem_deleteById _ _ _ _ hd)
  | likeVideo u v =>
    show ViewsNotDecreased s (likeVideo s u v).2
    rcases likeVideo_store s u v with h | ⟨video, user, hv, -, h⟩
    · rw [h]; exact viewsNotDecreased_refl s
    · have hkey : video._id = v := findById_key _ _ _ _ hv
      refine viewsNotDecreased_saveDoc s _ video (likeUpdate video user u).1
        (by rw [likeUpdate_id, hkey]; exact hv) ?_ (by rw [h])
      rw [likeUpdate_views]
  | dislikeVideo u v =>
    show ViewsNotDecreased s (dislikeVideo s u v).2
    rcases dislikeVideo_store s u v with h | ⟨video, user, hv, -, h⟩
    · rw [h]; exact viewsNotDecreased_refl s
    · have hkey : video._id = v := findById_key _ _ _ _ hv
      refine viewsNotDecreased_saveDoc s _ video (dislikeUpdate video user u).1
        (by rw [dislikeUpdate_id, hkey]; exact hv) ?_ (by rw [h])
      rw [dislikeUpdate_views]
  | addComment u t v =>
    show ViewsNotDecreased s (addComment s u t v).2
    rcases addComment_store s u t v with h | ⟨c, h⟩ <;>
      exact viewsNotDecreased_of_videos_eq _ _ (by rw [h])
  | updateComment u c t n =>
    show ViewsNotDecreased s (updateComment s u c t n).2
    obtain ⟨cs, h⟩ := updateComment_store s u c t n
    exact viewsNotDecreased_of_videos_eq _ _ (by rw [h])
  | deleteComment u c =>
    show ViewsNotDecreased s (deleteComment s u c).2
    obtain ⟨cs, h⟩ := deleteComment_store s u c
    exact viewsNotDecreased_of_videos_eq _ _ (by rw [h])
  | likeComment u c =>
    show ViewsNotDecreased s (likeComment s u c).2
    obtain ⟨cs, h⟩ := likeComment_store s u c
    exact viewsNotDecreased_of_videos_eq _ _ (by rw [h])

theorem fetchTimes_views (s : Store) (videoId : ObjectId) (v : Video)
    (hv : findById Video._id s.videos videoId = some v) (k : Nat) :
    ∃ w, findById Video._id (fetchTimes s videoId k).videos videoId = some w ∧
      w.views = v.views + k := by
  induction k with
  | zero => exact ⟨v, hv, by simp⟩
  | succ k ih =>
    obtain ⟨w, hw, hviews⟩ := ih
    have hkey : w._id = videoId := findById_key _ _ _ _ hw
    rcases getVideo_store (fetchTimes s videoId k) videoId with ⟨-, hnone, -⟩ | ⟨video, hf, -, h⟩
    · rw [hw] at hnone; cases hnone
    · have hvw : video = w := Option.some.inj (hf.symm.trans hw)
      subst hvw
      refine ⟨{ video with views := video.views + 1 }, ?_, ?_⟩
      · show findById Video._id (getVideo (fetchTimes s videoId k) videoId).2.videos videoId = _
        rw [h]
        show findById Video._id (saveDoc Video._id _ _) videoId = _
        rw [findById_saveDoc]
        simp [hkey, hw]
      · show video.views + 1 = v.views + ((k + 1 : Nat) : Int)
        rw [hviews]; push_cast; ring

/-- C15: for a stored video with views = n, a getVideo call answers 200, a second
one answers 200 as well and leaves views = n + 2; k successive fetches leave
views = n + k, each answering 200 (the handler takes no user, so whoever fetches);
and, ids being unique in the videos collection, no request to any handler leaves a
video with fewer views than it had. -/
theorem getVideo_counts_every_fetch (lc : String → String) (s : Store) (videoId : ObjectId)
    (v : Video) (hv : findById Video._id s.videos videoId = some v) :
    (getVideo s videoId).1.status = 200 ∧
    (getVideo (getVideo s videoId).2 videoId).1.status = 200 ∧
    (∃ w, findById Video._id (getVideo (getVideo s videoId).2 videoId).2.videos videoId
        = some w ∧ w.views = v.views + 2) ∧
    (∀ k : Nat, ∃ w, findById Video._id (fetchTimes s videoId k).videos videoId = some w ∧
      w.views = v.views + k ∧
      (getVideo (fetchTimes s videoId k) videoId).1.status = 200) ∧
    ((s.videos.map Video._id).Nodup →
      ∀ op : Op, ∀ (id : ObjectId) (w w1 : Video), findById Video._id s.videos id = some w →
        findById Video._id (step lc s op).2.videos id = some w1 → w.views ≤ w1.views) := by
  have hk : ∀ k : Nat, ∃ w, findById Video._id (fetchTimes s videoId k).videos videoId
      = some w ∧ w.views = v.views + k ∧
      (getVideo (fetchTimes s videoId k) videoId).1.status = 200 := by
    intro k
    obtain ⟨w, hw, hviews⟩ := fetchTimes_views s videoId v hv k
    exact ⟨w, hw, hviews, by simp [getVideo, hw]⟩
  refine ⟨?_, ?_, ?_, hk, ?_⟩
  · simpa [fetchTimes] using (hk 0).choose_spec.2.2
  · simpa [fetchTimes] using (hk 1).choose_spec.2.2
  · obtain ⟨w, hw, hviews, -⟩ := hk 2
    exact ⟨w, hw, by rw [hviews]; norm_num⟩
  · intro hn op
    exact step_viewsNotDecreased lc s op hn

theorem getVideo_counts_every_fetch_witness :
    (findById Video._id demoStore.videos 20 = some introVideo ∧
      (demoStore.videos.map Video._id).Nodup) ∧
    (getVideo demoStore 20).1.status = 200 ∧
    (getVideo (getVideo demoStore 20).2 20).1.status = 200 ∧
    (∃ w, findById Video._id (getVideo (getVideo demoStore 20).2 20).2.videos 20 = some w ∧
      w.views = introVideo.views + 2) ∧
    ∀ (id : ObjectId) (w w1 : Video), findById Video._id demoStore.videos id = some w →
      findById Video._id (step asciiLower demoStore (Op.deleteVideo 1 20)).2.videos id
        = some w1 → w.views ≤ w1.views :=
  ⟨⟨by decide, by decide⟩,
   (getVideo_counts_every_fetch asciiLower demoStore 20 introVideo (by decide)).1,
   (getVideo_counts_every_fetch asciiLower demoStore 20 introVideo (by decide)).2.1,
   (getVideo_counts_every_fetch asciiLower demoStore 20 introVideo (by decide)).2.2.1,
   (getVideo_counts_every_fetch asciiLower demoStore 20 introVideo (by decide)).2.2.2.2
     (by decide) _⟩

/-! ## Comments -/

theorem trimChars_eq_nil_iff (cs : List Char) :
    trimChars cs = [] ↔ cs.all isWhiteSpace = true := by
  unfold trimChars
  rw [List.reverse_eq_nil_iff, List.dropWhile_eq_nil_iff, List.all_eq_true]
  constructor
  · intro h
    by_contra hall
    have hne : cs.dropWhile isWhiteSpace ≠ [] := by
      intro he
      exact hall (List.dropWhile_eq_nil_iff.1 he)
    have h1 := List.head_dropWhile_not isWhiteSpace cs hne
    have h2 := h _ (List.mem_reverse.2 (List.head_mem hne))
    rw [h1] at h2
    cases h2
  · intro h x hx
    rw [List.dropWhile_eq_nil_iff.2 h] at hx
    simp at hx

theorem truthy_trim (t : String) :
    truthy (some (trim t)) = !(t.data.all isWhiteSpace) := by
  unfold truthy trim
  by_cases h : t.data.all isWhiteSpace = true
  · rw [h, (trimChars_eq_nil_iff _).2 h]; rfl
  · have hne : trimChars t.data ≠ [] := fun he => h ((trimChars_eq_nil_iff _).1 he)
    rw [Bool.not_eq_true] at h
    rw [h]
    cases hc : trimChars t.data with
    | nil => exact absurd hc hne
    | cons c cs => rfl

theorem truthy_of_all_false (t : String) (h : t.data.all isWhiteSpace = false) :
    truthy (some t) = true := by
  unfold truthy
  cases hd : t.data with
  | nil => rw [hd] at h; simp at h
  | cons c cs => simp [hd]

theorem truthy_of_ne_empty (t : String) (h : t ≠ "") : truthy (some t) = true := by
  unfold truthy
  cases hd : t.data with
  | nil =>
    exfalso
    apply h
    cases t
    simp_all
  | cons c cs => simp [hd]

/-- C17: an addComment request whose text is missing, empty or only white space
answers 400 and creates nothing; with a text that has a character other than white
space but a missing or empty videoId it answers 400 and creates nothing; otherwise
it answers 201 and adds exactly one comment, with text the trimmed input, author the
caller and videoId as given, the videos collection playing no role. -/
theorem addComment_outcomes (s : Store) (userId : ObjectId) (text videoId : Option String) :
    ((∀ t, text = some t → t.data.all isWhiteSpace = true) →
      (addComment s userId text videoId).1.status = 400 ∧
      (addComment s userId text videoId).2 = s) ∧
    (∀ t, text = some t → t.data.all isWhiteSpace = false →
      (videoId = none ∨ videoId = some "") →
      (addComment s userId text videoId).1.status = 400 ∧
      (addComment s userId text videoId).2 = s) ∧
    (∀ t vid, text = some t → t.data.all isWhiteSpace = false → videoId = some vid →
      vid ≠ "" →
      (addComment s userId text videoId).1.status = 201 ∧
      ∃ c, (addComment s userId text videoId).2 =
          { s with comments := s.comments ++ [c], nextId := s.nextId + 1 } ∧
        c._id = s.nextId ∧ c.text = trim t ∧ c.author = userId ∧ c.videoId = vid) := by
  refine ⟨?_, ?_, ?_⟩
  · intro h
    cases ht : text with
    | none => simp [addComment, truthy]
    | some t =>
      have h1 : truthy (some (trim t)) = false := by rw [truthy_trim, h t ht]; rfl
      simp [addComment, h1]
  · intro t ht hall hvid
    have h1 : truthy (some (trim t)) = true := by rw [truthy_trim, hall]; rfl
    have h2 : truthy (some t) = true := truthy_of_all_false t hall
    have h3 : truthy videoId = false := by
      rcases hvid with hv | hv <;> rw [hv] <;> rfl
    simp [addComment, ht, h1, h2, h3]
  · intro t vid ht hall hv hne
    have h1 : truthy (some (trim t)) = true := by rw [truthy_trim, hall]; rfl
    have h2 : truthy (some t) = true := truthy_of_all_false t hall
    have h3 : truthy (some vid) = true := truthy_of_ne_empty vid hne
    refine ⟨by simp [addComment, ht, hv, h1, h2, h3], ?_⟩
    refine ⟨(commentCreate s (trim t) userId vid).1, ?_, rfl, rfl, rfl, rfl⟩
    simp [addComment, ht, hv, h1, h2, h3, commentCreate]

theorem addComment_outcomes_witness :
    ((some " nice video " : Option String) = some " nice video " ∧
      (" nice video " : String).data.all isWhiteSpace = false ∧
      (some "no-such-video" : Option String) = some "no-such-video" ∧
      ("no-such-video" : String) ≠ "") ∧
    (addComment demoStore 2 (some " nice video ") (some "no-such-video")).1.status = 201 ∧
    ∃ c, (addComment demoStore 2 (some " nice video ") (some "no-such-video")).2 =
        { demoStore with comments := demoStore.comments ++ [c],
                         nextId := demoStore.nextId + 1 } ∧
      c._id = demoStore.nextId ∧ c.text = trim " nice video " ∧ c.author = 2 ∧
      c.videoId = "no-such-video" :=
  ⟨⟨rfl, by decide, rfl, by decide⟩,
   (addComment_outcomes demoStore 2 (some " nice video ") (some "no-such-video")).2.2
     " nice video " "no-such-video" rfl (by decide) rfl (by decide)⟩

/-- C18 (counterexample): a likeComment call by a user who is not in likes, on a
comment whose stored likeCount is -5, stores likeCount -4, which is negative. -/
theorem likeComment_keeps_negative_count :
    findById Comment._id negativeCountStore.comments 30 =
      some { firstComment with likeCount := some (-5) } ∧
    (likeComment negativeCountStore 2 30).1.status = 200 ∧
    ∃ c, findById Comment._id (likeComment negativeCountStore 2 30).2.comments 30 = some c ∧
      2 ∈ c.likes ∧ c.likeCount = some (-4) := by
  decide

/-- C18 (amended): for every stored comment, in any state, a likeComment call answers
200 and toggles the caller's membership in likes. When the caller was in likes the
stored likeCount is max(old - 1, 0), old counting as 1 when it is 0 or missing, and so
is never negative; when the caller was not in likes it is old + 1, old counting as 0
when missing, which is not negative whenever old is missing or at least -1. From a
consistent state (likes duplicate-free, likeCount = |likes|) the stored likeCount is
the size of the stored likes. -/
theorem likeComment_toggles (s : Store) (userId commentId : ObjectId) (comment : Comment)
    (hc : findById Comment._id s.comments commentId = some comment) :
    (likeComment s userId commentId).1.status = 200 ∧
    ∃ c1, findById Comment._id (likeComment s userId commentId).2.comments commentId
        = some c1 ∧
      (userId ∈ c1.likes ↔ userId ∉ comment.likes) ∧
      (userId ∈ comment.likes →
        c1.likeCount = some (max (numberOr comment.likeCount 1 - 1) 0) ∧
        ∃ n : Int, c1.likeCount = some n ∧ 0 ≤ n) ∧
      (userId ∉ comment.likes →
        c1.likeCount = some (numberOr comment.likeCount 0 + 1) ∧
        ((comment.likeCount = none ∨ ∃ k : Int, comment.likeCount = some k ∧ -1 ≤ k) →
          ∃ n : Int, c1.likeCount = some n ∧ 0 ≤ n)) ∧
      (comment.likes.Nodup → comment.likeCount = some (comment.likes.length : Int) →
        c1.likes.Nodup ∧ c1.likeCount = some (c1.likes.length : Int)) := by
  have hkey : comment._id = commentId := findById_key _ _ _ _ hc
  refine ⟨by simp [likeComment, hc], ?_⟩
  by_cases hi : includes comment.likes userId = true
  · have hm : userId ∈ comment.likes := (includes_iff _ _).1 hi
    refine ⟨{ comment with likes := pull comment.likes userId,
                           likeCount := some (max (numberOr comment.likeCount 1 - 1) 0) },
      ?_, ?_, ?_, ?_, ?_⟩
    · simp only [likeComment, hc, hi, if_true]
      show findById Comment._id (saveDoc Comment._id s.comments _) commentId = _
      rw [findById_saveDoc]; simp [hkey, hc]
    · simp [mem_pull, hm]
    · intro _
      exact ⟨rfl, _, rfl, le_max_right _ _⟩
    · intro hn; exact absurd hm hn
    · intro hnd hcount
      refine ⟨nodup_pull _ _ hnd, ?_⟩
      show some (max (numberOr comment.likeCount 1 - 1) 0) = some _
      rw [length_pull_of_mem _ _ hnd hm, hcount]
      have hpos : 0 < comment.likes.length := List.length_pos_of_mem hm
      have hne : ¬ ((comment.likes.length : Int) = 0) := by omega
      simp only [numberOr, hne, if_false]
      congr 1
      omega
  · have hm : userId ∉ comment.likes := fun hx => hi ((includes_iff _ _).2 hx)
    refine ⟨{ comment with likes := push comment.likes userId,
                           likeCount := some (numberOr comment.likeCount 0 + 1) },
      ?_, ?_, ?_, ?_, ?_⟩
    · simp only [likeComment, hc, hi]
      show findById Comment._id (saveDoc Comment._id s.comments _) commentId = _
      rw [findById_saveDoc]; simp [hkey, hc]
    · simp [mem_push, hm]
    · intro hx; exact absurd hx hm
    · intro _
      refine ⟨rfl, ?_⟩
      intro hold
      refine ⟨_, rfl, ?_⟩
      rcases hold with h0 | ⟨k, hk, hk1⟩
      · rw [h0]; simp [numberOr]
      · rw [hk]
        by_cases hz : k = 0
        · simp [numberOr, hz]
        · simp only [numberOr, hz, if_false]; omega
    · intro hnd hcount
      refine ⟨nodup_push _ _ hnd hm, ?_⟩
      show some (numberOr comment.likeCount 0 + 1) = some _
      rw [length_push, hcount]
      congr 1
      by_cases hz : (comment.likes.length : Int) = 0
      · simp [numberOr, hz]
      · simp [numberOr, hz]

theorem likeComment_toggles_witness :
    findById Comment._id demoStore.comments 30 = some firstComment ∧
    (likeComment demoStore 2 30).1.status = 200 ∧
    (likeComment (likeComment demoStore 2 30).2 2 30).1.status = 200 :=
  ⟨by decide, (likeComment_toggles demoStore 2 30 firstComment (by decide)).1,
   (likeComment_toggles (likeComment demoStore 2 30).2 2 30
     { firstComment with likes := [2], likeCount := some 1 } (by decide)).1⟩

/-! ## The protect middleware -/

theorem scanUsers_none (users : List User) (target : IdClaim)
    (h : findUserByClaim users target = none) : scanUsers users target = none := by
  cases target with
  | absent => rfl
  | malformed raw => rfl
  | id oid canonical =>
    cases canonical with
    | false => rfl
    | true =>
      simp only [findUserByClaim, findById] at h
      rw [List.find?_eq_none] at h
      simp only [scanUsers]
      rw [List.find?_eq_none]
      intro u hu
      rw [List.mem_map] at hu
      obtain ⟨w, hw, rfl⟩ := hu
      exact h w (List.mem_of_mem_take hw)

theorem findUserByClaim_some (users : List User) (c : IdClaim) (u : User)
    (h : findUserByClaim users c = some u) :
    u ∈ users ∧ ∃ canonical, c = .id u._id canonical := by
  cases c with
  | absent => cases h
  | malformed raw => cases h
  | id oid canonical =>
    simp only [findUserByClaim] at h
    have hk : u._id = oid := findById_key _ _ _ _ h
    exact ⟨findById_mem _ _ _ _ h, canonical, by rw [hk]⟩

/-- The user protect resolves for a verified payload: the direct lookup by decoded.id,
else the one by decoded.userId; the scan of strategy 3 adds nothing. -/
theorem protect_verified (verify : String → Option Decoded) (s : Store)
    (authorization : Option String) (t : String) (d : Decoded)
    (ht : bearerToken authorization = some t) (hne : truthy (some t) = true)
    (hd : verify t = some d) :
    protect verify s authorization =
      match (findUserByClaim s.users d.id).or (findUserByClaim s.users d.userId) with
      | none => .denied { status := 401, success := false, message := some "User not found" }
      | some user => .next user := by
  unfold protect
  simp only [ht, hne, Bool.not_true, Bool.false_eq_true, if_false, Option.getD_some, hd]
  cases h1 : findUserByClaim s.users d.id with
  | some u => simp
  | none =>
    cases h2 : findUserByClaim s.users d.userId with
    | some u =>
      have htr : d.userId.truthy = true := by
        obtain ⟨-, c, hc⟩ := findUserByClaim_some _ _ _ h2
        rw [hc]; rfl
      simp [htr, h2]
    | none =>
      have hscan : scanUsers s.users (if d.id.truthy = true then d.id else d.userId) = none := by
        apply scanUsers_none
        by_cases hi : d.id.truthy = true
        · rw [if_pos hi]; exact h1
        · rw [if_neg hi]; exact h2
      by_cases hu : d.userId.truthy = true
      · simp [hu, h2, hscan]
      · simp [hu, hscan]

theorem protect_no_token (verify : String → Option Decoded) (s : Store)
    (authorization : Option String) (h : truthy (bearerToken authorization) = false) :
    protect verify s authorization =
      .denied { status := 401, success := false,
                message := some "No token, authorization denied" } := by
  simp [protect, h]

/-- Every answer protect gives itself is a 401 with success false and a message. -/
theorem protect_denied_shape (verify : String → Option Decoded) (s : Store)
    (authorization : Option String) (r : Response)
    (hr : protect verify s authorization = .denied r) :
    r.status = 401 ∧ r.success = false ∧ r.message.isSome = true := by
  by_cases htr : truthy (bearerToken authorization) = true
  · obtain ⟨t, htok⟩ : ∃ t, bearerToken authorization = some t := by
      cases hb : bearerToken authorization with
      | none => rw [hb] at htr; cases htr
      | some t => exact ⟨t, rfl⟩
    rw [htok] at htr
    cases hv : verify t with
    | none =>
      have hp : protect verify s authorization =
          .denied { status := 401, success := false,
                    message := some "Token is not valid" } := by
        simp [protect, htok, htr, hv]
      rw [hp] at hr
      cases hr
      exact ⟨rfl, rfl, rfl⟩
    | some d =>
      rw [protect_verified verify s authorization t d htok htr hv] at hr
      cases ho : (findUserByClaim s.users d.id).or (findUserByClaim s.users d.userId) with
      | none =>
        rw [ho] at hr
        cases hr
        exact ⟨rfl, rfl, rfl⟩
      | some u =>
        rw [ho] at hr
        cases hr
  · rw [protect_no_token verify s authorization (by simpa using htr)] at hr
    cases hr
    exact ⟨rfl, rfl, rfl⟩

/-- C16: protect answers 401, without calling next, when the Authorization header is
absent, does not start with Bearer, or has no non-empty second piece after the space,
when jwt.verify throws, and when neither decoded.id nor decoded.userId is the id of a
stored user; otherwise it calls next once, with req.user the stored user found by
decoded.id, or else by decoded.userId. Whenever next is called, req.user is a stored
user whose id is one of the two claims of the verified token, and every answer protect
gives itself has status 401. -/
theorem protect_resolves_or_denies (verify : String → Option Decoded) (s : Store)
    (authorization : Option String) :
    (authorization = none →
      ∃ r, protect verify s authorization = .denied r ∧ r.status = 401) ∧
    (∀ h, authorization = some h → "Bearer".data.isPrefixOf h.data = false →
      ∃ r, protect verify s authorization = .denied r ∧ r.status = 401) ∧
    (∀ h, authorization = some h →
      ((splitOn ' ' h.data).get? 1 = none ∨ (splitOn ' ' h.data).get? 1 = some []) →
      ∃ r, protect verify s authorization = .denied r ∧ r.status = 401) ∧
    (∀ t, bearerToken authorization = some t → t ≠ "" →
      (verify t = none →
        ∃ r, protect verify s authorization = .denied r ∧ r.status = 401) ∧
      (∀ d, verify t = some d →
        (findUserByClaim s.users d.id = none → findUserByClaim s.users d.userId = none →
          ∃ r, protect verify s authorization = .denied r ∧ r.status = 401) ∧
        (∀ u, findUserByClaim s.users d.id = some u →
          protect verify s authorization = .next u) ∧
        (∀ u, findUserByClaim s.users d.id = none →
          findUserByClaim s.users d.userId = some u →
          protect verify s authorization = .next u))) ∧
    (∀ u, protect verify s authorization = .next u →
      u ∈ s.users ∧ ∃ t d, bearerToken authorization = some t ∧ verify t = some d ∧
        ((∃ c, d.id = .id u._id c) ∨ (∃ c, d.userId = .id u._id c))) ∧
    (∀ r, protect verify s authorization = .denied r →
      r.status = 401 ∧ r.success = false ∧ r.message.isSome = true) := by
  have hnotoken : truthy (bearerToken authorization) = false →
      protect verify s authorization =
        .denied { status := 401, success := false,
                  message := some "No token, authorization denied" } := by
    intro h
    simp [protect, h]
  refine ⟨?_, ?_, ?_, ?_, ?_, ?_⟩
  · intro h
    exact ⟨_, hnotoken (by rw [h]; rfl), rfl⟩
  · intro h ha hp
    exact ⟨_, hnotoken (by simp [ha, bearerToken, hp, truthy]), rfl⟩
  · intro h ha hs
    refine ⟨_, hnotoken ?_, rfl⟩
    rw [ha]
    simp only [bearerToken]
    by_cases hc : (truthy (some h) && "Bearer".data.isPrefixOf h.data) = true
    · rw [if_pos hc]; rcases hs with hs | hs <;> rw [hs] <;> rfl
    · rw [if_neg hc]; rfl
  · intro t ht hne
    have htr : truthy (some t) = true := truthy_of_ne_empty t hne
    refine ⟨?_, ?_⟩
    · intro hv
      exact ⟨{ status := 401, success := false, message := some "Token is not valid" },
        by simp [protect, ht, htr, hv], rfl⟩
    · intro d hd
      have hp := protect_verified verify s authorization t d ht htr hd
      refine ⟨?_, ?_, ?_⟩
      · intro h1 h2
        rw [h1, h2] at hp
        exact ⟨_, hp, rfl⟩
      · intro u h1
        rw [h1] at hp
        exact hp
      · intro u h1 h2
        rw [h1, h2] at hp
        exact hp
  · intro u hu
    cases htok : bearerToken authorization with
    | none => simp [protect, htok, truthy] at hu
    | some t =>
      by_cases htr : truthy (some t) = true
      · cases hv : verify t with
        | none => simp [protect, htok, htr, hv] at hu
        | some d =>
          rw [protect_verified verify s authorization t d htok htr hv] at hu
          cases h1 : findUserByClaim s.users d.id with
          | some w =>
            rw [h1] at hu
            simp only [Option.or_some, ProtectResult.next.injEq] at hu
            subst hu
            obtain ⟨hm, c, hc⟩ := findUserByClaim_some _ _ _ h1
            exact ⟨hm, t, d, rfl, hv, Or.inl ⟨c, hc⟩⟩
          | none =>
            cases h2 : findUserByClaim s.users d.userId with
            | some w =>
              rw [h1, h2] at hu
              simp only [Option.none_or, ProtectResult.next.injEq] at hu
              subst hu
              obtain ⟨hm, c, hc⟩ := findUserByClaim_some _ _ _ h2
              exact ⟨hm, t, d, rfl, hv, Or.inr ⟨c, hc⟩⟩
            | none =>
              rw [h1, h2] at hu
              simp at hu
      · simp [protect, htok, htr] at hu
  · intro r hr
    exact protect_denied_shape verify s authorization r hr

theorem protect_resolves_or_denies_witness :
    (bearerToken (some "Bearer tok1") = some "tok1" ∧ ("tok1" : String) ≠ "" ∧
      findUserByClaim demoStore.users (IdClaim.id 2 true) = some bob) ∧
    protect (fun t => if t = "tok1" then some ⟨.id 2 true, .absent⟩ else none) demoStore
      (some "Bearer tok1") = .next bob ∧
    (∃ r, protect (fun t => if t = "tok1" then some ⟨.id 2 true, .absent⟩ else none) demoStore
      (some "Bearer ") = .denied r ∧ r.status = 401) :=
  ⟨⟨by decide, by decide, by decide⟩,
   ((protect_resolves_or_denies
      (fun t => if t = "tok1" then some ⟨.id 2 true, .absent⟩ else none) demoStore
      (some "Bearer tok1")).2.2.2.1 "tok1" (by decide) (by decide)).2 ⟨.id 2 true, .absent⟩
      (by decide) |>.2.1 bob (by decide),
   (protect_resolves_or_denies
      (fun t => if t = "tok1" then some ⟨.id 2 true, .absent⟩ else none) demoStore
      (some "Bearer ")).2.2.1 "Bearer " rfl (by decide)⟩

/-! ## Trending -/

theorem rankedBefore_iff (a b : Video) :
    rankedBefore a b = true ↔
      (b.views < a.views ∨ (b.views = a.views ∧ b.likeCount ≤ a.likeCount)) := by
  simp [rankedBefore]

theorem rankedBefore_total (a b : Video) :
    rankedBefore a b = true ∨ rankedBefore b a = true := by
  rw [rankedBefore_iff, rankedBefore_iff]
  omega

theorem rankedBefore_trans (a b c : Video) (h1 : rankedBefore a b = true)
    (h2 : rankedBefore b c = true) : rankedBefore a c = true := by
  rw [rankedBefore_iff] at h1 h2 ⊢
  omega

theorem ranking_sorted (l : List Video) :
    (l.insertionSort (fun a b => rankedBefore a b = true)).Pairwise
      (fun a b => rankedBefore a b = true) := by
  haveI : IsTotal Video (fun a b => rankedBefore a b = true) := ⟨rankedBefore_total⟩
  haveI : IsTrans Video (fun a b => rankedBefore a b = true) := ⟨rankedBefore_trans⟩
  exact List.sorted_insertionSort _ l

/-- C19: getTrendingVideos answers 200 with at most 20 videos, each stored, public and
active, ordered by views descending and, on equal views, by likeCount descending; the
list is the first 20 of such an ordering of all public active videos, so that no
public active video that is left out ranks strictly before a returned one. -/
theorem trending_is_top_twenty (s : Store) :
    (getTrendingVideos s).status = 200 ∧
    (getTrendingVideos s).data = some (.videos (trendingVideos s)) ∧
    (trendingVideos s).length ≤ 20 ∧
    (∀ v ∈ trendingVideos s, v ∈ s.videos ∧ v.isPublic = true ∧ v.isActive = true) ∧
    (trendingVideos s).Pairwise
      (fun a b => b.views < a.views ∨ (b.views = a.views ∧ b.likeCount ≤ a.likeCount)) ∧
    (∃ ranking : List Video,
      ranking.Perm (s.videos.filter (fun v => v.isPublic && v.isActive)) ∧
      ranking.Pairwise
        (fun a b => b.views < a.views ∨ (b.views = a.views ∧ b.likeCount ≤ a.likeCount)) ∧
      trendingVideos s = ranking.take 20) ∧
    (∀ v ∈ s.videos, v.isPublic = true → v.isActive = true → v ∉ trendingVideos s →
      ∀ w ∈ trendingVideos s,
        ¬ (w.views < v.views ∨ (w.views = v.views ∧ w.likeCount < v.likeCount))) := by
  have hsorted := ranking_sorted (s.videos.filter (fun v => v.isPublic && v.isActive))
  have hperm := List.perm_insertionSort (fun a b => rankedBefore a b = true)
    (s.videos.filter (fun v => v.isPublic && v.isActive))
  have hsorted2 : ((s.videos.filter (fun v => v.isPublic && v.isActive)).insertionSort
      (fun a b => rankedBefore a b = true)).Pairwise
      (fun a b => b.views < a.views ∨ (b.views = a.views ∧ b.likeCount ≤ a.likeCount)) :=
    hsorted.imp (fun h => (rankedBefore_iff _ _).1 h)
  refine ⟨rfl, rfl, ?_, ?_, ?_, ⟨_, hperm, hsorted2, rfl⟩, ?_⟩
  · exact List.length_take_le _ _
  · intro v hv
    have h1 := hperm.subset (List.mem_of_mem_take hv)
    rw [List.mem_filter] at h1
    simpa using h1
  · exact hsorted2.sublist (List.take_sublist _ _)
  · intro v hv hp ha hnot w hw
    have hmem : v ∈ (s.videos.filter (fun v => v.isPublic && v.isActive)).insertionSort
        (fun a b => rankedBefore a b = true) :=
      hperm.symm.subset (List.mem_filter.2 ⟨hv, by simp [hp, ha]⟩)
    rw [← List.take_append_drop 20 ((s.videos.filter
      (fun v => v.isPublic && v.isActive)).insertionSort
      (fun a b => rankedBefore a b = true))] at hmem hsorted2
    rw [List.mem_append] at hmem
    rcases hmem with hmem | hmem
    · exact absurd hmem hnot
    · have := (List.pairwise_append.1 hsorted2).2.2 w hw v hmem
      omega

set_option maxRecDepth 100000 in
theorem trending_is_top_twenty_witness :
    (({ introVideo with _id := 200, views := 0, dislikes := [], dislikeCount := 0 } : Video)
        ∈ rankingStore.videos ∧
      ({ introVideo with _id := 200, views := 0, dislikes := [], dislikeCount := 0 } : Video)
        ∉ trendingVideos rankingStore ∧
      ({ introVideo with _id := 220, views := 20, dislikes := [], dislikeCount := 0 } : Video)
        ∈ trendingVideos rankingStore) ∧
    (trendingVideos rankingStore).length = 20 ∧
    ¬ ((20 : Int) < 0 ∨ ((20 : Int) = 0 ∧ (0 : Int) < 0)) :=
  ⟨⟨by decide, by decide, by decide⟩, by decide,
   (trending_is_top_twenty rankingStore).2.2.2.2.2.2
     { introVideo with _id := 200, views := 0, dislikes := [], dislikeCount := 0 }
     (by decide) (by decide) (by decide) (by decide)
     { introVideo with _id := 220, views := 20, dislikes := [], dislikeCount := 0 }
     (by decide)⟩

/-! ## Response shapes -/

theorem step_wellShaped (lc : String → String) (s : Store) (op : Op) :
    (step lc s op).1.wellShaped op.isDelete := by
  cases op with
  | createChannel u b =>
    show (createChannel lc s u b).1.wellShaped false
    unfold createChannel createChannelTrace
    repeat' split
    all_goals simp [Response.wellShaped]
  | updateChannel u c b =>
    show (updateChannel s u c b).1.wellShaped false
    unfold updateChannel
    repeat' split
    all_goals simp [Response.wellShaped]
  | deleteChannel u c =>
    show (deleteChannel s u c).1.wellShaped true
    cases hc : findById Channel._id s.channels c with
    | none => simp [deleteChannel, deleteChannelTrace, hc, Response.wellShaped]
    | some channel =>
      by_cases ho : channel.owner = u
      · cases hu : findById User._id s.users u <;>
          simp [deleteChannel, deleteChannelTrace, hc, ho, hu, Response.wellShaped]
      · simp [deleteChannel, deleteChannelTrace, hc, ho, Response.wellShaped]
  | subscribeToChannel u c =>
    show (subscribeToChannel s u c).1.wellShaped false
    unfold subscribeToChannel subscribeToChannelTrace
    repeat' split
    all_goals simp [Response.wellShaped]
  | getVideo v =>
    show (getVideo s v).1.wellShaped false
    unfold getVideo
    repeat' split
    all_goals simp [Response.wellShaped]
  | createVideo u b =>
    show (createVideo s u b).1.wellShaped false
    cases hb : b.channelId with
    | none => simp [createVideo, createVideoTrace, hb, Response.wellShaped]
    | some cid =>
      cases hc : findById Channel._id s.channels cid with
      | none => simp [createVideo, createVideoTrace, hb, hc, Response.wellShaped]
      | some channel =>
        by_cases ho : channel.owner = u
        · cases hv : videoCreate s b
              (if truthy b.tags = true then splitTags (b.tags.getD "") else []) cid u with
          | none => simp [createVideo, createVideoTrace, hb, hc, ho, hv, Response.wellShaped]
          | some vs =>
            simp [createVideo, createVideoTrace, hb, hc, ho, hv, Response.wellShaped]
        · simp [createVideo, createVideoTrace, hb, hc, ho, Response.wellShaped]
  | updateVideo u v b =>
    show (updateVideo s u v b).1.wellShaped false
    cases hv : findById Video._id s.videos v with
    | none => simp [updateVideo, hv, Response.wellShaped]
    | some video =>
      by_cases ho : video.uploader = u
      · cases hu : videoUpdate video b
            (if truthy b.tags = true then splitTags (b.tags.getD "") else video.tags) <;>
          simp [updateVideo, hv, ho, hu, Response.wellShaped]
      · simp [updateVideo, hv, ho, Response.wellShaped]
  | deleteVideo u v =>
    show (deleteVideo s u v).1.wellShaped true
    unfold deleteVideo deleteVideoTrace
    repeat' split
    all_goals simp [Response.wellShaped]
  | likeVideo u v =>
    show (likeVideo s u v).1.wellShaped false
    unfold likeVideo likeVideoTrace
    repeat' split
    all_goals simp [Response.wellShaped]
  | dislikeVideo u v =>
    show (dislikeVideo s u v).1.wellShaped false
    unfold dislikeVideo dislikeVideoTrace
    repeat' split
    all_goals simp [Response.wellShaped]
  | addComment u t v =>
    show (addComment s u t v).1.wellShaped false
    unfold addComment
    repeat' split
    all_goals simp [Response.wellShaped]
  | updateComment u c t n =>
    show (updateComment s u c t n).1.wellShaped false
    unfold updateComment
    repeat' split
    all_goals simp [Response.wellShaped]
  | deleteComment u c =>
    show (deleteComment s u c).1.wellShaped true
    unfold deleteComment
    repeat' split
    all_goals simp [Response.wellShaped]
  | likeComment u c =>
    show (likeComment s u c).1.wellShaped false
    unfold likeComment
    repeat' split
    all_goals simp [Response.wellShaped]

theorem getVideos_shape (regex : String → Option (String → Bool))
    (sortVideos : String → List Video → List Video) (s : Store) (q : ListQuery) :
    ((getVideos regex sortVideos s q).status = 200 ∧
      (getVideos regex sortVideos s q).success = true ∧
      (getVideos regex sortVideos s q).countsData ∧
      (getVideos regex sortVideos s q).total.isSome = true ∧
      (getVideos regex sortVideos s q).pagination.isSome = true) ∨
    (400 ≤ (getVideos regex sortVideos s q).status ∧
      (getVideos regex sortVideos s q).success = false ∧
      (getVideos regex sortVideos s q).message.isSome = true) := by
  unfold getVideos
  by_cases hp : q.page.getD 1 = 0 ∧ q.limit.getD 12 ≠ 0
  · by_cases hs : truthy q.search = true
    · cases hr : regex (q.search.getD "") <;> simp [hs, hr, hp]
    · simp [hs, hp]
  · by_cases hs : truthy q.search = true
    · cases hr : regex (q.search.getD "") <;>
        simp [hs, hr, hp, listResponse, Response.countsData, Payload.length]
    · simp [hs, hp, listResponse, Response.countsData, Payload.length]

theorem getChannels_shape (regex : String → Option (String → Bool)) (s : Store)
    (q : ListQuery) :
    ((getChannels regex s q).status = 200 ∧ (getChannels regex s q).success = true ∧
      (getChannels regex s q).countsData ∧ (getChannels regex s q).total.isSome = true ∧
      (getChannels regex s q).pagination.isSome = true) ∨
    (400 ≤ (getChannels regex s q).status ∧ (getChannels regex s q).success = false ∧
      (getChannels regex s q).message.isSome = true) := by
  unfold getChannels
  by_cases hp : q.page.getD 1 = 0 ∧ q.limit.getD 12 ≠ 0
  · by_cases hs : truthy q.search = true
    · cases hr : regex (q.search.getD "") <;> simp [hs, hr, hp]
    · simp [hs, hp]
  · by_cases hs : truthy q.search = true
    · cases hr : regex (q.search.getD "") <;>
        simp [hs, hr, hp, listResponse, Response.countsData, Payload.length]
    · simp [hs, hp, listResponse, Response.countsData, Payload.length]

theorem getChannelVideos_shape (s : Store) (channelId : ObjectId) (q : ListQuery) :
    ((getChannelVideos s channelId q).status = 200 ∧
      (getChannelVideos s channelId q).success = true ∧
      (getChannelVideos s channelId q).countsData ∧
      (getChannelVideos s channelId q).total.isSome = true ∧
      (getChannelVideos s channelId q).pagination.isSome = true) ∨
    (400 ≤ (getChannelVideos s channelId q).status ∧
      (getChannelVideos s channelId q).success = false ∧
      (getChannelVideos s channelId q).message.isSome = true) := by
  unfold getChannelVideos
  by_cases hp : q.page.getD 1 = 0 ∧ q.limit.getD 12 ≠ 0
  · cases hc : findById Channel._id s.channels channelId <;> simp [hc, hp]
  · cases hc : findById Channel._id s.channels channelId <;>
      simp [hc, hp, listResponse, Response.countsData, Payload.length]

theorem getChannel_shape (s : Store) (channelId : ObjectId) :
    (getChannel s channelId).wellShaped false := by
  unfold getChannel
  split <;> simp [Response.wellShaped]

/-- C20 (counterexample): the successful responses of getTrendingVideos, getMyChannels
and getVideoComments have success, count and data but neither total nor pagination. -/
theorem unpaginated_lists_have_no_total :
    ((getTrendingVideos demoStore).status = 200 ∧ (getTrendingVideos demoStore).success = true ∧
      (getTrendingVideos demoStore).total = none ∧
      (getTrendingVideos demoStore).pagination = none) ∧
    ((getMyChannels demoStore 1).status = 200 ∧ (getMyChannels demoStore 1).total = none ∧
      (getMyChannels demoStore 1).pagination = none) ∧
    ((getVideoComments demoStore "20").status = 200 ∧
      (getVideoComments demoStore "20").total = none ∧
      (getVideoComments demoStore "20").pagination = none) := by
  decide

/-- C20 (amended): every successful response of getVideos, getChannels and
getChannelVideos has success, count, total, pagination and data, and every successful
response of getTrendingVideos, getMyChannels and getVideoComments has success, count
and data but neither total nor pagination; in all six count is the length of data.
Every successful response of a handler that sends one entity (getVideo, getChannel,
the create, update, like, dislike and subscribe handlers) has success true and data,
the three delete handlers answer a success with a message and no data, and every
error response, also of protect, has success false and a message. -/
theorem response_shapes (lc : String → String) (regex : String → Option (String → Bool))
    (sortVideos : String → List Video → List Video) (s : Store) :
    (∀ q, (getVideos regex sortVideos s q).status = 200 →
      (getVideos regex sortVideos s q).success = true ∧
      (getVideos regex sortVideos s q).countsData ∧
      (getVideos regex sortVideos s q).total.isSome = true ∧
      (getVideos regex sortVideos s q).pagination.isSome = true) ∧
    (∀ q, (getChannels regex s q).status = 200 →
      (getChannels regex s q).success = true ∧ (getChannels regex s q).countsData ∧
      (getChannels regex s q).total.isSome = true ∧
      (getChannels regex s q).pagination.isSome = true) ∧
    (∀ c q, (getChannelVideos s c q).status = 200 →
      (getChannelVideos s c q).success = true ∧ (getChannelVideos s c q).countsData ∧
      (getChannelVideos s c q).total.isSome = true ∧
      (getChannelVideos s c q).pagination.isSome = true) ∧
    ((getTrendingVideos s).status = 200 ∧ (getTrendingVideos s).success = true ∧
      (getTrendingVideos s).countsData ∧ (getTrendingVideos s).total = none ∧
      (getTrendingVideos s).pagination = none) ∧
    (∀ u, (getMyChannels s u).status = 200 ∧ (getMyChannels s u).success = true ∧
      (getMyChannels s u).countsData ∧ (getMyChannels s u).total = none ∧
      (getMyChannels s u).pagination = none) ∧
    (∀ v, (getVideoComments s v).status = 200 ∧ (getVideoComments s v).success = true ∧
      (getVideoComments s v).countsData ∧ (getVideoComments s v).total = none ∧
      (getVideoComments s v).pagination = none) ∧
    (∀ op : Op, (step lc s op).1.wellShaped op.isDelete) ∧
    (∀ c, (getChannel s c).wellShaped false) ∧
    (∀ rop : ReadOp, 400 ≤ (answer regex sortVideos s rop).status →
      (answer regex sortVideos s rop).success = false ∧
      (answer regex sortVideos s rop).message.isSome = true) ∧
    (∀ (verify : String → Option Decoded) (authorization : Option String) (r : Response),
      protect verify s authorization = .denied r →
      r.success = false ∧ r.message.isSome = true) := by
  refine ⟨?_, ?_, ?_, ?_, ?_, ?_, step_wellShaped lc s, getChannel_shape s, ?_, ?_⟩
  · intro q h
    rcases getVideos_shape regex sortVideos s q with h1 | h1
    · exact h1.2
    · omega
  · intro q h
    rcases getChannels_shape regex s q with h1 | h1
    · exact h1.2
    · omega
  · intro c q h
    rcases getChannelVideos_shape s c q with h1 | h1
    · exact h1.2
    · omega
  · exact ⟨rfl, rfl, ⟨_, _, rfl, rfl, rfl⟩, rfl, rfl⟩
  · intro u
    exact ⟨rfl, rfl, ⟨_, _, rfl, rfl, rfl⟩, rfl, rfl⟩
  · intro v
    exact ⟨rfl, rfl, ⟨_, _, rfl, rfl, rfl⟩, rfl, rfl⟩
  · intro rop h
    cases rop with
    | getVideos q =>
      rcases getVideos_shape regex sortVideos s q with h1 | h1
      · have : (answer regex sortVideos s (.getVideos q)).status = 200 := h1.1
        omega
      · exact h1.2
    | getTrendingVideos =>
      have : (answer regex sortVideos s .getTrendingVideos).status = 200 := rfl
      omega
    | getChannels q =>
      rcases getChannels_shape regex s q with h1 | h1
      · have : (answer regex sortVideos s (.getChannels q)).status = 200 := h1.1
        omega
      · exact h1.2
    | getChannel c =>
      rcases getChannel_shape s c with h1 | h1
      · have : (answer regex sortVideos s (.getChannel c)).status = 200 ∨
            (answer regex sortVideos s (.getChannel c)).status = 201 := h1.1
        omega
      · exact ⟨h1.2.1, h1.2.2.1⟩
    | getChannelVideos c q =>
      rcases getChannelVideos_shape s c q with h1 | h1
      · have : (answer regex sortVideos s (.getChannelVideos c q)).status = 200 := h1.1
        omega
      · exact h1.2
    | getMyChannels u =>
      have : (answer regex sortVideos s (.getMyChannels u)).status = 200 := rfl
      omega
    | getVideoComments v =>
      have : (answer regex sortVideos s (.getVideoComments v)).status = 200 := rfl
      omega
  · intro verify authorization r hr
    exact (protect_denied_shape verify s authorization r hr).2

theorem response_shapes_witness :
    ((getVideos (fun _ => none) (fun _ l => l) demoStore ⟨none, none, none, none, none⟩).status
        = 200 ∧
      400 ≤ (answer (fun _ => none) (fun _ l => l) demoStore
        (.getVideos ⟨none, none, none, some "(", none⟩)).status) ∧
    ((getVideos (fun _ => none) (fun _ l => l) demoStore
        ⟨none, none, none, none, none⟩).success = true ∧
      (getVideos (fun _ => none) (fun _ l => l) demoStore
        ⟨none, none, none, none, none⟩).countsData ∧
      (getVideos (fun _ => none) (fun _ l => l) demoStore
        ⟨none, none, none, none, none⟩).total.isSome = true ∧
      (getVideos (fun _ => none) (fun _ l => l) demoStore
        ⟨none, none, none, none, none⟩).pagination.isSome = true) ∧
    ((answer (fun _ => none) (fun _ l => l) demoStore
        (.getVideos ⟨none, none, none, some "(", none⟩)).success = false ∧
      (answer (fun _ => none) (fun _ l => l) demoStore
        (.getVideos ⟨none, none, none, some "(", none⟩)).message.isSome = true) :=
  ⟨⟨by decide, by decide⟩,
   (response_shapes asciiLower (fun _ => none) (fun _ l => l) demoStore).1 _ (by decide),
   (response_shapes asciiLower (fun _ => none) (fun _ l => l) demoStore).2.2.2.2.2.2.2.2.1
     (.getVideos ⟨none, none, none, some "(", none⟩) (by decide)⟩

/-! ## Video lists of channels -/

theorem map_saveDoc_of_eq {α β : Type} (key : α → ObjectId) (f : α → β) (docs : List α)
    (x : α) (h : ∀ d ∈ docs, key d = key x → f d = f x) :
    (saveDoc key docs x).map f = docs.map f := by
  induction docs with
  | nil => rfl
  | cons d ds ih =>
    by_cases hd : key d = key x
    · simp [saveDoc, hd, h d (List.mem_cons_self _ _) hd]
    · simp only [saveDoc, hd, if_false, List.map_cons]
      rw [ih (fun e he => h e (List.mem_cons_of_mem _ he))]

theorem saveDoc_eq_map {α : Type} (key : α → ObjectId) (docs : List α) (x : α)
    (hn : (docs.map key).Nodup) :
    saveDoc key docs x = docs.map (fun d => if key d = key x then x else d) := by
  induction docs with
  | nil => rfl
  | cons d ds ih =>
    rw [List.map_cons, List.nodup_cons] at hn
    by_cases hd : key d = key x
    · simp only [saveDoc, hd, if_true, List.map_cons]
      congr 1
      symm
      calc ds.map (fun e => if key e = key x then x else e) = ds.map id := by
            apply List.map_congr_left
            intro e he
            have hne : key e ≠ key x := by
              intro hk
              exact hn.1 (by rw [hd, ← hk]; exact List.mem_map_of_mem key he)
            simp [hne]
        _ = ds := List.map_id ds
    · simp only [saveDoc, hd, if_false, List.map_cons]
      rw [ih hn.2]

theorem deleteById_eq_filter {α : Type} (key : α → ObjectId) (docs : List α) (id : ObjectId)
    (hn : (docs.map key).Nodup) :
    deleteById key docs id = docs.filter (fun d => key d != id) := by
  induction docs with
  | nil => rfl
  | cons d ds ih =>
    rw [List.map_cons, List.nodup_cons] at hn
    by_cases hd : key d = id
    · simp only [deleteById, hd, if_true]
      rw [List.filter_cons_of_neg (by simp [hd])]
      symm
      rw [List.filter_eq_self]
      intro e he
      have hne : key e ≠ id := by
        intro hk
        exact hn.1 (by rw [hd, ← hk]; exact List.mem_map_of_mem key he)
      simp [hne]
    · simp only [deleteById, hd, if_false]
      rw [List.filter_cons_of_pos (by simp [hd]), ih hn.2]

theorem refsConsistent_mono (cr : List (ObjectId × List ObjectId × Int))
    (vr : List (ObjectId × ObjectId)) (n m : ObjectId) (hnm : n ≤ m)
    (hc : RefsConsistent cr vr n) : RefsConsistent cr vr m := by
  obtain ⟨h1, h2, h3, h4, h5⟩ := hc
  refine ⟨fun c hm => lt_of_lt_of_le (h1 c hm) hnm, h2, ?_, h4, h5⟩
  intro r hr
  exact ⟨lt_of_lt_of_le (h3 r hr).1 hnm, lt_of_lt_of_le (h3 r hr).2 hnm⟩

theorem refsConsistent_newChannel (cr : List (ObjectId × List ObjectId × Int))
    (vr : List (ObjectId × ObjectId)) (n : ObjectId) (hc : RefsConsistent cr vr n) :
    RefsConsistent (cr ++ [(n, [], 0)]) vr (n + 1) := by
  obtain ⟨h1, h2, h3, h4, h5⟩ := hc
  refine ⟨?_, ?_, ?_, h4, ?_⟩
  · intro c hm
    rw [List.mem_append, List.mem_singleton] at hm
    rcases hm with hm | hm
    · exact Nat.lt_succ_of_lt (h1 c hm)
    · rw [hm]; exact Nat.lt_succ_self n
  · rw [List.map_append, List.nodup_append]
    refine ⟨h2, List.nodup_singleton _, ?_⟩
    intro a ha hb
    rw [List.mem_map] at ha
    obtain ⟨c, hcm, rfl⟩ := ha
    simp only [List.map_cons, List.map_nil, List.mem_singleton] at hb
    exact absurd hb (Nat.ne_of_lt (h1 c hcm))
  · intro r hr
    exact ⟨Nat.lt_succ_of_lt (h3 r hr).1, Nat.lt_succ_of_lt (h3 r hr).2⟩
  · intro c hm
    rw [List.mem_append, List.mem_singleton] at hm
    rcases hm with hm | hm
    · exact h5 c hm
    · rw [hm]
      refine ⟨?_, rfl⟩
      show ([] : List ObjectId) = (vr.filter (fun r => r.2 == n)).map (fun r => r.1)
      have : vr.filter (fun r => r.2 == n) = [] := by
        rw [List.filter_eq_nil_iff]
        intro r hr
        simpa using Nat.ne_of_lt (h3 r hr).2
      rw [this]; rfl

theorem refsConsistent_newVideo (cr : List (ObjectId × List ObjectId × Int))
    (vr : List (ObjectId × ObjectId)) (n cid : ObjectId) (hc : RefsConsistent cr vr n)
    (hcid : cid < n) :
    RefsConsistent
      (cr.map (fun c => if c.1 = cid then (c.1, c.2.1 ++ [n], c.2.2 + 1) else c))
      (vr ++ [(n, cid)]) (n + 1) := by
  obtain ⟨h1, h2, h3, h4, h5⟩ := hc
  have hids : (cr.map (fun c => if c.1 = cid then (c.1, c.2.1 ++ [n], c.2.2 + 1) else c)).map
      (fun c => c.1) = cr.map (fun c => c.1) := by
    rw [List.map_map]
    apply List.map_congr_left
    intro c _
    by_cases h : c.1 = cid <;> simp [h]
  refine ⟨?_, ?_, ?_, ?_, ?_⟩
  · intro c hm
    rw [List.mem_map] at hm
    obtain ⟨c0, hc0, rfl⟩ := hm
    by_cases h : c0.1 = cid
    · simp only [h, if_true]; exact Nat.lt_succ_of_lt hcid
    · simp only [h, if_false]; exact Nat.lt_succ_of_lt (h1 c0 hc0)
  · rw [hids]; exact h2
  · intro r hr
    rw [List.mem_append, List.mem_singleton] at hr
    rcases hr with hr | hr
    · exact ⟨Nat.lt_succ_of_lt (h3 r hr).1, Nat.lt_succ_of_lt (h3 r hr).2⟩
    · rw [hr]; exact ⟨Nat.lt_succ_self n, Nat.lt_succ_of_lt hcid⟩
  · rw [List.map_append, List.nodup_append]
    refine ⟨h4, List.nodup_singleton _, ?_⟩
    intro a ha hb
    rw [List.mem_map] at ha
    obtain ⟨r, hr, rfl⟩ := ha
    simp only [List.map_cons, List.map_nil, List.mem_singleton] at hb
    exact absurd hb (Nat.ne_of_lt (h3 r hr).1)
  · intro c hm
    rw [List.mem_map] at hm
    obtain ⟨c0, hc0, rfl⟩ := hm
    obtain ⟨hl, hcount⟩ := h5 c0 hc0
    by_cases h : c0.1 = cid
    · simp only [h, if_true]
      refine ⟨?_, ?_⟩
      · show c0.2.1 ++ [n] = ((vr ++ [(n, cid)]).filter (fun r => r.2 == cid)).map (fun r => r.1)
        rw [List.filter_append, List.map_append, hl, h]
        simp
      · show c0.2.2 + 1 = ((c0.2.1 ++ [n]).length : Int)
        rw [hcount]; simp
    · simp only [h, if_false]
      refine ⟨?_, hcount⟩
      rw [hl, List.filter_append]
      have hne : ¬ cid = c0.1 := fun hx => h hx.symm
      have : [(n, cid)].filter (fun r => r.2 == c0.1) = [] := by
        simp [hne]
      rw [this, List.append_nil]

theorem refsConsistent_deleteVideo (cr : List (ObjectId × List ObjectId × Int))
    (vr : List (ObjectId × ObjectId)) (n vid ch : ObjectId) (hc : RefsConsistent cr vr n)
    (hmem : (vid, ch) ∈ vr) :
    RefsConsistent
      (cr.map (fun c =>
        if c.1 = ch then (c.1, c.2.1.filter (fun x => x != vid), c.2.2 - 1) else c))
      (vr.filter (fun r => r.1 != vid)) n := by
  obtain ⟨h1, h2, h3, h4, h5⟩ := hc
  have hids : (cr.map (fun c =>
      if c.1 = ch then (c.1, c.2.1.filter (fun x => x != vid), c.2.2 - 1) else c)).map
      (fun c => c.1) = cr.map (fun c => c.1) := by
    rw [List.map_map]
    apply List.map_congr_left
    intro c _
    by_cases h : c.1 = ch <;> simp [h]
  have hlist : ∀ cid : ObjectId,
      ((vr.filter (fun r => r.1 != vid)).filter (fun r => r.2 == cid)).map (fun r => r.1) =
        ((vr.filter (fun r => r.2 == cid)).map (fun r => r.1)).filter (fun x => x != vid) := by
    intro cid
    rw [List.filter_map, List.filter_filter, List.filter_filter]
    congr 1
    apply List.filter_congr
    intro r _
    simp [Bool.and_comm]
  refine ⟨?_, ?_, ?_, ?_, ?_⟩
  · intro c hm
    rw [List.mem_map] at hm
    obtain ⟨c0, hc0, rfl⟩ := hm
    by_cases h : c0.1 = ch
    · simp only [h, if_true]; rw [← h]; exact h1 c0 hc0
    · simp only [h, if_false]; exact h1 c0 hc0
  · rw [hids]; exact h2
  · intro r hr
    exact h3 r (List.mem_filter.1 hr).1
  · exact h4.sublist ((List.filter_sublist _).map _)
  · intro c hm
    rw [List.mem_map] at hm
    obtain ⟨c0, hc0, rfl⟩ := hm
    obtain ⟨hl, hcount⟩ := h5 c0 hc0
    have hnd : c0.2.1.Nodup := by
      rw [hl]
      exact h4.sublist ((List.filter_sublist _).map _)
    by_cases h : c0.1 = ch
    · simp only [h, if_true]
      have hin : vid ∈ c0.2.1 := by
        rw [hl, List.mem_map]
        exact ⟨(vid, ch), List.mem_filter.2 ⟨hmem, by simp [h]⟩, rfl⟩
      refine ⟨?_, ?_⟩
      · show c0.2.1.filter (fun x => x != vid) = _
        rw [hlist, ← h, ← hl]
      · show c0.2.2 - 1 = ((c0.2.1.filter (fun x => x != vid)).length : Int)
        rw [hcount]
        exact (length_pull_of_mem c0.2.1 vid hnd hin).symm
    · simp only [h, if_false]
      have hnot : vid ∉ c0.2.1 := by
        intro hin
        rw [hl, List.mem_map] at hin
        obtain ⟨r, hr, hr1⟩ := hin
        rw [List.mem_filter] at hr
        have hr2 : r.2 = c0.1 := by simpa using hr.2
        have heq : r = (vid, ch) := by
          apply List.inj_on_of_nodup_map h4 hr.1 hmem
          exact hr1
        rw [heq] at hr2
        exact h hr2.symm
      refine ⟨?_, hcount⟩
      rw [hlist, ← hl]
      symm
      rw [List.filter_eq_self]
      intro x hx
      have : x ≠ vid := fun hxv => hnot (hxv ▸ hx)
      simp [this]

theorem refsConsistent_deleteChannel (cr : List (ObjectId × List ObjectId × Int))
    (vr : List (ObjectId × ObjectId)) (n cid : ObjectId) (hc : RefsConsistent cr vr n) :
    RefsConsistent (cr.filter (fun c => c.1 != cid)) (vr.filter (fun r => r.2 != cid)) n := by
  obtain ⟨h1, h2, h3, h4, h5⟩ := hc
  refine ⟨?_, ?_, ?_, ?_, ?_⟩
  · intro c hm
    exact h1 c (List.mem_filter.1 hm).1
  · exact h2.sublist ((List.filter_sublist _).map _)
  · intro r hr
    exact h3 r (List.mem_filter.1 hr).1
  · exact h4.sublist ((List.filter_sublist _).map _)
  · intro c hm
    rw [List.mem_filter] at hm
    obtain ⟨hl, hcount⟩ := h5 c hm.1
    have hne : c.1 ≠ cid := by simpa using hm.2
    refine ⟨?_, hcount⟩
    rw [hl, List.filter_filter]
    congr 1
    apply List.filter_congr
    intro r _
    by_cases hr : r.2 = c.1
    · simp [hr, hne]
    · simp [hr]

theorem map_ite_eq_self {α : Type} (l : List α) (p : α → Prop) [DecidablePred p]
    (f : α → α) (h : ∀ a ∈ l, ¬ p a) : l.map (fun a => if p a then f a else a) = l := by
  calc l.map (fun a => if p a then f a else a) = l.map id := by
        apply List.map_congr_left
        intro a ha
        simp [h a ha]
    _ = l := List.map_id l

theorem vlc_of_refs_eq (s t : Store) (hc : channelRefs t = channelRefs s)
    (hv : videoRefs t = videoRefs s) (hn : s.nextId ≤ t.nextId)
    (h : VideoListsConsistent s) : VideoListsConsistent t := by
  unfold VideoListsConsistent at h ⊢
  rw [hc, hv]
  exact refsConsistent_mono _ _ _ _ hn h

theorem vlc_channel_ids (s : Store) (h : VideoListsConsistent s) :
    (s.channels.map Channel._id).Nodup := by
  have h2 := h.2.1
  unfold channelRefs at h2
  rw [List.map_map] at h2
  exact h2

theorem vlc_video_ids (s : Store) (h : VideoListsConsistent s) :
    (s.videos.map Video._id).Nodup := by
  have h4 := h.2.2.2.1
  unfold videoRefs at h4
  rw [List.map_map] at h4
  exact h4

theorem map_saveDoc_found {α β : Type} (key : α → ObjectId) (f : α → β) (docs : List α)
    (d x : α) (hn : (docs.map key).Nodup) (hf : findById key docs (key x) = some d)
    (hx : f x = f d) : (saveDoc key docs x).map f = docs.map f := by
  apply map_saveDoc_of_eq
  intro e he hk
  have hd : d ∈ docs := findById_mem _ _ _ _ hf
  have hkd : key d = key x := findById_key _ _ _ _ hf
  have : e = d := List.inj_on_of_nodup_map hn he hd (hk.trans hkd.symm)
  rw [this, hx]

theorem map_saveDoc_changed {α β : Type} (key : α → ObjectId) (f : α → β) (g : β → β)
    (docs : List α) (d x : α) (hn : (docs.map key).Nodup)
    (hf : findById key docs (key x) = some d) (hx : f x = g (f d))
    (hg : ∀ e ∈ docs, key e ≠ key x → g (f e) = f e) :
    (saveDoc key docs x).map f = (docs.map f).map g := by
  rw [saveDoc_eq_map key docs x hn, List.map_map, List.map_map]
  apply List.map_congr_left
  intro e he
  have hd : d ∈ docs := findById_mem _ _ _ _ hf
  have hkd : key d = key x := findById_key _ _ _ _ hf
  by_cases hk : key e = key x
  · have : e = d := List.inj_on_of_nodup_map hn he hd (hk.trans hkd.symm)
    simp only [Function.comp, hk, if_true]
    rw [this, hx]
  · simp only [Function.comp, hk, if_false]
    exact (hg e he hk).symm

theorem likeUpdate_channel (video : Video) (user : User) (userId : ObjectId) :
    (likeUpdate video user userId).1.channel = video.channel := by
  unfold likeUpdate
  by_cases h1 : includes video.likes userId = true <;>
    by_cases h2 : includes video.dislikes userId = true <;> simp [h1, h2]

theorem dislikeUpdate_channel (video : Video) (user : User) (userId : ObjectId) :
    (dislikeUpdate video user userId).1.channel = video.channel := by
  unfold dislikeUpdate
  by_cases h1 : includes video.likes userId = true <;>
    by_cases h2 : includes video.dislikes userId = true <;> simp [h1, h2]

theorem subscribeUpdate_videos (channel : Channel) (user : User) (userId : ObjectId) :
    (subscribeUpdate channel user userId).1.videos = channel.videos ∧
    (subscribeUpdate channel user userId).1.videoCount = channel.videoCount := by
  unfold subscribeUpdate
  by_cases h1 : includes channel.subscribers userId = true <;> simp [h1]

/-- Replacing a stored video by one with the same id and channel keeps the invariant. -/
theorem vlc_save_video (s t : Store) (v v1 : Video) (h : VideoListsConsistent s)
    (hf : findById Video._id s.videos v1._id = some v) (hch : v1.channel = v.channel)
    (htv : t.videos = saveDoc Video._id s.videos v1) (htc : t.channels = s.channels)
    (htn : t.nextId = s.nextId) : VideoListsConsistent t := by
  refine vlc_of_refs_eq s t ?_ ?_ (le_of_eq htn.symm) h
  · unfold channelRefs; rw [htc]
  · unfold videoRefs
    rw [htv]
    apply map_saveDoc_found Video._id _ s.videos v v1 (vlc_video_ids s h) hf
    have hk : v._id = v1._id := findById_key _ _ _ _ hf
    rw [hch, hk]

/-- Replacing a stored channel by one with the same id, videos and videoCount keeps
the invariant. -/
theorem vlc_save_channel (s t : Store) (c c1 : Channel) (h : VideoListsConsistent s)
    (hf : findById Channel._id s.channels c1._id = some c) (hv : c1.videos = c.videos)
    (hcnt : c1.videoCount = c.videoCount)
    (htc : t.channels = saveDoc Channel._id s.channels c1) (htv : t.videos = s.videos)
    (htn : t.nextId = s.nextId) : VideoListsConsistent t := by
  refine vlc_of_refs_eq s t ?_ ?_ (le_of_eq htn.symm) h
  · unfold channelRefs
    rw [htc]
    apply map_saveDoc_found Channel._id _ s.channels c c1 (vlc_channel_ids s h) hf
    have hk : c._id = c1._id := findById_key _ _ _ _ hf
    rw [hv, hcnt, hk]
  · unfold videoRefs; rw [htv]

theorem createChannel_vlc (lc : String → String) (s : Store) (userId : ObjectId)
    (body : ChannelBody) (h : VideoListsConsistent s) :
    VideoListsConsistent (createChannel lc s userId body).2 := by
  rcases createChannel_store lc s userId body with h1 | ⟨c, hid, _, _, hv, hcnt, h2⟩
  · rw [h1]; exact h
  · have key : ∀ t : Store, t.channels = s.channels ++ [c] → t.videos = s.videos →
        t.nextId = s.nextId + 1 → VideoListsConsistent t := by
      intro t htc htv htn
      unfold VideoListsConsistent channelRefs videoRefs
      rw [htc, htv, htn, List.map_append]
      simp only [List.map_cons, List.map_nil, hid, hv, hcnt]
      exact refsConsistent_newChannel _ _ _ h
    rcases h2 with ⟨_, h2⟩ | ⟨user, _, h2⟩
    · rw [h2]; exact key _ rfl rfl rfl
    · rw [h2]; exact key _ rfl rfl rfl

theorem updateChannel_vlc (s : Store) (userId channelId : ObjectId) (body : ChannelBody)
    (h : VideoListsConsistent s) : VideoListsConsistent (updateChannel s userId channelId body).2 := by
  rcases updateChannel_channels s userId channelId body with h1 | ⟨c, c1, hf, _, hu, h2⟩
  · rw [h1]; exact h
  · have hfr := channelUpdate_frame c body c1 hu
    have hk : c._id = channelId := findById_key _ _ _ _ hf
    rw [h2]
    refine vlc_save_channel s _ c c1 h ?_ hfr.2.2.2.2.2.1 hfr.2.2.2.2.2.2 rfl rfl rfl
    rw [hfr.1, hk]; exact hf

theorem subscribeToChannel_vlc (s : Store) (userId channelId : ObjectId)
    (h : VideoListsConsistent s) :
    VideoListsConsistent (subscribeToChannel s userId channelId).2 := by
  rcases subscribeToChannel_store s userId channelId with h1 | ⟨c, u, hf, _, _, _, h2⟩
  · rw [h1]; exact h
  · have hk : c._id = channelId := findById_key _ _ _ _ hf
    have hv := subscribeUpdate_videos c u userId
    rw [h2]
    refine vlc_save_channel s _ c (subscribeUpdate c u userId).1 h ?_ hv.1 hv.2 rfl rfl rfl
    rw [subscribeUpdate_id, hk]; exact hf

theorem getVideo_vlc (s : Store) (videoId : ObjectId) (h : VideoListsConsistent s) :
    VideoListsConsistent (getVideo s videoId).2 := by
  rcases getVideo_store s videoId with ⟨_, _, h1⟩ | ⟨v, hf, _, h2⟩
  · rw [h1]; exact h
  · have hk : v._id = videoId := findById_key _ _ _ _ hf
    rw [h2]
    refine vlc_save_video s _ v { v with views := v.views + 1 } h ?_ rfl rfl rfl rfl
    show findById Video._id s.videos v._id = some v
    rw [hk]; exact hf

theorem updateVideo_vlc (s : Store) (userId videoId : ObjectId) (body : VideoBody)
    (h : VideoListsConsistent s) : VideoListsConsistent (updateVideo s userId videoId body).2 := by
  rcases updateVideo_store s userId videoId body with h1 | ⟨v, v1, hf, _, hu, h2⟩
  · rw [h1]; exact h
  · have hd := videoUpdate_only_descriptive v body _ v1 hu
    have hk : v._id = videoId := findById_key _ _ _ _ hf
    have hid : v1._id = v._id := by rw [hd]
    have hch : v1.channel = v.channel := by rw [hd]
    rw [h2]
    refine vlc_save_video s _ v v1 h ?_ hch rfl rfl rfl
    rw [hid, hk]; exact hf

theorem likeVideo_vlc (s : Store) (userId videoId : ObjectId) (h : VideoListsConsistent s) :
    VideoListsConsistent (likeVideo s userId videoId).2 := by
  rcases likeVideo_store s userId videoId with h1 | ⟨v, u, hf, _, h2⟩
  · rw [h1]; exact h
  · have hk : v._id = videoId := findById_key _ _ _ _ hf
    rw [h2]
    refine vlc_save_video s _ v (likeUpdate v u userId).1 h ?_
      (likeUpdate_channel v u userId) rfl rfl rfl
    rw [likeUpdate_id, hk]; exact hf

theorem dislikeVideo_vlc (s : Store) (userId videoId : ObjectId) (h : VideoListsConsistent s) :
    VideoListsConsistent (dislikeVideo s userId videoId).2 := by
  rcases dislikeVideo_store s userId videoId with h1 | ⟨v, u, hf, _, h2⟩
  · rw [h1]; exact h
  · have hk : v._id = videoId := findById_key _ _ _ _ hf
    rw [h2]
    refine vlc_save_video s _ v (dislikeUpdate v u userId).1 h ?_
      (dislikeUpdate_channel v u userId) rfl rfl rfl
    rw [dislikeUpdate_id, hk]; exact hf

theorem createVideo_vlc (s : Store) (userId : ObjectId) (body : VideoBody)
    (h : VideoListsConsistent s) : VideoListsConsistent (createVideo s userId body).2 := by
  rcases createVideo_store s userId body with
    h1 | ⟨cid, c, v, _, hf, _, hid, hch, _, _, h2⟩
  · rw [h1]; exact h
  · have hk : c._id = cid := findById_key _ _ _ _ hf
    have hmem : c ∈ s.channels := findById_mem _ _ _ _ hf
    have hlt : cid < s.nextId := by
      have := h.1 (c._id, c.videos, c.videoCount)
        (List.mem_map.mpr ⟨c, hmem, rfl⟩)
      rw [← hk]; exact this
    rw [h2]
    unfold VideoListsConsistent channelRefs videoRefs
    simp only [List.map_append, List.map_cons, List.map_nil, hid, hch]
    have hmap := map_saveDoc_changed Channel._id
      (fun c : Channel => (c._id, c.videos, c.videoCount))
      (fun r => if r.1 = cid then (r.1, r.2.1 ++ [s.nextId], r.2.2 + 1) else r)
      s.channels c
      { c with videos := c.videos ++ [s.nextId], videoCount := c.videoCount + 1 }
      (vlc_channel_ids s h) (by show findById Channel._id s.channels c._id = some c
                                rw [hk]; exact hf)
      (by simp [hk])
      (by intro e _ hne
          have hne2 : ¬ e._id = cid := fun hx => hne (hx.trans hk.symm)
          simp [hne2])
    rw [hmap]
    exact refsConsistent_newVideo _ _ _ _ h hlt

theorem deleteVideo_vlc (s : Store) (userId videoId : ObjectId)
    (h : VideoListsConsistent s) : VideoListsConsistent (deleteVideo s userId videoId).2 := by
  rcases deleteVideo_store s userId videoId with h1 | ⟨v, hf, _, h2⟩
  · rw [h1]; exact h
  · have hkv : v._id = videoId := findById_key _ _ _ _ hf
    have hmemv : v ∈ s.videos := findById_mem _ _ _ _ hf
    have hin : (videoId, v.channel) ∈ videoRefs s := by
      unfold videoRefs
      exact List.mem_map.mpr ⟨v, hmemv, by rw [hkv]⟩
    have hres := refsConsistent_deleteVideo _ _ _ videoId v.channel h hin
    have hvr : (deleteById Video._id s.videos videoId).map (fun v => (v._id, v.channel)) =
        (videoRefs s).filter (fun r => r.1 != videoId) := by
      rw [deleteById_eq_filter Video._id s.videos videoId (vlc_video_ids s h)]
      unfold videoRefs
      rw [List.filter_map]
      rfl
    rcases h2 with ⟨c, hc, h3⟩ | ⟨hnone, h3⟩
    · have hk : c._id = v.channel := findById_key _ _ _ _ hc
      rw [h3]
      unfold VideoListsConsistent
      have hcr : channelRefs { s with
            channels := saveDoc Channel._id s.channels
              { c with videos := pull c.videos v._id, videoCount := c.videoCount - 1 },
            videos := deleteById Video._id s.videos videoId } =
          (channelRefs s).map (fun r =>
            if r.1 = v.channel then (r.1, r.2.1.filter (fun x => x != videoId), r.2.2 - 1)
            else r) := by
        unfold channelRefs
        exact map_saveDoc_changed Channel._id
          (fun c : Channel => (c._id, c.videos, c.videoCount))
          (fun r => if r.1 = v.channel then
            (r.1, r.2.1.filter (fun x => x != videoId), r.2.2 - 1) else r)
          s.channels c
          { c with videos := pull c.videos v._id, videoCount := c.videoCount - 1 }
          (vlc_channel_ids s h) (by show findById Channel._id s.channels c._id = some c
                                    rw [hk]; exact hc)
          (by simp [hk, pull, hkv])
          (by intro e _ hne
              have hne2 : ¬ e._id = v.channel := fun hx => hne (hx.trans hk.symm)
              simp [hne2])
      rw [hcr]
      show RefsConsistent _ ((deleteById Video._id s.videos videoId).map
        (fun v => (v._id, v.channel))) s.nextId
      rw [hvr]
      exact hres
    · rw [h3]
      unfold VideoListsConsistent
      have hcr : (channelRefs s).map (fun r =>
            if r.1 = v.channel then (r.1, r.2.1.filter (fun x => x != videoId), r.2.2 - 1)
            else r) = channelRefs s := by
        apply map_ite_eq_self
        intro r hr
        unfold channelRefs at hr
        obtain ⟨c, hcm, hcr⟩ := List.mem_map.mp hr
        rw [← hcr]
        intro heq
        have hsome := findById_of_mem_nodup Channel._id s.channels c (vlc_channel_ids s h) hcm
        have heq2 : c._id = v.channel := heq
        rw [heq2, hnone] at hsome
        cases hsome
      rw [hcr] at hres
      show RefsConsistent (channelRefs s) ((deleteById Video._id s.videos videoId).map
        (fun v => (v._id, v.channel))) s.nextId
      rw [hvr]
      exact hres

theorem deleteChannel_vlc (s : Store) (userId channelId : ObjectId)
    (hauth : (findById User._id s.users userId).isSome = true)
    (h : VideoListsConsistent s) : VideoListsConsistent (deleteChannel s userId channelId).2 := by
  obtain ⟨owner, hu⟩ := Option.isSome_iff_exists.mp hauth
  rcases deleteChannel_store s userId channelId with
    h1 | ⟨c, _, _, h2⟩ | ⟨c, o, _, _, _, h2⟩
  · rw [h1]; exact h
  · exfalso
    rename_i hc ho
    have hfound := deleteChannelTrace_found s userId channelId c owner hc ho hu
    have hfin : (deleteChannel s userId channelId).2 =
        { s with videos := s.videos.filter (fun v => v.channel != channelId),
                 users := saveDoc User._id s.users
                   { owner with channels := pull owner.channels channelId },
                 channels := deleteById Channel._id s.channels channelId } := by
      simp [deleteChannel, hfound.2, finalStore]
    rw [hfin] at h2
    have hch := congrArg Store.channels h2
    have hus := congrArg Store.users h2
    simp only at hch hus
    have hmem : c ∈ s.channels := findById_mem _ _ _ _ hc
    have hk : c._id = channelId := findById_key _ _ _ _ hc
    rw [← hch] at hmem
    exact deleteById_removes Channel._id s.channels channelId (vlc_channel_ids s h) c hmem hk
  · rw [h2]
    unfold VideoListsConsistent channelRefs videoRefs
    simp only
    rw [deleteById_eq_filter Channel._id s.channels channelId (vlc_channel_ids s h)]
    have e1 : (s.channels.filter (fun d => d._id != channelId)).map
          (fun c => (c._id, c.videos, c.videoCount)) =
        (channelRefs s).filter (fun r => r.1 != channelId) := by
      unfold channelRefs
      rw [List.filter_map]
      rfl
    have e2 : (s.videos.filter (fun v => v.channel != channelId)).map
          (fun v => (v._id, v.channel)) =
        (videoRefs s).filter (fun r => r.2 != channelId) := by
      unfold videoRefs
      rw [List.filter_map]
      rfl
    rw [e1, e2]
    exact refsConsistent_deleteChannel _ _ _ channelId h

theorem vlc_of_comments (s t : Store) (htc : t.channels = s.channels)
    (htv : t.videos = s.videos) (hn : s.nextId ≤ t.nextId) (h : VideoListsConsistent s) :
    VideoListsConsistent t := by
  refine vlc_of_refs_eq s t ?_ ?_ hn h
  · unfold channelRefs; rw [htc]
  · unfold videoRefs; rw [htv]

/-- Every handler, called for a stored user, keeps the invariant of the video lists. -/
theorem step_videoListsConsistent (lc : String → String) (s : Store) (op : Op)
    (hauth : ∀ u, op.userId = some u → (findById User._id s.users u).isSome = true)
    (h : VideoListsConsistent s) : VideoListsConsistent (step lc s op).2 := by
  cases op with
  | createChannel u b => exact createChannel_vlc lc s u b h
  | updateChannel u c b => exact updateChannel_vlc s u c b h
  | deleteChannel u c => exact deleteChannel_vlc s u c (hauth u rfl) h
  | subscribeToChannel u c => exact subscribeToChannel_vlc s u c h
  | getVideo v => exact getVideo_vlc s v h
  | createVideo u b => exact createVideo_vlc s u b h
  | updateVideo u v b => exact updateVideo_vlc s u v b h
  | deleteVideo u v => exact deleteVideo_vlc s u v h
  | likeVideo u v => exact likeVideo_vlc s u v h
  | dislikeVideo u v => exact dislikeVideo_vlc s u v h
  | addComment u t v =>
    show VideoListsConsistent (addComment s u t v).2
    rcases addComment_store s u t v with h1 | ⟨c, h1⟩
    · rw [h1]; exact h
    · rw [h1]; exact vlc_of_comments s _ rfl rfl (Nat.le_succ _) h
  | updateComment u c t n =>
    show VideoListsConsistent (updateComment s u c t n).2
    obtain ⟨cs, h1⟩ := updateComment_store s u c t n
    rw [h1]; exact vlc_of_comments s _ rfl rfl (le_refl _) h
  | deleteComment u c =>
    show VideoListsConsistent (deleteComment s u c).2
    obtain ⟨cs, h1⟩ := deleteComment_store s u c
    rw [h1]; exact vlc_of_comments s _ rfl rfl (le_refl _) h
  | likeComment u c =>
    show VideoListsConsistent (likeComment s u c).2
    obtain ⟨cs, h1⟩ := likeComment_store s u c
    rw [h1]; exact vlc_of_comments s _ rfl rfl (le_refl _) h

theorem serveStep_videoListsConsistent (lc : String → String) (s : Store) (op : Op)
    (h : VideoListsConsistent s) : VideoListsConsistent (serveStep lc s op).2 := by
  unfold serveStep
  cases hu : op.userId with
  | none =>
    simp only
    exact step_videoListsConsistent lc s op (by intro u hu2; rw [hu] at hu2; cases hu2) h
  | some u =>
    simp only
    by_cases hs : (findById User._id s.users u).isSome = true
    · rw [if_pos hs]
      exact step_videoListsConsistent lc s op
        (by intro u2 hu2; rw [hu] at hu2; cases hu2; exact hs) h
    · rw [if_neg hs]; exact h

theorem serve_videoListsConsistent (lc : String → String) (ops : List Op) :
    ∀ s : Store, VideoListsConsistent s → VideoListsConsistent (serve lc s ops) := by
  induction ops with
  | nil => intro s h; exact h
  | cons op rest ih =>
    intro s h
    show VideoListsConsistent (serve lc (serveStep lc s op).2 rest)
    exact ih _ (serveStep_videoListsConsistent lc s op h)

theorem vlc_of_empty (s : Store) (hc : s.channels = []) (hv : s.videos = []) :
    VideoListsConsistent s := by
  unfold VideoListsConsistent RefsConsistent channelRefs videoRefs
  rw [hc, hv]
  simp

/-- What the invariant says of a stored channel. -/
theorem vlc_channel (s : Store) (h : VideoListsConsistent s) (c : Channel)
    (hc : c ∈ s.channels) :
    c.videoCount = (c.videos.length : Int) ∧ 0 ≤ c.videoCount ∧ c.videos.Nodup ∧
    ∀ id, id ∈ c.videos ↔ ∃ v ∈ s.videos, v._id = id ∧ v.channel = c._id := by
  have hmem : (c._id, c.videos, c.videoCount) ∈ channelRefs s :=
    List.mem_map.mpr ⟨c, hc, rfl⟩
  obtain ⟨hl, hcnt⟩ := h.2.2.2.2 _ hmem
  simp only at hl hcnt
  have hnd : (videoRefs s).map (fun r => r.1) |>.Nodup := h.2.2.2.1
  refine ⟨hcnt, ?_, ?_, ?_⟩
  · rw [hcnt]; exact Int.natCast_nonneg _
  · rw [hl]
    exact (List.Sublist.map _ (List.filter_sublist _)).nodup hnd
  · intro id
    rw [hl]
    simp only [List.mem_map, List.mem_filter, videoRefs, beq_iff_eq]
    constructor
    · rintro ⟨r, ⟨⟨v, hv, rfl⟩, hr⟩, rfl⟩
      exact ⟨v, hv, rfl, hr⟩
    · rintro ⟨v, hv, rfl, hr⟩
      exact ⟨(v._id, v.channel), ⟨⟨v, hv, rfl⟩, hr⟩, rfl⟩

/-- C14: from a store without channels and videos, after any sequence of requests served
through the routes (protect lets a handler run only for a stored user; the handlers are
createChannel, updateChannel, createVideo, updateVideo, deleteVideo, deleteChannel,
subscribeToChannel and the other writing handlers), every stored channel has
videoCount = |videos|, videoCount is not negative, videos has no duplicates, and an
id is in videos exactly when a stored video with that id references the channel. -/
theorem videoCount_matches_videos (lc : String → String) (s0 : Store)
    (hc : s0.channels = []) (hv : s0.videos = []) (ops : List Op) :
    ∀ c ∈ (serve lc s0 ops).channels,
      c.videoCount = (c.videos.length : Int) ∧ 0 ≤ c.videoCount ∧ c.videos.Nodup ∧
      ∀ id, id ∈ c.videos ↔
        ∃ v ∈ (serve lc s0 ops).videos, v._id = id ∧ v.channel = c._id := by
  intro c hmem
  exact vlc_channel _ (serve_videoListsConsistent lc ops s0 (vlc_of_empty s0 hc hv)) c hmem

theorem videoCount_matches_videos_witness :
    (usersOnlyStore.channels = [] ∧ usersOnlyStore.videos = []) ∧
    channelRefs (serve asciiLower usersOnlyStore uploadScenario) = [(100, [102], 1)] ∧
    videoRefs (serve asciiLower usersOnlyStore uploadScenario) = [(102, 100)] ∧
    ∀ c ∈ (serve asciiLower usersOnlyStore uploadScenario).channels,
      c.videoCount = (c.videos.length : Int) ∧ 0 ≤ c.videoCount ∧ c.videos.Nodup ∧
      ∀ id, id ∈ c.videos ↔
        ∃ v ∈ (serve asciiLower usersOnlyStore uploadScenario).videos,
          v._id = id ∧ v.channel = c._id :=
  ⟨⟨rfl, rfl⟩, by decide, by decide,
   videoCount_matches_videos asciiLower usersOnlyStore rfl rfl uploadScenario⟩

/-- The handlers alone, called for a user id that is not stored, do not keep the
video lists: deleteChannel removes the videos, fails on the missing user document and
leaves the channel with its list. The routes exclude this call, protect answers 401. -/
theorem deleteChannel_for_unknown_user_keeps_list :
    channelRefs (run asciiLower { usersOnlyStore with users := [] }
      [Op.createChannel 1 (mkChannelBody "Tech" (some "tech")),
       Op.createVideo 1 (mkVideoBody "First" 100), Op.deleteChannel 1 100]) =
      [(100, [101], 1)] ∧
    videoRefs (run asciiLower { usersOnlyStore with users := [] }
      [Op.createChannel 1 (mkChannelBody "Tech" (some "tech")),
       Op.createVideo 1 (mkVideoBody "First" 100), Op.deleteChannel 1 100]) = [] ∧
    channelRefs (serve asciiLower { usersOnlyStore with users := [] }
      [Op.createChannel 1 (mkChannelBody "Tech" (some "tech")),
       Op.createVideo 1 (mkVideoBody "First" 100), Op.deleteChannel 1 100]) = [] := by
  decide

/-! ## The handle derived by the pre-save hook -/

theorem isWhiteSpace_of_lowerAlnum (c : Char) (h : isLowerAlnum c = true) :
    isWhiteSpace c = false := by
  unfold isLowerAlnum at h
  unfold isWhiteSpace
  simp only [Bool.or_eq_true, Bool.and_eq_true, decide_eq_true_eq] at h
  simp only [Bool.or_eq_false_iff, Bool.and_eq_false_iff, beq_eq_false_iff_ne, ne_eq,
    decide_eq_false_iff_not]
  omega

theorem lowerAlnum_iff (c : Char) :
    isLowerAlnum c = true ↔ (('a' ≤ c ∧ c ≤ 'z') ∨ ('0' ≤ c ∧ c ≤ '9')) := by
  unfold isLowerAlnum
  simp only [Bool.or_eq_true, Bool.and_eq_true, decide_eq_true_eq, Char.le_def]
  rfl

theorem toLower_of_lowerAlnum (c : Char) (h : isLowerAlnum c = true) : c.toLower = c := by
  unfold isLowerAlnum at h
  simp only [Bool.or_eq_true, Bool.and_eq_true, decide_eq_true_eq] at h
  unfold Char.toLower
  simp only [ge_iff_le]
  rw [if_neg]
  omega

theorem trimChars_of_no_whiteSpace (cs : List Char) (h : ∀ c ∈ cs, isWhiteSpace c = false) :
    trimChars cs = cs := by
  unfold trimChars
  have h1 : cs.dropWhile isWhiteSpace = cs := by
    cases cs with
    | nil => rfl
    | cons x xs => simp [List.dropWhile, h x (List.mem_cons_self _ _)]
  rw [h1]
  have h2 : cs.reverse.dropWhile isWhiteSpace = cs.reverse := by
    cases hr : cs.reverse with
    | nil => rfl
    | cons x xs =>
      have hx : x ∈ cs := by
        have : x ∈ cs.reverse := by rw [hr]; exact List.mem_cons_self _ _
        exact List.mem_reverse.mp this
      simp [List.dropWhile, h x hx]
  rw [h2, List.reverse_reverse]

theorem jsLength_of_lowerAlnum (s : String) (h : ∀ c ∈ s.data, isLowerAlnum c = true) :
    jsLength s = s.data.length := by
  unfold jsLength
  have : s.data.map (fun c => if c.toNat < 0x10000 then 1 else 2) = s.data.map (fun _ => 1) := by
    apply List.map_congr_left
    intro c hc
    have := h c hc
    unfold isLowerAlnum at this
    simp only [Bool.or_eq_true, Bool.and_eq_true, decide_eq_true_eq] at this
    have hlt : c.toNat < 0x10000 := by omega
    simp [hlt]
  rw [this]
  simp

theorem deriveHandle_lowerAlnum (lc : String → String) (name : String) :
    ∀ c ∈ (deriveHandle lc name).data, isLowerAlnum c = true := by
  intro c hc
  unfold deriveHandle at hc
  have := List.mem_of_mem_take hc
  exact (List.mem_filter.mp this).2

theorem deriveHandle_length (lc : String → String) (name : String) :
    (deriveHandle lc name).data.length ≤ 30 := by
  unfold deriveHandle
  simp [List.length_take]

theorem deriveHandle_of_lowerAlnum (lc : String → String) (s : String)
    (hs : lc s = s) (h : ∀ c ∈ s.data, isLowerAlnum c = true) (hl : s.data.length ≤ 30) :
    deriveHandle lc s = s := by
  unfold deriveHandle
  rw [hs, List.filter_eq_self.mpr h, List.take_of_length_le hl]

theorem asciiLower_of_lowerAlnum (s : String) (h : ∀ c ∈ s.data, isLowerAlnum c = true) :
    asciiLower s = s := by
  unfold asciiLower
  have : s.data.map Char.toLower = s.data := by
    conv_rhs => rw [← List.map_id s.data]
    apply List.map_congr_left
    intro c hc
    exact toLower_of_lowerAlnum c (h c hc)
  rw [this]

/-- C21: when channelName is modified and the handle is empty or absent, the pre-save
hook sets handle to the name lowercased, without the characters outside a-z and 0-9,
cut to its first 30 characters. For every name the derived handle has only characters
a-z and 0-9 and length at most 30; with a lowercase function that leaves strings of a-z
and 0-9 as they are (as toLowerCase does), deriving again from the derived handle returns
it, and the setters of the handle path do not change it. A document with a non-empty
handle, or whose channelName is not modified, is left as it is. -/
theorem preSave_derives_handle (lc : String → String)
    (hlc : ∀ s : String, (∀ c ∈ s.data, isLowerAlnum c = true) → lc s = s) :
    (∀ (d : ChannelDraft) (name : String), d.channelName = some name →
      truthy d.handle = false →
      channelPreSave lc true d = some { d with handle := some (deriveHandle lc name) }) ∧
    (∀ name : String,
      (deriveHandle lc name).data =
        ((lc name).data.filter
          (fun c => decide (('a' ≤ c ∧ c ≤ 'z') ∨ ('0' ≤ c ∧ c ≤ '9')))).take 30 ∧
      (∀ c ∈ (deriveHandle lc name).data, ('a' ≤ c ∧ c ≤ 'z') ∨ ('0' ≤ c ∧ c ≤ '9')) ∧
      jsLength (deriveHandle lc name) ≤ 30 ∧
      deriveHandle lc (deriveHandle lc name) = deriveHandle lc name ∧
      castHandle lc (deriveHandle lc name) = deriveHandle lc name) ∧
    (∀ (m : Bool) (d : ChannelDraft), truthy d.handle = true → channelPreSave lc m d = some d) ∧
    (∀ d : ChannelDraft, channelPreSave lc false d = some d) := by
  refine ⟨?_, ?_, ?_, ?_⟩
  · intro d name hn hh
    simp [channelPreSave, hn, hh]
  · intro name
    have hall := deriveHandle_lowerAlnum lc name
    have hfix := hlc _ hall
    refine ⟨?_, ?_, ?_, ?_, ?_⟩
    · show ((lc name).data.filter isLowerAlnum).take 30 = _
      congr 1
      apply List.filter_congr
      intro c _
      by_cases hc : isLowerAlnum c = true
      · rw [hc]; exact (decide_eq_true ((lowerAlnum_iff c).mp hc)).symm
      · have hc2 : isLowerAlnum c = false := by simpa using hc
        rw [hc2]
        exact (decide_eq_false (fun hx => hc ((lowerAlnum_iff c).mpr hx))).symm
    · intro c hc
      exact (lowerAlnum_iff c).mp (hall c hc)
    · rw [jsLength_of_lowerAlnum _ hall]
      exact deriveHandle_length lc name
    · exact deriveHandle_of_lowerAlnum lc _ hfix hall (deriveHandle_length lc name)
    · unfold castHandle trim
      rw [trimChars_of_no_whiteSpace _
        (fun c hc => isWhiteSpace_of_lowerAlnum c (hall c hc))]
      exact hfix
  · intro m d hh
    simp [channelPreSave, hh]
  · intro d
    simp [channelPreSave]

theorem preSave_derives_handle_witness :
    (∀ s : String, (∀ c ∈ s.data, isLowerAlnum c = true) → asciiLower s = s) ∧
    ((newChannelDraft asciiLower (mkChannelBody "My Channel 42!" none) 1).channelName =
        some "My Channel 42!" ∧
      truthy (newChannelDraft asciiLower (mkChannelBody "My Channel 42!" none) 1).handle =
        false) ∧
    deriveHandle asciiLower "My Channel 42!" = "mychannel42" ∧
    deriveHandle asciiLower "The Quick Brown Fox Jumps Over The Lazy Dog 42" =
      "thequickbrownfoxjumpsoverthela" ∧
    channelPreSave asciiLower true
        (newChannelDraft asciiLower (mkChannelBody "My Channel 42!" none) 1) =
      some { newChannelDraft asciiLower (mkChannelBody "My Channel 42!" none) 1 with
             handle := some (deriveHandle asciiLower "My Channel 42!") } :=
  ⟨asciiLower_of_lowerAlnum, ⟨by decide, by decide⟩, by decide, by decide,
   (preSave_derives_handle asciiLower asciiLower_of_lowerAlnum).1
     (newChannelDraft asciiLower (mkChannelBody "My Channel 42!" none) 1)
     "My Channel 42!" (by decide) (by decide)⟩

/-! ## Tags -/

theorem trimChars_eq_rdropWhile (cs : List Char) :
    trimChars cs = (cs.dropWhile isWhiteSpace).rdropWhile isWhiteSpace := rfl

theorem trimChars_head (cs : List Char) (c : Char) (h : (trimChars cs).head? = some c) :
    isWhiteSpace c = false := by
  rw [trimChars_eq_rdropWhile] at h
  have hp : (cs.dropWhile isWhiteSpace).rdropWhile isWhiteSpace <+:
      cs.dropWhile isWhiteSpace := List.rdropWhile_prefix _ _
  obtain ⟨t, ht⟩ := hp
  cases hr : (cs.dropWhile isWhiteSpace).rdropWhile isWhiteSpace with
  | nil => rw [hr] at h; cases h
  | cons x xs =>
    rw [hr] at h ht
    simp only [List.head?_cons, Option.some.injEq] at h
    subst h
    have hd : (cs.dropWhile isWhiteSpace).head? = some x := by rw [← ht]; rfl
    have := List.head?_dropWhile_not isWhiteSpace cs
    rw [hd] at this
    simpa using this

theorem trimChars_getLast (cs : List Char) (c : Char) (h : (trimChars cs).getLast? = some c) :
    isWhiteSpace c = false := by
  rw [trimChars_eq_rdropWhile] at h
  have hne : (cs.dropWhile isWhiteSpace).rdropWhile isWhiteSpace ≠ [] := by
    intro hx; rw [hx] at h; cases h
  have := List.rdropWhile_last_not isWhiteSpace (cs.dropWhile isWhiteSpace) hne
  rw [List.getLast?_eq_getLast _ hne] at h
  simp only [Option.some.injEq] at h
  rw [h] at this
  simpa using this

theorem trimChars_of_trimmed (cs : List Char)
    (hh : ∀ c, cs.head? = some c → isWhiteSpace c = false)
    (hl : ∀ c, cs.getLast? = some c → isWhiteSpace c = false) : trimChars cs = cs := by
  rw [trimChars_eq_rdropWhile]
  have h1 : cs.dropWhile isWhiteSpace = cs := by
    cases cs with
    | nil => rfl
    | cons x xs => simp [List.dropWhile, hh x rfl]
  rw [h1]
  rw [List.rdropWhile_eq_self_iff]
  intro hne
  have := hl (cs.getLast hne) (List.getLast?_eq_getLast _ hne)
  simp [this]

theorem trimChars_idem (cs : List Char) : trimChars (trimChars cs) = trimChars cs :=
  trimChars_of_trimmed _ (trimChars_head cs) (trimChars_getLast cs)

theorem trim_trim (t : String) : trim (trim t) = trim t := by
  unfold trim
  simp only [trimChars_idem]

theorem map_trim_map_trim (l : List String) : (l.map trim).map trim = l.map trim := by
  rw [List.map_map]
  apply List.map_congr_left
  intro t _
  exact trim_trim t

theorem splitComma_ne_nil (cs : List Char) : splitComma cs ≠ [] := by
  cases cs with
  | nil => simp [splitComma]
  | cons c cs =>
    unfold splitComma
    by_cases h : c = ','
    · simp [h]
    · simp only [h, if_false]
      cases splitComma cs <;> simp

theorem splitComma_length (cs : List Char) :
    (splitComma cs).length = cs.count ',' + 1 := by
  induction cs with
  | nil => simp [splitComma]
  | cons c cs ih =>
    unfold splitComma
    by_cases h : c = ','
    · simp [h, ih]
    · have hne := splitComma_ne_nil cs
      cases hs : splitComma cs with
      | nil => exact absurd hs hne
      | cons p ps =>
        rw [hs] at ih
        have hc : ¬ (c == ',') = true := by simpa using h
        simp only [h, if_false, List.length_cons, List.count_cons, hc] at ih ⊢
        simpa using ih

theorem splitComma_intercalate (cs : List Char) :
    List.intercalate [','] (splitComma cs) = cs := by
  induction cs with
  | nil => simp [splitComma, List.intercalate]
  | cons c cs ih =>
    unfold splitComma
    by_cases h : c = ','
    · have hne := splitComma_ne_nil cs
      cases hs : splitComma cs with
      | nil => exact absurd hs hne
      | cons p ps =>
        rw [hs] at ih
        simp only [h, if_true]
        simp only [List.intercalate] at ih ⊢
        rw [← ih]
        cases ps <;> simp [List.intersperse]
    · have hne := splitComma_ne_nil cs
      cases hs : splitComma cs with
      | nil => exact absurd hs hne
      | cons p ps =>
        rw [hs] at ih
        simp only [h, if_false]
        cases ps with
        | nil =>
          simp only [List.intercalate, List.intersperse] at ih ⊢
          rw [← ih]; simp
        | cons q qs =>
          simp only [List.intercalate, List.intersperse] at ih ⊢
          rw [← ih]; simp

theorem splitComma_no_comma (cs : List Char) : ∀ p ∈ splitComma cs, ',' ∉ p := by
  induction cs with
  | nil => simp [splitComma]
  | cons c cs ih =>
    unfold splitComma
    by_cases h : c = ','
    · simp only [h, if_true, List.mem_cons]
      rintro p (hp | hp)
      · rw [hp]; exact List.not_mem_nil _
      · exact ih p hp
    · have hne := splitComma_ne_nil cs
      cases hs : splitComma cs with
      | nil => exact absurd hs hne
      | cons p ps =>
        rw [hs] at ih
        simp only [h, if_false, List.mem_cons]
        rintro q (hq | hq)
        · rw [hq]
          intro hm
          rcases List.mem_cons.mp hm with hm | hm
          · exact h hm.symm
          · exact ih p (List.mem_cons_self _ _) hm
        · exact ih q (List.mem_cons_of_mem _ hq)

theorem videoCreate_tags (s : Store) (body : VideoBody) (tags : List String)
    (channelId uploader : ObjectId) (video : Video) (s1 : Store)
    (h : videoCreate s body tags channelId uploader = some (video, s1)) :
    video.tags = tags.map trim := by
  unfold videoCreate at h
  cases ht : body.title <;> cases hu : body.videoUrl <;> cases hcat : body.category <;>
    simp [ht, hu, hcat, truthy, validateVideo] at h
  obtain ⟨-, hv, -⟩ := h
  subst hv
  rfl

theorem videoUpdate_tags (v : Video) (body : VideoBody) (tags : List String) (v1 : Video)
    (h : videoUpdate v body tags = some v1) : v1.tags = tags.map trim := by
  unfold videoUpdate at h
  simp only [Option.ite_none_right_eq_some, Option.some.injEq] at h
  obtain ⟨-, h⟩ := h
  subst h
  rfl

theorem likeUpdate_uploader_tags (video : Video) (user : User) (userId : ObjectId) :
    (likeUpdate video user userId).1.uploader = video.uploader ∧
    (likeUpdate video user userId).1.tags = video.tags := by
  unfold likeUpdate
  by_cases h1 : includes video.likes userId = true <;>
    by_cases h2 : includes video.dislikes userId = true <;> simp [h1, h2]

theorem dislikeUpdate_uploader_tags (video : Video) (user : User) (userId : ObjectId) :
    (dislikeUpdate video user userId).1.uploader = video.uploader ∧
    (dislikeUpdate video user userId).1.tags = video.tags := by
  unfold dislikeUpdate
  by_cases h1 : includes video.likes userId = true <;>
    by_cases h2 : includes video.dislikes userId = true <;> simp [h1, h2]

/-- The video a successful createVideo stores, with its owner channel and its tags. -/
theorem createVideo_videos (s : Store) (userId : ObjectId) (body : VideoBody) :
    (createVideo s userId body).1.status ≠ 201 ∧ (createVideo s userId body).2 = s ∨
    ∃ cid channel video, body.channelId = some cid ∧
      findById Channel._id s.channels cid = some channel ∧ channel.owner = userId ∧
      video._id = s.nextId ∧ video.channel = cid ∧ video.uploader = userId ∧
      video.tags =
        (if truthy body.tags = true then splitTags (body.tags.getD "") else []).map trim ∧
      (createVideo s userId body).1.status = 201 ∧
      (createVideo s userId body).2.videos = s.videos ++ [video] := by
  cases hb : body.channelId with
  | none => left; simp [createVideo, createVideoTrace, hb, finalStore]
  | some cid =>
    cases hc : findById Channel._id s.channels cid with
    | none => left; simp [createVideo, createVideoTrace, hb, hc, finalStore]
    | some channel =>
      by_cases ho : channel.owner = userId
      · cases hv : videoCreate s body
            (if truthy body.tags = true then splitTags (body.tags.getD "") else [])
            cid userId with
        | none => left; simp [createVideo, createVideoTrace, hb, hc, ho, hv, finalStore]
        | some vs =>
          obtain ⟨video, s1⟩ := vs
          obtain ⟨hid, hch, hup, -, -, -, -, -, hs1⟩ := videoCreate_some _ _ _ _ _ _ _ hv
          have htags := videoCreate_tags _ _ _ _ _ _ _ hv
          subst hs1
          right
          exact ⟨cid, channel, video, rfl, hc, ho, hid, hch, hup, htags,
            by simp [createVideo, createVideoTrace, hb, hc, ho, hv, finalStore, push],
            by simp [createVideo, createVideoTrace, hb, hc, ho, hv, finalStore, push]⟩
      · left; simp [createVideo, createVideoTrace, hb, hc, ho, finalStore]

/-! ## Where the stored videos come from -/

theorem videoOrigin_of_mem (s : Store) (v : Video) (h : v ∈ s.videos) : VideoOrigin s v :=
  Or.inl ⟨v, h, rfl, rfl, rfl, Or.inl rfl⟩

theorem videoOrigin_of_videos_eq (s t : Store) (h : t.videos = s.videos) :
    ∀ v ∈ t.videos, VideoOrigin s v := by
  intro v hv
  rw [h] at hv
  exact videoOrigin_of_mem s v hv

theorem videoOrigin_saveDoc (s : Store) (v x : Video) (hv : v ∈ s.videos)
    (hid : x._id = v._id) (hch : x.channel = v.channel) (hup : x.uploader = v.uploader)
    (ht : x.tags = v.tags ∨ ∃ l : List String, x.tags = l.map trim) :
    ∀ v1 ∈ saveDoc Video._id s.videos x, VideoOrigin s v1 := by
  intro v1 h1
  rcases mem_saveDoc _ _ _ _ h1 with h | h
  · exact videoOrigin_of_mem s v1 h
  · rw [h]; exact Or.inl ⟨v, hv, hid, hch, hup, ht⟩

/-- Every video stored after a request is one stored before, changed at most in its
descriptive fields, counters and tags, or the video createVideo has just stored. -/
theorem step_videoOrigin (lc : String → String) (s : Store) (op : Op) :
    ∀ v1 ∈ (step lc s op).2.videos, VideoOrigin s v1 := by
  cases op with
  | createChannel u b =>
    show ∀ v1 ∈ (createChannel lc s u b).2.videos, VideoOrigin s v1
    rcases createChannel_store lc s u b with h1 | ⟨c, -, -, -, -, -, h2⟩
    · exact videoOrigin_of_videos_eq s _ (by rw [h1])
    · rcases h2 with ⟨-, h2⟩ | ⟨user, -, h2⟩
      · exact videoOrigin_of_videos_eq s _ (by rw [h2])
      · exact videoOrigin_of_videos_eq s _ (by rw [h2])
  | updateChannel u c b =>
    show ∀ v1 ∈ (updateChannel s u c b).2.videos, VideoOrigin s v1
    rcases updateChannel_channels s u c b with h1 | ⟨ch, ch1, -, -, -, h2⟩
    · exact videoOrigin_of_videos_eq s _ (by rw [h1])
    · exact videoOrigin_of_videos_eq s _ (by rw [h2])
  | deleteChannel u c =>
    show ∀ v1 ∈ (deleteChannel s u c).2.videos, VideoOrigin s v1
    rcases deleteChannel_store s u c with h1 | ⟨ch, -, -, h2⟩ | ⟨ch, o, -, -, -, h2⟩
    · exact videoOrigin_of_videos_eq s _ (by rw [h1])
    · intro v1 hv1
      rw [h2] at hv1
      exact videoOrigin_of_mem s v1 (List.mem_filter.mp hv1).1
    · intro v1 hv1
      rw [h2] at hv1
      exact videoOrigin_of_mem s v1 (List.mem_filter.mp hv1).1
  | subscribeToChannel u c =>
    show ∀ v1 ∈ (subscribeToChannel s u c).2.videos, VideoOrigin s v1
    rcases subscribeToChannel_store s u c with h1 | ⟨ch, user, -, -, -, -, h2⟩
    · exact videoOrigin_of_videos_eq s _ (by rw [h1])
    · exact videoOrigin_of_videos_eq s _ (by rw [h2])
  | getVideo v =>
    show ∀ v1 ∈ (getVideo s v).2.videos, VideoOrigin s v1
    rcases getVideo_store s v with ⟨-, -, h1⟩ | ⟨video, hf, -, h2⟩
    · exact videoOrigin_of_videos_eq s _ (by rw [h1])
    · rw [h2]
      exact videoOrigin_saveDoc s video _ (findById_mem _ _ _ _ hf) rfl rfl rfl (Or.inl rfl)
  | createVideo u b =>
    show ∀ v1 ∈ (createVideo s u b).2.videos, VideoOrigin s v1
    rcases createVideo_videos s u b with ⟨-, h1⟩ |
      ⟨cid, ch, video, -, hf, ho, -, hch, hup, htags, -, h2⟩
    · exact videoOrigin_of_videos_eq s _ (by rw [h1])
    · intro v1 hv1
      rw [h2, List.mem_append, List.mem_singleton] at hv1
      rcases hv1 with hv1 | hv1
      · exact videoOrigin_of_mem s v1 hv1
      · rw [hv1]
        refine Or.inr ⟨ch, ?_, ?_, _, htags⟩
        · rw [hch]; exact hf
        · rw [hup, ho]
  | updateVideo u v b =>
    show ∀ v1 ∈ (updateVideo s u v b).2.videos, VideoOrigin s v1
    rcases updateVideo_store s u v b with h1 | ⟨video, video1, hf, -, hu, h2⟩
    · exact videoOrigin_of_videos_eq s _ (by rw [h1])
    · have hd := videoUpdate_only_descriptive video b _ video1 hu
      have htags := videoUpdate_tags video b _ video1 hu
      rw [h2]
      refine videoOrigin_saveDoc s video video1 (findById_mem _ _ _ _ hf) ?_ ?_ ?_
        (Or.inr ⟨_, htags⟩)
      · rw [hd]
      · rw [hd]
      · rw [hd]
  | deleteVideo u v =>
    show ∀ v1 ∈ (deleteVideo s u v).2.videos, VideoOrigin s v1
    rcases deleteVideo_store s u v with h1 | ⟨video, -, -, h2⟩
    · exact videoOrigin_of_videos_eq s _ (by rw [h1])
    · rcases h2 with ⟨ch, -, h3⟩ | ⟨-, h3⟩
      · intro v1 hv1
        rw [h3] at hv1
        exact videoOrigin_of_mem s v1 (mem_deleteById _ _ _ _ hv1)
      · intro v1 hv1
        rw [h3] at hv1
        exact videoOrigin_of_mem s v1 (mem_deleteById _ _ _ _ hv1)
  | likeVideo u v =>
    show ∀ v1 ∈ (likeVideo s u v).2.videos, VideoOrigin s v1
    rcases likeVideo_store s u v with h1 | ⟨video, user, hf, -, h2⟩
    · exact videoOrigin_of_videos_eq s _ (by rw [h1])
    · rw [h2]
      exact videoOrigin_saveDoc s video _ (findById_mem _ _ _ _ hf)
        (likeUpdate_id video user u) (likeUpdate_channel video user u)
        (likeUpdate_uploader_tags video user u).1
        (Or.inl (likeUpdate_uploader_tags video user u).2)
  | dislikeVideo u v =>
    show ∀ v1 ∈ (dislikeVideo s u v).2.videos, VideoOrigin s v1
    rcases dislikeVideo_store s u v with h1 | ⟨video, user, hf, -, h2⟩
    · exact videoOrigin_of_videos_eq s _ (by rw [h1])
    · rw [h2]
      exact videoOrigin_saveDoc s video _ (findById_mem _ _ _ _ hf)
        (dislikeUpdate_id video user u) (dislikeUpdate_channel video user u)
        (dislikeUpdate_uploader_tags video user u).1
        (Or.inl (dislikeUpdate_uploader_tags video user u).2)
  | addComment u t v =>
    show ∀ v1 ∈ (addComment s u t v).2.videos, VideoOrigin s v1
    rcases addComment_store s u t v with h1 | ⟨c, h1⟩
    · exact videoOrigin_of_videos_eq s _ (by rw [h1])
    · exact videoOrigin_of_videos_eq s _ (by rw [h1])
  | updateComment u c t n =>
    show ∀ v1 ∈ (updateComment s u c t n).2.videos, VideoOrigin s v1
    obtain ⟨cs, h1⟩ := updateComment_store s u c t n
    exact videoOrigin_of_videos_eq s _ (by rw [h1])
  | deleteComment u c =>
    show ∀ v1 ∈ (deleteComment s u c).2.videos, VideoOrigin s v1
    obtain ⟨cs, h1⟩ := deleteComment_store s u c
    exact videoOrigin_of_videos_eq s _ (by rw [h1])
  | likeComment u c =>
    show ∀ v1 ∈ (likeComment s u c).2.videos, VideoOrigin s v1
    obtain ⟨cs, h1⟩ := likeComment_store s u c
    exact videoOrigin_of_videos_eq s _ (by rw [h1])

theorem step_tagsTrimmed (lc : String → String) (s : Store) (op : Op)
    (h : TagsTrimmed s) : TagsTrimmed (step lc s op).2 := by
  intro v1 hv1 t ht
  rcases step_videoOrigin lc s op v1 hv1 with
    ⟨v, hv, -, -, -, htags | ⟨l, hl⟩⟩ | ⟨c, -, -, l, hl⟩
  · rw [htags] at ht; exact h v hv t ht
  · rw [hl] at ht
    obtain ⟨x, -, rfl⟩ := List.mem_map.mp ht
    exact trim_trim x
  · rw [hl] at ht
    obtain ⟨x, -, rfl⟩ := List.mem_map.mp ht
    exact trim_trim x

theorem run_tagsTrimmed (lc : String → String) (ops : List Op) :
    ∀ s : Store, TagsTrimmed s → TagsTrimmed (run lc s ops) := by
  induction ops with
  | nil => intro s h; exact h
  | cons op rest ih =>
    intro s h
    show TagsTrimmed (run lc (step lc s op).2 rest)
    exact ih _ (step_tagsTrimmed lc s op h)

theorem mem_map_trim_trimmed (l : List String) :
    ∀ tag ∈ l.map trim,
      (∀ c, tag.data.head? = some c → isWhiteSpace c = false) ∧
      (∀ c, tag.data.getLast? = some c → isWhiteSpace c = false) := by
  intro tag ht
  obtain ⟨x, -, rfl⟩ := List.mem_map.mp ht
  exact ⟨trimChars_head x.data, trimChars_getLast x.data⟩

theorem splitTags_map_trim (t : String) :
    (splitTags t).map trim = (splitComma t.data).map (fun p => trim (String.mk p)) := by
  unfold splitTags
  rw [List.map_map]
  apply List.map_congr_left
  intro p _
  exact trim_trim _

theorem map_trim_of_trimmed (l : List String) (h : ∀ t ∈ l, trim t = t) : l.map trim = l := by
  conv_rhs => rw [← List.map_id l]
  apply List.map_congr_left
  intro t ht
  exact h t ht

/-- C22: split(',') cuts a string at its commas (k commas give k + 1 pieces without a
comma, which joined by commas give the string back). A createVideo that answers 201
stores a video whose tags, for a non-empty tags string, are these pieces trimmed, in
order, and for a missing or empty tags string the empty list. An updateVideo that
answers 200 stores the pieces trimmed in the same way, and for a missing or empty tags
string leaves the tags of a video whose tags are trimmed as they are. No tag stored
by either handler begins or ends with white space, and in every store reached by
requests from a store whose tags are trimmed (such as one without videos) every tag
is trimmed. -/
theorem tags_are_split_and_trimmed (s : Store) (userId : ObjectId) (body : VideoBody) :
    (∀ cs : List Char, (splitComma cs).length = cs.count ',' + 1 ∧
      List.intercalate [','] (splitComma cs) = cs ∧ ∀ p ∈ splitComma cs, ',' ∉ p) ∧
    ((createVideo s userId body).1.status = 201 →
      ∃ video, (createVideo s userId body).2.videos = s.videos ++ [video] ∧
        (∀ t, body.tags = some t → t ≠ "" →
          video.tags = (splitComma t.data).map (fun p => trim (String.mk p)) ∧
          video.tags.length = t.data.count ',' + 1) ∧
        (body.tags = none ∨ body.tags = some "" → video.tags = []) ∧
        ∀ tag ∈ video.tags,
          (∀ c, tag.data.head? = some c → isWhiteSpace c = false) ∧
          (∀ c, tag.data.getLast? = some c → isWhiteSpace c = false)) ∧
    (∀ videoId, (updateVideo s userId videoId body).1.status = 200 →
      ∃ video video1, findById Video._id s.videos videoId = some video ∧
        findById Video._id (updateVideo s userId videoId body).2.videos videoId =
          some video1 ∧
        (∀ t, body.tags = some t → t ≠ "" →
          video1.tags = (splitComma t.data).map (fun p => trim (String.mk p)) ∧
          video1.tags.length = t.data.count ',' + 1) ∧
        (body.tags = none ∨ body.tags = some "" → (∀ tag ∈ video.tags, trim tag = tag) →
          video1.tags = video.tags) ∧
        ∀ tag ∈ video1.tags,
          (∀ c, tag.data.head? = some c → isWhiteSpace c = false) ∧
          (∀ c, tag.data.getLast? = some c → isWhiteSpace c = false)) ∧
    (∀ (lc : String → String) (ops : List Op),
      (∀ v ∈ s.videos, ∀ tag ∈ v.tags, trim tag = tag) →
      ∀ v ∈ (run lc s ops).videos, ∀ tag ∈ v.tags, trim tag = tag) := by
  refine ⟨?_, ?_, ?_, ?_⟩
  · intro cs
    exact ⟨splitComma_length cs, splitComma_intercalate cs, splitComma_no_comma cs⟩
  · intro h201
    rcases createVideo_videos s userId body with ⟨hne, -⟩ |
      ⟨cid, ch, video, -, -, -, -, -, -, htags, -, hvideos⟩
    · exact absurd h201 hne
    · refine ⟨video, hvideos, ?_, ?_, ?_⟩
      · intro t ht hnonempty
        have htr : truthy body.tags = true := by rw [ht]; exact truthy_of_ne_empty t hnonempty
        have hval : video.tags = (splitComma t.data).map (fun p => trim (String.mk p)) := by
          rw [htags, htr, if_pos rfl, ht]
          exact splitTags_map_trim t
        refine ⟨hval, ?_⟩
        rw [hval, List.length_map]
        exact splitComma_length _
      · intro hmissing
        have htr : truthy body.tags = false := by
          rcases hmissing with h | h <;> rw [h] <;> rfl
        rw [htags, htr]
        rfl
      · rw [htags]
        exact mem_map_trim_trimmed _
  · intro videoId h200
    obtain ⟨video, video1, hf, -, hu, hstore⟩ := updateVideo_ok s userId videoId body h200
    have hd := videoUpdate_only_descriptive video body _ video1 hu
    have htags := videoUpdate_tags video body _ video1 hu
    have hk : video._id = videoId := findById_key _ _ _ _ hf
    have hid : video1._id = videoId := by rw [hd]; exact hk
    refine ⟨video, video1, hf, ?_, ?_, ?_, ?_⟩
    · rw [hstore]
      show findById Video._id (saveDoc Video._id s.videos video1) videoId = some video1
      rw [← hid]
      apply findById_saveDoc_same Video._id s.videos video1 video
      rw [hid]; exact hf
    · intro t ht hnonempty
      have htr : truthy body.tags = true := by rw [ht]; exact truthy_of_ne_empty t hnonempty
      have hval : video1.tags = (splitComma t.data).map (fun p => trim (String.mk p)) := by
        rw [htags, htr, if_pos rfl, ht]
        exact splitTags_map_trim t
      refine ⟨hval, ?_⟩
      rw [hval, List.length_map]
      exact splitComma_length _
    · intro hmissing htrimmed
      have htr : truthy body.tags = false := by
        rcases hmissing with h | h <;> rw [h] <;> rfl
      rw [htags, htr]
      exact map_trim_of_trimmed _ htrimmed
    · rw [htags]
      exact mem_map_trim_trimmed _
  · intro lc ops h
    exact run_tagsTrimmed lc ops s h

theorem tags_are_split_and_trimmed_witness :
    ((createVideo demoStore 1 (taggedBody (some " a , b,,c d "))).1.status = 201 ∧
      (updateVideo demoStore 1 20 (tagsOnlyBody (some "x, y "))).1.status = 200 ∧
      (updateVideo demoStore 1 20 (tagsOnlyBody none)).1.status = 200 ∧
      ∀ v ∈ usersOnlyStore.videos, ∀ tag ∈ v.tags, trim tag = tag) ∧
    ((createVideo demoStore 1 (taggedBody (some " a , b,,c d "))).2.videos.map Video.tags =
        [[], ["a", "b", "", "c d"]] ∧
      (createVideo demoStore 1 (taggedBody (some ""))).2.videos.map Video.tags = [[], []] ∧
      (updateVideo demoStore 1 20 (tagsOnlyBody (some "x, y "))).2.videos.map Video.tags =
        [["x", "y"]] ∧
      (updateVideo demoStore 1 20 (tagsOnlyBody none)).2.videos.map Video.tags = [[]]) ∧
    (∃ video, (createVideo demoStore 1 (taggedBody (some " a , b,,c d "))).2.videos =
        demoStore.videos ++ [video] ∧
      (∀ t, (taggedBody (some " a , b,,c d ")).tags = some t → t ≠ "" →
        video.tags = (splitComma t.data).map (fun p => trim (String.mk p)) ∧
        video.tags.length = t.data.count ',' + 1) ∧
      ((taggedBody (some " a , b,,c d ")).tags = none ∨
        (taggedBody (some " a , b,,c d ")).tags = some "" → video.tags = []) ∧
      ∀ tag ∈ video.tags,
        (∀ c, tag.data.head? = some c → isWhiteSpace c = false) ∧
        (∀ c, tag.data.getLast? = some c → isWhiteSpace c = false)) ∧
    (∀ v ∈ (run asciiLower usersOnlyStore uploadScenario).videos,
      ∀ tag ∈ v.tags, trim tag = tag) :=
  ⟨⟨by decide, by decide, by decide, by decide⟩,
   ⟨by decide, by decide, by decide, by decide⟩,
   (tags_are_split_and_trimmed demoStore 1 (taggedBody (some " a , b,,c d "))).2.1
     (by decide),
   (tags_are_split_and_trimmed usersOnlyStore 1 (taggedBody none)).2.2.2
     asciiLower uploadScenario (by decide)⟩

/-! ## Videos and the owners of their channels -/

theorem findById_deleteById_other {α : Type} (key : α → ObjectId) (docs : List α)
    (id id1 : ObjectId) (h : id ≠ id1) :
    findById key (deleteById key docs id) id1 = findById key docs id1 := by
  induction docs with
  | nil => rfl
  | cons d ds ih =>
    unfold deleteById
    by_cases hk : key d = id
    · have hne : ¬ key d = id1 := fun hx => h (hk.symm.trans hx)
      rw [if_pos hk, findById_cons, if_neg hne]
    · rw [if_neg hk, findById_cons, findById_cons, ih]

theorem channelKept_of_channels_eq (s t : Store) (cid : ObjectId) (c : Channel)
    (h : t.channels = s.channels) (hf : findById Channel._id s.channels cid = some c) :
    (∃ c1, findById Channel._id t.channels cid = some c1 ∧ c1.owner = c.owner) ∨
    (∀ v ∈ t.videos, v.channel ≠ cid) := by
  left
  rw [h]
  exact ⟨c, hf, rfl⟩

theorem channelKept_saveDoc (channels : List Channel) (c0 x c : Channel) (cid : ObjectId)
    (hx : findById Channel._id channels x._id = some c0) (ho : x.owner = c0.owner)
    (hf : findById Channel._id channels cid = some c) :
    ∃ c1, findById Channel._id (saveDoc Channel._id channels x) cid = some c1 ∧
      c1.owner = c.owner := by
  rw [findById_saveDoc]
  by_cases hk : x._id = cid
  · rw [hk] at hx
    rw [hf] at hx
    have hc : c = c0 := Option.some.inj hx
    rw [if_pos hk, hf]
    exact ⟨x, rfl, by rw [ho, hc]⟩
  · rw [if_neg hk]
    exact ⟨c, hf, rfl⟩

/-- A stored channel is still stored after a request, with the same owner, unless the
request has deleted the channel together with every video that references it. -/
theorem step_channelKept (lc : String → String) (s : Store) (op : Op) (cid : ObjectId)
    (c : Channel) (hf : findById Channel._id s.channels cid = some c) :
    (∃ c1, findById Channel._id (step lc s op).2.channels cid = some c1 ∧
      c1.owner = c.owner) ∨
    (∀ v ∈ (step lc s op).2.videos, v.channel ≠ cid) := by
  cases op with
  | createChannel u b =>
    show (∃ c1, findById Channel._id (createChannel lc s u b).2.channels cid = some c1 ∧
      c1.owner = c.owner) ∨ (∀ v ∈ (createChannel lc s u b).2.videos, v.channel ≠ cid)
    left
    have key : ∀ x : Channel, ∃ c1, findById Channel._id (s.channels ++ [x]) cid = some c1 ∧
        c1.owner = c.owner := by
      intro x
      rw [findById_append_single, hf]
      exact ⟨c, rfl, rfl⟩
    rcases createChannel_store lc s u b with h1 | ⟨x, -, -, -, -, -, h2⟩
    · rw [h1]; exact ⟨c, hf, rfl⟩
    · rcases h2 with ⟨-, h2⟩ | ⟨user, -, h2⟩
      · rw [h2]; exact key x
      · rw [h2]; exact key x
  | updateChannel u ch b =>
    show (∃ c1, findById Channel._id (updateChannel s u ch b).2.channels cid = some c1 ∧
      c1.owner = c.owner) ∨ (∀ v ∈ (updateChannel s u ch b).2.videos, v.channel ≠ cid)
    left
    rcases updateChannel_channels s u ch b with h1 | ⟨c0, x, hc0, -, hu, h2⟩
    · rw [h1]; exact ⟨c, hf, rfl⟩
    · obtain ⟨hid, ho, -⟩ := channelUpdate_frame _ _ _ hu
      have hk : c0._id = ch := findById_key _ _ _ _ hc0
      rw [h2]
      exact channelKept_saveDoc s.channels c0 x c cid (by rw [hid, hk]; exact hc0) ho hf
  | deleteChannel u ch =>
    show (∃ c1, findById Channel._id (deleteChannel s u ch).2.channels cid = some c1 ∧
      c1.owner = c.owner) ∨ (∀ v ∈ (deleteChannel s u ch).2.videos, v.channel ≠ cid)
    rcases deleteChannel_store s u ch with h1 | ⟨c0, -, -, h2⟩ | ⟨c0, o, -, -, -, h2⟩
    · left; rw [h1]; exact ⟨c, hf, rfl⟩
    · left; rw [h2]; exact ⟨c, hf, rfl⟩
    · by_cases hk : ch = cid
      · right
        intro v hv
        rw [h2] at hv
        have := (List.mem_filter.mp hv).2
        rw [← hk]
        simpa using this
      · left
        rw [h2]
        show ∃ c1, findById Channel._id (deleteById Channel._id s.channels ch) cid = some c1 ∧
          c1.owner = c.owner
        rw [findById_deleteById_other _ _ _ _ hk]
        exact ⟨c, hf, rfl⟩
  | subscribeToChannel u ch =>
    show (∃ c1, findById Channel._id (subscribeToChannel s u ch).2.channels cid = some c1 ∧
      c1.owner = c.owner) ∨ (∀ v ∈ (subscribeToChannel s u ch).2.videos, v.channel ≠ cid)
    left
    rcases subscribeToChannel_store s u ch with h1 | ⟨c0, user, hc0, -, -, -, h2⟩
    · rw [h1]; exact ⟨c, hf, rfl⟩
    · have hk : c0._id = ch := findById_key _ _ _ _ hc0
      rw [h2]
      exact channelKept_saveDoc s.channels c0 _ c cid
        (by rw [subscribeUpdate_id, hk]; exact hc0) (subscribeUpdate_owner c0 user u) hf
  | getVideo v => exact channelKept_of_channels_eq s _ cid c (getVideo_channels s v) hf
  | createVideo u b =>
    show (∃ c1, findById Channel._id (createVideo s u b).2.channels cid = some c1 ∧
      c1.owner = c.owner) ∨ (∀ v ∈ (createVideo s u b).2.videos, v.channel ≠ cid)
    left
    rcases createVideo_channels s u b with h1 | ⟨ch, c0, vid, -, hc0, -, h2⟩
    · rw [h1]; exact ⟨c, hf, rfl⟩
    · have hk : c0._id = ch := findById_key _ _ _ _ hc0
      rw [h2]
      refine channelKept_saveDoc s.channels c0 _ c cid ?_ rfl hf
      show findById Channel._id s.channels c0._id = some c0
      rw [hk]; exact hc0
  | updateVideo u v b =>
    exact channelKept_of_channels_eq s _ cid c (updateVideo_channels s u v b) hf
  | deleteVideo u v =>
    show (∃ c1, findById Channel._id (deleteVideo s u v).2.channels cid = some c1 ∧
      c1.owner = c.owner) ∨ (∀ x ∈ (deleteVideo s u v).2.videos, x.channel ≠ cid)
    left
    rcases deleteVideo_channels s u v with h1 | ⟨video, c0, -, -, hc0, h2⟩
    · rw [h1]; exact ⟨c, hf, rfl⟩
    · have hk : c0._id = video.channel := findById_key _ _ _ _ hc0
      rw [h2]
      refine channelKept_saveDoc s.channels c0 _ c cid ?_ rfl hf
      show findById Channel._id s.channels c0._id = some c0
      rw [hk]; exact hc0
  | likeVideo u v =>
    exact channelKept_of_channels_eq s _ cid c (likeVideo_channels s u v) hf
  | dislikeVideo u v =>
    exact channelKept_of_channels_eq s _ cid c (dislikeVideo_channels s u v) hf
  | addComment u t v =>
    exact channelKept_of_channels_eq s _ cid c (addComment_channels s u t v) hf
  | updateComment u cm t n =>
    exact channelKept_of_channels_eq s _ cid c (updateComment_channels s u cm t n) hf
  | deleteComment u cm =>
    exact channelKept_of_channels_eq s _ cid c (deleteComment_channels s u cm) hf
  | likeComment u cm =>
    exact channelKept_of_channels_eq s _ cid c (likeComment_channels s u cm) hf

theorem step_uploadersOwnChannels (lc : String → String) (s : Store) (op : Op)
    (h : UploadersOwnChannels s) : UploadersOwnChannels (step lc s op).2 := by
  intro v1 hv1
  have hold : ∀ c, findById Channel._id s.channels v1.channel = some c →
      v1.uploader = c.owner →
      ∃ c1, findById Channel._id (step lc s op).2.channels v1.channel = some c1 ∧
        v1.uploader = c1.owner := by
    intro c hf ho
    rcases step_channelKept lc s op v1.channel c hf with ⟨c1, hf1, ho1⟩ | hgone
    · exact ⟨c1, hf1, by rw [ho, ho1]⟩
    · exact absurd rfl (hgone v1 hv1)
  rcases step_videoOrigin lc s op v1 hv1 with ⟨v, hv, -, hch, hup, -⟩ | ⟨c, hf, ho, -⟩
  · obtain ⟨c, hf, ho⟩ := h v hv
    exact hold c (by rw [hch]; exact hf) (by rw [hup]; exact ho)
  · exact hold c hf ho

theorem run_uploadersOwnChannels (lc : String → String) (ops : List Op) :
    ∀ s : Store, UploadersOwnChannels s → UploadersOwnChannels (run lc s ops) := by
  induction ops with
  | nil => intro s h; exact h
  | cons op rest ih =>
    intro s h
    show UploadersOwnChannels (run lc (step lc s op).2 rest)
    exact ih _ (step_uploadersOwnChannels lc s op h)

/-- Where every video belongs to a channel of its uploader, the videos deleteChannel
removes were uploaded by the caller. -/
theorem deleteChannel_removes_own_videos (s : Store) (h : UploadersOwnChannels s)
    (userId channelId : ObjectId) :
    ∀ v ∈ s.videos, v ∉ (deleteChannel s userId channelId).2.videos → v.uploader = userId := by
  intro v hv hgone
  have key : ∀ c0 : Channel, findById Channel._id s.channels channelId = some c0 →
      c0.owner = userId →
      v ∉ s.videos.filter (fun x => x.channel != channelId) → v.uploader = userId := by
    intro c0 hc0 ho hnot
    have hch : v.channel = channelId := by
      by_contra hne
      exact hnot (List.mem_filter.mpr ⟨hv, by simpa using hne⟩)
    obtain ⟨c, hf, hup⟩ := h v hv
    rw [hch, hc0] at hf
    rw [hup, ← Option.some.inj hf, ho]
  rcases deleteChannel_store s userId channelId with
    h1 | ⟨c0, hc0, ho, h2⟩ | ⟨c0, o, hc0, ho, -, h2⟩
  · rw [h1] at hgone; exact absurd hv hgone
  · rw [h2] at hgone; exact key c0 hc0 ho hgone
  · rw [h2] at hgone; exact key c0 hc0 ho hgone

/-- C23: in every store reached from a store without videos by any sequence of requests
to the handlers, every stored video references a stored channel whose owner is the
video's uploader; hence every video that a deleteChannel call removes from such a
store was uploaded by the caller. -/
theorem videos_belong_to_a_channel_of_their_uploader (lc : String → String) (s0 : Store)
    (hv : s0.videos = []) (ops : List Op) :
    (∀ v ∈ (run lc s0 ops).videos,
      ∃ c, findById Channel._id (run lc s0 ops).channels v.channel = some c ∧
        v.uploader = c.owner) ∧
    ∀ (userId channelId : ObjectId), ∀ v ∈ (run lc s0 ops).videos,
      v ∉ (deleteChannel (run lc s0 ops) userId channelId).2.videos →
      v.uploader = userId := by
  have h0 : UploadersOwnChannels s0 := by
    intro v hmem
    rw [hv] at hmem
    cases hmem
  have h := run_uploadersOwnChannels lc ops s0 h0
  exact ⟨h, deleteChannel_removes_own_videos _ h⟩

theorem videos_belong_to_a_channel_of_their_uploader_witness :
    usersOnlyStore.videos = [] ∧
    ((run asciiLower usersOnlyStore (uploadScenario.take 6)).videos.map
        (fun v => (v._id, v.channel, v.uploader)) = [(102, 100, 1), (104, 103, 2)] ∧
      (run asciiLower usersOnlyStore (uploadScenario.take 6)).channels.map
        (fun c => (c._id, c.owner)) = [(100, 1), (103, 2)] ∧
      (deleteChannel (run asciiLower usersOnlyStore (uploadScenario.take 6)) 2 103).2.videos.map
        (fun v => (v._id, v.channel, v.uploader)) = [(102, 100, 1)]) ∧
    (∀ v ∈ (run asciiLower usersOnlyStore (uploadScenario.take 6)).videos,
      ∃ c, findById Channel._id
          (run asciiLower usersOnlyStore (uploadScenario.take 6)).channels v.channel = some c ∧
        v.uploader = c.owner) ∧
    ∀ (userId channelId : ObjectId),
      ∀ v ∈ (run asciiLower usersOnlyStore (uploadScenario.take 6)).videos,
        v ∉ (deleteChannel (run asciiLower usersOnlyStore (uploadScenario.take 6))
          userId channelId).2.videos →
        v.uploader = userId :=
  ⟨rfl, ⟨by decide, by decide, by decide⟩,
   videos_belong_to_a_channel_of_their_uploader asciiLower usersOnlyStore rfl
     (uploadScenario.take 6)⟩

/-! ## The scan of protect -/

theorem findUserByClaim_of_not_truthy (users : List User) (c : IdClaim)
    (h : ¬ c.truthy = true) : findUserByClaim users c = none := by
  cases c with
  | absent => rfl
  | malformed raw => rfl
  | id oid canonical => exact absurd rfl h

theorem scanUsers_none_of_direct (users : List User) (d : Decoded)
    (h1 : findUserByClaim users d.id = none) (h2 : findUserByClaim users d.userId = none) :
    scanUsers users (if d.id.truthy = true then d.id else d.userId) = none := by
  apply scanUsers_none
  by_cases hi : d.id.truthy = true
  · rw [if_pos hi]; exact h1
  · rw [if_neg hi]; exact h2

/-- C24: for every store, every jwt.verify and every Authorization header, protect
gives the same result (the same user passed to next, or the same 401 answer) as the
middleware with only the direct lookups by decoded.id and decoded.userId; and whenever
both direct lookups find no user, the scan of the first 10 users finds none either. -/
theorem protect_scan_is_redundant (verify : String → Option Decoded) (s : Store)
    (authorization : Option String) :
    protect verify s authorization = protectDirect verify s authorization ∧
    ∀ d : Decoded, findUserByClaim s.users d.id = none →
      findUserByClaim s.users d.userId = none →
      scanUsers s.users (if d.id.truthy = true then d.id else d.userId) = none := by
  refine ⟨?_, fun d h1 h2 => scanUsers_none_of_direct s.users d h1 h2⟩
  unfold protect protectDirect
  by_cases ht : truthy (bearerToken authorization) = true
  · simp only [ht, Bool.not_true, Bool.false_eq_true, if_false]
    cases hv : verify ((bearerToken authorization).getD "") with
    | none => rfl
    | some d =>
      simp only []
      cases h1 : findUserByClaim s.users d.id with
      | some u => simp
      | none =>
        by_cases hu : d.userId.truthy = true
        · cases h2 : findUserByClaim s.users d.userId with
          | some u => simp [hu, h2]
          | none =>
            have hscan := scanUsers_none_of_direct s.users d h1 h2
            simp [hu, h2, hscan]
        · have h2 := findUserByClaim_of_not_truthy s.users d.userId hu
          have hscan := scanUsers_none_of_direct s.users d h1 h2
          simp [hu, hscan]
  · simp [ht]

theorem protect_scan_is_redundant_witness :
    (findUserByClaim demoStore.users (IdClaim.id 7 true) = none ∧
      findUserByClaim demoStore.users (IdClaim.malformed "me") = none) ∧
    protect (fun t => if t = "tok1" then some ⟨.id 7 true, .malformed "me"⟩ else none)
        demoStore (some "Bearer tok1") =
      .denied { status := 401, success := false, message := some "User not found" } ∧
    protect (fun t => if t = "tok1" then some ⟨.id 7 true, .malformed "me"⟩ else none)
        demoStore (some "Bearer tok1") =
      protectDirect (fun t => if t = "tok1" then some ⟨.id 7 true, .malformed "me"⟩ else none)
        demoStore (some "Bearer tok1") ∧
    scanUsers demoStore.users
      (if (IdClaim.id 7 true).truthy = true then IdClaim.id 7 true
       else IdClaim.malformed "me") = none :=
  ⟨⟨by decide, by decide⟩, by decide,
   (protect_scan_is_redundant
      (fun t => if t = "tok1" then some ⟨.id 7 true, .malformed "me"⟩ else none)
      demoStore (some "Bearer tok1")).1,
   (protect_scan_is_redundant
      (fun t => if t = "tok1" then some ⟨.id 7 true, .malformed "me"⟩ else none)
      demoStore (some "Bearer tok1")).2 ⟨.id 7 true, .malformed "me"⟩ (by decide) (by decide)⟩

end YoutubeBackend
